import Mathlib

/-! Slippi replay decoder (`src/parser.cpp`) and analyzer predicates (`src/analyzer.h`):
shallow embedding

The decoder is a forward-only cursor over a read buffer.  Each member
function of `slip::Parser` on the path from the header to the metadata
trailer is embedded as a Lean function from parser state to a success
flag and the state the call leaves behind (also on failure: the C++ mutates
members before it returns `false`).

Conventions used throughout:

* the read buffer `_rb` is a map from offsets to numbers, a byte being read as
  `_rb i % 256`, i.e. as its value in `0..255`; `_rb` is a `char*` and `char` is signed, so
  where the source converts an element to `unsigned` or `int` without going through
  `uint8_t`, a byte from `0x80` on is sign-extended (`charToUnsigned`, `toInt8`);
* the cursor `_bp` is an offset into that buffer (a natural number);
* the remaining-raw counter `_length_raw` is an unsigned 32-bit number: the
  one unguarded subtraction on it is taken modulo `2^32`;
* `int32_t` arithmetic is two's complement: a sum that leaves the range of 32 bits wraps
  (`toInt32`);
* 32-bit floats are carried as the 32-bit pattern read from the buffer;
* the payload-size table, the player slots and the per-player frame arrays are maps from
  index to record: an index outside the declared array stands for the memory there, about
  which nothing is assumed (array bounds and allocation are not part of the model);
* declarations the sources include from headers that are not among the source
  files (`parser.h`, `replay.h`, `util.h`, `enums.h`) are either constants the
  specification states, or fields of `Externals`, over which every theorem is
  universally quantified.
-/

namespace slip

/-! ## Constants -/

/-- Modelled from the spec: event code `0x35` (`Event::EV_PAYLOADS`, declared in `enums.h`). -/
def EV_PAYLOADS : Nat := 0x35

/-- Modelled from the spec: event code `0x36` (`Event::GAME_START`, declared in `enums.h`). -/
def GAME_START : Nat := 0x36

/-- Modelled from the spec: event code `0x37` (`Event::PRE_FRAME`, declared in `enums.h`). -/
def PRE_FRAME : Nat := 0x37

/-- Modelled from the spec: event code `0x38` (`Event::POST_FRAME`, declared in `enums.h`). -/
def POST_FRAME : Nat := 0x38

/-- Modelled from the spec: event code `0x39` (`Event::GAME_END`, declared in `enums.h`). -/
def GAME_END : Nat := 0x39

/-- Modelled from the spec: `LOAD_FRAME = -123`, the internal frame index at which the
replay stream begins (declared in a header that is not among the sources). -/
def LOAD_FRAME : Int := -123

/-! ## Byte reader (`util.h`, not among the sources) -/

/-- The byte of read buffer `rb` at offset `i`, as a value in `0..255`. -/
def byteAt (rb : Nat → Nat) (i : Nat) : Nat := rb i % 256

/-- The value `(unsigned)c` of a `char` `c` holding the byte `b`: `char` is signed, so a
byte from `0x80` on is sign-extended to `b + (2^32 - 256)`. -/
def charToUnsigned (b : Nat) : Nat := if b < 128 then b else b + 4294967040

/-- The value a 32-bit signed integer takes for the result `u`: `u` modulo `2^32`, read as
two's complement. -/
def toInt32 (u : Int) : Int :=
  if u % 4294967296 < 2147483648 then u % 4294967296 else u % 4294967296 - 4294967296

/-- The read buffer holding the bytes of `l` from offset 0 on, and zero bytes after them. -/
def bufOf (l : List Nat) : Nat → Nat := fun i => l.getD i 0

/-- Modelled from the spec: `readBE2U`, the unsigned 16-bit big-endian integer at offset `i`. -/
def readBE2U (rb : Nat → Nat) (i : Nat) : Nat :=
  256 * byteAt rb i + byteAt rb (i + 1)

/-- Modelled from the spec: `readBE4U`, the unsigned 32-bit big-endian integer at offset `i`. -/
def readBE4U (rb : Nat → Nat) (i : Nat) : Nat :=
  16777216 * byteAt rb i + 65536 * byteAt rb (i + 1) + 256 * byteAt rb (i + 2) + byteAt rb (i + 3)

/-- Modelled from the spec: `readBE4S`, the signed (two's complement) 32-bit big-endian
integer at offset `i`. -/
def readBE4S (rb : Nat → Nat) (i : Nat) : Int :=
  if readBE4U rb i < 2147483648 then (readBE4U rb i : Int) else (readBE4U rb i : Int) - 4294967296

/-- Modelled from the spec: `readBE4F`, the 32-bit big-endian float at offset `i`, carried as
its bit pattern. -/
def readBE4F (rb : Nat → Nat) (i : Nat) : Nat := readBE4U rb i

/-- Modelled from the spec: `same8`, the byte-equal compare of the eight bytes at offset `i`
against a fixed eight-byte magic. -/
def same8 (rb : Nat → Nat) (i : Nat) (magic : List Nat) : Bool :=
  (List.range 8).all (fun k => byteAt rb (i + k) == byteAt (bufOf magic) k)

/-! ## Replay model (`replay.h`, not among the sources)

Only the members that `parser.cpp` reads or writes appear.  Their C++ widths are
declared in `replay.h`; a member holds the value the parser assigns to it. -/

/-- One `SlippiFrame`: the per-player, per-frame record filled by the frame handlers. -/
structure SlippiFrame where
  frame : Int := 0
  player : Nat := 0
  follower : Bool := false
  alive : Nat := 0
  seed : Nat := 0
  action_pre : Nat := 0
  pos_x_pre : Nat := 0
  pos_y_pre : Nat := 0
  face_dir_pre : Nat := 0
  joy_x : Nat := 0
  joy_y : Nat := 0
  c_x : Nat := 0
  c_y : Nat := 0
  trigger : Nat := 0
  buttons : Nat := 0
  phys_l : Nat := 0
  phys_r : Nat := 0
  ucf_x : Nat := 0
  percent_pre : Nat := 0
  char_id : Nat := 0
  action_post : Nat := 0
  pos_x_post : Nat := 0
  pos_y_post : Nat := 0
  face_dir_post : Nat := 0
  percent_post : Nat := 0
  shield : Nat := 0
  hit_with : Nat := 0
  combo : Nat := 0
  hurt_by : Nat := 0
  stocks : Nat := 0
  action_fc : Nat := 0
  flags_1 : Nat := 0
  flags_2 : Nat := 0
  flags_3 : Nat := 0
  flags_4 : Nat := 0
  flags_5 : Nat := 0
  hitstun : Nat := 0
  airborne : Bool := false
  ground_id : Nat := 0
  jumps : Nat := 0
  l_cancel : Nat := 0
  deriving DecidableEq, Repr

/-- One `SlippiPlayer` slot; `frame` is the slot's frame array, addressed by
`frame_num - LOAD_FRAME`. -/
structure SlippiPlayer where
  ext_char_id : Nat := 0
  player_type : Nat := 0
  start_stocks : Nat := 0
  color : Nat := 0
  team_id : Nat := 0
  dash_back : Nat := 0
  shield_drop : Nat := 0
  tag_css : List Nat := []
  tag : List Nat := []
  frame : Int → SlippiFrame := fun _ => {}

/-- The `SlippiReplay` record; `player` holds the player slots, addressed by
`player_index + 4 * follower_flag`.  Byte strings taken from the buffer are lists of bytes. -/
structure SlippiReplay where
  slippi_version : String := ""
  parser_version : String := ""
  game_start_raw : List Nat := []
  metadata : List Nat := []
  teams : Bool := false
  stage : Nat := 0
  seed : Nat := 0
  pal : Bool := false
  frozen : Bool := false
  last_frame : Int := 0
  frame_count : Int := 0
  end_type : Nat := 0
  lras : Int := 0
  start_time : List Nat := []
  played_on : List Nat := []
  player : Nat → SlippiPlayer := fun _ => {}

/-- Replace player slot `p` of a replay by `g` applied to it. -/
def SlippiReplay.modifyPlayer (r : SlippiReplay) (p : Nat) (g : SlippiPlayer → SlippiPlayer) :
    SlippiReplay :=
  { r with player := fun q => if q = p then g (r.player q) else r.player q }

/-- Replace frame `f` of player slot `p` of a replay by `g` applied to it. -/
def SlippiReplay.modifyFrame (r : SlippiReplay) (p : Nat) (f : Int)
    (g : SlippiFrame → SlippiFrame) : SlippiReplay :=
  r.modifyPlayer p (fun pl => { pl with frame := fun i => if i = f then g (pl.frame i) else pl.frame i })

/-! ## Parser state (`parser.h`, not among the sources) -/

/-- The members of `slip::Parser` used by the decoder. -/
structure Parser where
  _replay : SlippiReplay := {}
  _payload_sizes : Nat → Nat := fun _ => 0
  _slippi_maj : Nat := 0
  _slippi_min : Nat := 0
  _slippi_rev : Nat := 0
  _slippi_version : String := ""
  _rb : Nat → Nat := fun _ => 0
  _bp : Nat := 0
  _length_raw : Nat := 0
  _length_raw_start : Nat := 0

/-- A parser as constructed, before `load`, with `rb` as the contents of its read buffer. -/
def Parser.fresh (rb : Nat → Nat) : Parser := { _rb := rb }

/-- What `parser.cpp` uses and no source file defines. -/
structure Externals where
  /-- The eight bytes of `SLP_HEADER` that `same8` compares. -/
  SLP_HEADER : List Nat
  /-- The constant `PARSER_VERSION`. -/
  PARSER_VERSION : String
  /-- The function `base64_encode`, from a block of bytes to its text. -/
  base64_encode : List Nat → List Nat
  /-- The member function `Parser::getMaxNumFrames`. -/
  getMaxNumFrames : Parser → Int
  /-- The member function `SlippiReplay::setFrames`. -/
  setFrames : Int → SlippiReplay → SlippiReplay

/-- A concrete choice of the externals, for evaluating the decoder on concrete buffers: the
Slippi container signature as magic, and `setFrames n` recording `n` as the frame count. -/
def Externals.sample : Externals where
  SLP_HEADER := [0x7b, 0x55, 0x03, 0x72, 0x61, 0x77, 0x5b, 0x24]
  PARSER_VERSION := "0.1.0"
  base64_encode := fun bs => bs
  getMaxNumFrames := fun s => (s._length_raw_start : Int)
  setFrames := fun n r => { r with frame_count := n }

/-! ## `Parser::_parseHeader` -/

/-- `Parser::_parseHeader` (parser.cpp 63-83). -/
def Parser._parseHeader (E : Externals) (s : Parser) : Bool × Parser :=
  let s := { s with _bp := 0 }
  if same8 s._rb s._bp E.SLP_HEADER then
    let s := { s with _length_raw_start := readBE4U s._rb (s._bp + 11) }
    if s._length_raw_start = 0 then
      (false, s)
    else
      let s := { s with _length_raw := s._length_raw_start }
      let s := { s with _bp := s._bp + 15 }
      (true, s)
  else
    (false, s)

/-! ## `Parser::_parseEventDescriptions` -/

/-- The value of `ev_bytes`: `uint8_t ev_bytes = _rb[_bp+1]-1` (parser.cpp 94). -/
def Parser.ev_bytes (s : Parser) : Nat := (byteAt s._rb (s._bp + 1) + 255) % 256

/-- Assign `v` to entry `c` of a payload-size table. -/
def setSize (t : Nat → Nat) (c v : Nat) : Nat → Nat := fun d => if d = c then v else t d

/-- The values the loop variable of `for(unsigned i = 0; i < ev_bytes; i+=3)` takes. -/
def manifestOffsets (ev_bytes : Nat) : List Nat :=
  (List.range ev_bytes).filter (fun i => i % 3 = 0)

/-- The index `ev_code-Event::EV_PAYLOADS` at which the error message of the manifest loop
reads `Event::name` (parser.cpp 103): an unsigned 32-bit difference, which wraps for a code
below `0x35`. -/
def eventNameIndex (ev_code : Nat) : Nat := (ev_code + 4294967296 - EV_PAYLOADS) % 4294967296

/-- What the manifest loop leaves: `ok` is `false` when the loop returns `false`, `sizes` is
the payload-size table, and `nameRead` is the index at which `Event::name` was read for the
error message, when the loop returned `false`.  `Event::name` is declared in `enums.h`; the
sanity loop reads it at the indices 0..4 of the codes `0x35..0x39`. -/
structure ManifestResult where
  ok : Bool
  sizes : Nat → Nat
  nameRead : Option Nat

/-- The manifest loop (parser.cpp 100-110) over the remaining values of `i`, the cursor `bp`
already past the two leading bytes.  `unsigned ev_code = _rb[_bp+i]` sign-extends the byte:
for a byte from `0x80` on the table is read and written at an index from `4294967168` on,
outside the table. -/
def manifestLoop (rb : Nat → Nat) (bp : Nat) : List Nat → (Nat → Nat) → ManifestResult
  | [], t => { ok := true, sizes := t, nameRead := none }
  | i :: rest, t =>
    let ev_code := charToUnsigned (byteAt rb (bp + i))
    if t ev_code > 0 then
      { ok := false, sizes := t, nameRead := some (eventNameIndex ev_code) }
    else
      manifestLoop rb bp rest (setSize t ev_code (readBE2U rb (bp + i + 1)))

/-- The sanity loop (parser.cpp 113-118): `true` when some code in
`EV_PAYLOADS..GAME_END` has size 0 in the table. -/
def mandatoryMissing (t : Nat → Nat) : Bool :=
  (List.range' EV_PAYLOADS (GAME_END + 1 - EV_PAYLOADS)).any (fun i => t i == 0)

/-- `Parser::_parseEventDescriptions` (parser.cpp 85-124).  The sanity loop reads
`Event::name` at `i-Event::EV_PAYLOADS` for `i` in `0x35..0x39` only. -/
def Parser._parseEventDescriptions (s : Parser) : Bool × Parser :=
  if byteAt s._rb s._bp ≠ EV_PAYLOADS then
    (false, s)
  else
    let ev_bytes := s.ev_bytes
    let s := { s with _payload_sizes := setSize s._payload_sizes EV_PAYLOADS (ev_bytes + 1) }
    let s := { s with _bp := s._bp + 2 }
    let r := manifestLoop s._rb s._bp (manifestOffsets ev_bytes) s._payload_sizes
    let s := { s with _payload_sizes := r.sizes }
    if r.ok = false then
      (false, s)
    else if mandatoryMissing s._payload_sizes then
      (false, s)
    else
      let s := { s with _bp := s._bp + ev_bytes }
      let s := { s with _length_raw := (s._length_raw + 4294967296 - (2 + ev_bytes)) % 4294967296 }
      (true, s)

/-! ## Event handlers -/

/-- The eight characters appended to `tag` by the loop at parser.cpp 196-198: each is
`readBE2U(...)+1` narrowed to one `char`, at offsets `base, base+2, .., base+14`. -/
def cssTag (rb : Nat → Nat) (base : Nat) : List Nat :=
  (List.range 8).map (fun j => (readBE2U rb (base + 2 * j) + 1) % 256)

/-- One pass of the player loop of `_parseGameStart` (parser.cpp 180-201), for port `p`. -/
def gameStartPlayer (s : Parser) (r : SlippiReplay) (p : Nat) : SlippiReplay :=
  let i := 0x65 + 0x24 * p
  let m := 0x141 + 0x8 * p
  let k := 0x161 + 0x10 * p
  let r := r.modifyPlayer p (fun pl =>
    { pl with
      ext_char_id := byteAt s._rb (s._bp + i)
      player_type := byteAt s._rb (s._bp + i + 0x1)
      start_stocks := byteAt s._rb (s._bp + i + 0x2)
      color := byteAt s._rb (s._bp + i + 0x3)
      team_id := byteAt s._rb (s._bp + i + 0x9)
      dash_back := readBE4U s._rb (s._bp + m)
      shield_drop := readBE4U s._rb (s._bp + m + 0x4) })
  if s._slippi_maj ≥ 2 ∨ s._slippi_min ≥ 3 then
    r.modifyPlayer p (fun pl => { pl with tag_css := cssTag s._rb (s._bp + k) })
  else
    r

/-- `Parser::_parseGameStart` (parser.cpp 156-222). -/
def Parser._parseGameStart (E : Externals) (s : Parser) : Bool × Parser :=
  if s._slippi_maj > 0 then
    (false, s)
  else
    let s := { s with
      _slippi_maj := byteAt s._rb (s._bp + 0x1)
      _slippi_min := byteAt s._rb (s._bp + 0x2)
      _slippi_rev := byteAt s._rb (s._bp + 0x3) }
    if s._slippi_maj = 0 then
      (false, s)
    else
      let s := { s with
        _slippi_version :=
          toString s._slippi_maj ++ "." ++ toString s._slippi_min ++ "." ++ toString s._slippi_rev }
      let s := { s with _replay := (List.range 4).foldl (gameStartPlayer s) s._replay }
      let s := { s with _replay :=
        { s._replay with
          slippi_version := s._slippi_version
          parser_version := E.PARSER_VERSION
          game_start_raw := E.base64_encode ((List.range 312).map (fun j => byteAt s._rb (s._bp + 0x5 + j)))
          metadata := []
          teams := decide (byteAt s._rb (s._bp + 0xD) ≠ 0)
          stage := readBE2U s._rb (s._bp + 0x13)
          seed := readBE4U s._rb (s._bp + 0x13D) } }
      let s :=
        if s._slippi_maj ≥ 2 ∨ s._slippi_min ≥ 5 then
          { s with _replay := { s._replay with pal := decide (byteAt s._rb (s._bp + 0x1A1) ≠ 0) } }
        else s
      let s :=
        if s._slippi_maj ≥ 2 then
          { s with _replay := { s._replay with frozen := decide (byteAt s._rb (s._bp + 0x1A2) ≠ 0) } }
        else s
      let s := { s with _replay := E.setFrames (E.getMaxNumFrames s) s._replay }
      (true, s)

/-- The slot index `uint8_t p = uint8_t(_rb[_bp+0x5])+4*uint8_t(_rb[_bp+0x6])` of the frame
handlers (parser.cpp 228, 263). -/
def Parser.frameSlot (s : Parser) : Nat :=
  (byteAt s._rb (s._bp + 0x5) + 4 * byteAt s._rb (s._bp + 0x6)) % 256

/-- `Parser::_parsePreFrame` (parser.cpp 224-258); `int32_t f = fnum-LOAD_FRAME` and
`frame_count = f+1` are 32-bit sums. -/
def Parser._parsePreFrame (s : Parser) : Bool × Parser :=
  let fnum := readBE4S s._rb (s._bp + 0x1)
  let f := toInt32 (fnum - LOAD_FRAME)
  let p := s.frameSlot
  let r := { s._replay with last_frame := fnum, frame_count := toInt32 (f + 1) }
  let r := r.modifyFrame p f (fun fr =>
    { fr with
      frame := fnum
      player := p % 4
      follower := decide (p > 3)
      alive := 1
      seed := readBE4U s._rb (s._bp + 0x7)
      action_pre := readBE2U s._rb (s._bp + 0xB)
      pos_x_pre := readBE4F s._rb (s._bp + 0xD)
      pos_y_pre := readBE4F s._rb (s._bp + 0x11)
      face_dir_pre := readBE4F s._rb (s._bp + 0x15)
      joy_x := readBE4F s._rb (s._bp + 0x19)
      joy_y := readBE4F s._rb (s._bp + 0x1D)
      c_x := readBE4F s._rb (s._bp + 0x21)
      c_y := readBE4F s._rb (s._bp + 0x25)
      trigger := readBE4F s._rb (s._bp + 0x29)
      buttons := readBE4U s._rb (s._bp + 0x31)
      phys_l := readBE4F s._rb (s._bp + 0x33)
      phys_r := readBE4F s._rb (s._bp + 0x37) })
  let r :=
    if s._slippi_min ≥ 2 then
      let r := r.modifyFrame p f (fun fr => { fr with ucf_x := byteAt s._rb (s._bp + 0x3B) })
      if s._slippi_min ≥ 4 then
        r.modifyFrame p f (fun fr => { fr with percent_pre := readBE4F s._rb (s._bp + 0x3C) })
      else r
    else r
  (true, { s with _replay := r })

/-- `Parser::_parsePostFrame` (parser.cpp 260-292); `int32_t f` is a 32-bit difference. -/
def Parser._parsePostFrame (s : Parser) : Bool × Parser :=
  let f := toInt32 (readBE4S s._rb (s._bp + 0x1) - LOAD_FRAME)
  let p := s.frameSlot
  let r := s._replay.modifyFrame p f (fun fr =>
    { fr with
      char_id := byteAt s._rb (s._bp + 0x7)
      action_post := readBE2U s._rb (s._bp + 0x8)
      pos_x_post := readBE4F s._rb (s._bp + 0xA)
      pos_y_post := readBE4F s._rb (s._bp + 0xE)
      face_dir_post := readBE4F s._rb (s._bp + 0x12)
      percent_post := readBE4F s._rb (s._bp + 0x16)
      shield := readBE4F s._rb (s._bp + 0x1A)
      hit_with := byteAt s._rb (s._bp + 0x1E)
      combo := byteAt s._rb (s._bp + 0x1F)
      hurt_by := byteAt s._rb (s._bp + 0x20)
      stocks := byteAt s._rb (s._bp + 0x21)
      action_fc := readBE4F s._rb (s._bp + 0x22) })
  let r :=
    if s._slippi_maj ≥ 2 then
      r.modifyFrame p f (fun fr =>
        { fr with
          flags_1 := byteAt s._rb (s._bp + 0x26)
          flags_2 := byteAt s._rb (s._bp + 0x27)
          flags_3 := byteAt s._rb (s._bp + 0x28)
          flags_4 := byteAt s._rb (s._bp + 0x29)
          flags_5 := byteAt s._rb (s._bp + 0x2A)
          hitstun := readBE4U s._rb (s._bp + 0x2B)
          airborne := decide (byteAt s._rb (s._bp + 0x2F) ≠ 0)
          ground_id := readBE2U s._rb (s._bp + 0x30)
          jumps := byteAt s._rb (s._bp + 0x32)
          l_cancel := byteAt s._rb (s._bp + 0x33) })
    else r
  (true, { s with _replay := r })

/-- The conversion `int8_t(b)` of a byte value `b` in `0..255`; also the value of a `char`
holding the byte `b`. -/
def toInt8 (b : Nat) : Int := if b < 128 then (b : Int) else (b : Int) - 256

/-- `Parser::_parseGameEnd` (parser.cpp 294-302). -/
def Parser._parseGameEnd (s : Parser) : Bool × Parser :=
  let s := { s with _replay := { s._replay with end_type := byteAt s._rb (s._bp + 0x1) } }
  let s :=
    if s._slippi_maj ≥ 2 then
      { s with _replay := { s._replay with lras := toInt8 (byteAt s._rb (s._bp + 0x2)) } }
    else s
  (true, s)

/-! ## `Parser::_parseEvents` -/

/-- The `switch` of the event loop (parser.cpp 131-139): the value `success` has after it.
The default case leaves `success` as it is, which is `true` whenever the loop body runs. -/
def Parser.dispatch (E : Externals) (s : Parser) : Bool × Parser :=
  let code := byteAt s._rb s._bp
  if code = GAME_START then s._parseGameStart E
  else if code = PRE_FRAME then s._parsePreFrame
  else if code = POST_FRAME then s._parsePostFrame
  else if code = GAME_END then s._parseGameEnd
  else (true, s)

/-- One pass through the body of the event loop (parser.cpp 131-149): the flag is `false`
when the body executes `return false`.  Table entries are 16-bit payload sizes, so `shift`
is their value plus one; the entry is read at `(unsigned)_rb[_bp]`, the sign-extended byte,
which for a byte from `0x80` on is an index from `4294967168` on, outside the table. -/
def Parser.eventBody (E : Externals) (s : Parser) : Bool × Parser :=
  let r := s.dispatch E
  if r.1 = false then
    (false, r.2)
  else
    let s := r.2
    let shift := s._payload_sizes (charToUnsigned (byteAt s._rb s._bp)) + 1
    if shift > s._length_raw then
      (false, s)
    else
      let s := { s with _length_raw := s._length_raw - shift }
      let s := { s with _bp := s._bp + shift }
      (true, s)

/-- The event loop (parser.cpp 130-151) run for at most `fuel` passes: `none` when the
passes are used up while the loop condition still holds. -/
def Parser.eventLoop (E : Externals) : Nat → Parser → Option (Bool × Parser)
  | 0, s => if s._length_raw > 0 then none else some (true, s)
  | fuel + 1, s =>
    if s._length_raw > 0 then
      let r := s.eventBody E
      if r.1 = false then some (false, r.2) else Parser.eventLoop E fuel r.2
    else
      some (true, s)

/-- `Parser::_parseEvents` (parser.cpp 126-154): every pass consumes at least one of the
`_length_raw` remaining bytes, so `_length_raw` passes are enough (`parseEvents_total`). -/
def Parser._parseEvents (E : Externals) (s : Parser) : Option (Bool × Parser) :=
  Parser.eventLoop E s._length_raw s

/-- The state after `k` passes through the loop body that all went through (`none` when the
loop ends or returns `false` earlier): the states in which the loop examines an event. -/
def Parser.eventIter (E : Externals) : Nat → Parser → Option Parser
  | 0, s => some s
  | k + 1, s =>
    if s._length_raw > 0 ∧ (s.eventBody E).1 = true then
      Parser.eventIter E k (s.eventBody E).2
    else none

/-- The codes of the events of a stream of `len` raw bytes at offset `bp`, as the payload
table `t` frames it: each event is its code byte and the payload bytes whose number the
event loop reads from `t` (at the sign-extended code byte); the framing ends with the raw
bytes, or at an event that does not fit in them. -/
def streamCodes (t : Nat → Nat) (rb : Nat → Nat) : Nat → Nat → Nat → List Nat
  | 0, _, _ => []
  | fuel + 1, bp, len =>
    if 0 < len ∧ t (charToUnsigned (byteAt rb bp)) + 1 ≤ len then
      byteAt rb bp :: streamCodes t rb fuel (bp + (t (charToUnsigned (byteAt rb bp)) + 1))
        (len - (t (charToUnsigned (byteAt rb bp)) + 1))
    else []

/-- The codes of the events in the raw stream a parser state is about to decode. -/
def Parser.eventCodes (s : Parser) : List Nat :=
  streamCodes s._payload_sizes s._rb s._length_raw s._bp s._length_raw

/-- The size the event loop reads for the event at the cursor:
`_payload_sizes[(unsigned)_rb[_bp]]` (parser.cpp 143). -/
def Parser.declaredSize (s : Parser) : Nat :=
  s._payload_sizes (charToUnsigned (byteAt s._rb s._bp))

/-- The members that decide how the event stream is framed are the same in `s'` as in `s`. -/
def Parser.sameFraming (s s' : Parser) : Prop :=
  s'._rb = s._rb ∧ s'._bp = s._bp ∧ s'._length_raw = s._length_raw ∧
    s'._payload_sizes = s._payload_sizes ∧ s'._length_raw_start = s._length_raw_start

/-! ## Concrete replay files -/

/-- The 15 header bytes of a replay file whose raw portion is `n < 256` bytes long. -/
def sampleHeader (n : Nat) : List Nat :=
  [0x7b, 0x55, 0x03, 0x72, 0x61, 0x77, 0x5b, 0x24, 0x55, 0x23, 0x6c, 0, 0, 0, n]

/-- The manifest event declaring sizes 3, 6, 6, 2 for `GAME_START`, `PRE_FRAME`,
`POST_FRAME`, `GAME_END`. -/
def sampleTable : List Nat :=
  [0x35, 13, 0x36, 0, 3, 0x37, 0, 6, 0x38, 0, 6, 0x39, 0, 2]

/-- The parser state after `_parseHeader` and `_parseEventDescriptions` ran on a file. -/
def decodedTable (file : List Nat) : Parser :=
  (Parser._parseEventDescriptions
    (Parser._parseHeader Externals.sample (Parser.fresh (bufOf file))).2).2

/-- A replay file whose manifest declares `PRE_FRAME` twice, first with size 0 and then
with size 6, and has no events. -/
def redeclaredFile : List Nat :=
  sampleHeader 17 ++ [0x35, 16, 0x37, 0, 0, 0x37, 0, 6, 0x36, 0, 3, 0x38, 0, 6, 0x39, 0, 2]

/-- A replay file whose manifest declares `PRE_FRAME` with size 6 and then again with
size 6. -/
def redeclaredTwiceFile : List Nat :=
  sampleHeader 17 ++ [0x35, 16, 0x37, 0, 6, 0x37, 0, 6, 0x36, 0, 3, 0x38, 0, 6, 0x39, 0, 2]

/-- A replay file whose manifest does not declare `GAME_END`. -/
def noGameEndFile : List Nat :=
  sampleHeader 17 ++ [0x35, 10, 0x36, 0, 3, 0x37, 0, 6, 0x38, 0, 6]

/-- A replay file whose header announces one raw byte, followed by the sample manifest. -/
def shortRawFile : List Nat := sampleHeader 1 ++ sampleTable

/-- A replay file with the sample manifest and no events. -/
def tableOnlyFile : List Nat := sampleHeader 14 ++ sampleTable

/-- A manifest event declaring, besides the four sample sizes, size 2 for code `0x3A`. -/
def extendedTable : List Nat :=
  [0x35, 16, 0x36, 0, 3, 0x37, 0, 6, 0x38, 0, 6, 0x39, 0, 2, 0x3A, 0, 2]

/-- A replay file with one event: a `GAME_START` of version 1.0.0. -/
def startOnlyFile : List Nat := sampleHeader 18 ++ sampleTable ++ [0x36, 1, 0, 0]

/-- A replay file with one event: a `GAME_END`. -/
def endOnlyFile : List Nat := sampleHeader 17 ++ sampleTable ++ [0x39, 2, 0]

/-- A replay file whose raw portion ends one byte into the payload of a `GAME_END`. -/
def truncatedFile : List Nat := sampleHeader 16 ++ sampleTable ++ [0x39, 2]

/-- A replay file with an event of code `0x3A` followed by a `GAME_END`. -/
def unknownEventFile : List Nat :=
  sampleHeader 23 ++ extendedTable ++ [0x3A, 9, 9, 0x39, 2, 0]

/-- A replay file with two `GAME_START` events of version 1.0.0. -/
def twoStartsFile : List Nat :=
  sampleHeader 22 ++ sampleTable ++ [0x36, 1, 0, 0, 0x36, 1, 0, 0]

/-- The parser state after `_parseHeader` ran on a file. -/
def decodedHeader (file : List Nat) : Parser :=
  (Parser._parseHeader Externals.sample (Parser.fresh (bufOf file))).2

/-- The relation between the two frame counters of a replay that `_parsePreFrame`
establishes: `last_frame` is a 32-bit signed number and `frame_count` is
`last_frame - LOAD_FRAME + 1`, both sums taken in 32 bits. -/
def SlippiReplay.frameCountOk (r : SlippiReplay) : Prop :=
  -2147483648 ≤ r.last_frame ∧ r.last_frame < 2147483648 ∧
    r.frame_count = toInt32 (toInt32 (r.last_frame - LOAD_FRAME) + 1)

/-- A replay file with a `GAME_START` of version 1.0.0, then a `PRE_FRAME` and a
`POST_FRAME` for frame -123 of port 0. -/
def oneFrameFile : List Nat :=
  sampleHeader 32 ++ sampleTable ++
    [0x36, 1, 0, 0, 0x37, 0xFF, 0xFF, 0xFF, 0x85, 0, 0, 0x38, 0xFF, 0xFF, 0xFF, 0x85, 0, 0]

/-- The parser state with the cursor moved to offset `b`. -/
def Parser.seek (s : Parser) (b : Nat) : Parser := { s with _bp := b }

/-- The frame index `int32_t f = fnum-LOAD_FRAME` of the frame handlers (parser.cpp 227,
262): a 32-bit difference. -/
def Parser.frameIndex (s : Parser) : Int :=
  toInt32 (readBE4S s._rb (s._bp + 0x1) - LOAD_FRAME)

/-- The frame `_parsePreFrame` leaves in the slot and index it addresses, given the frame
`fr` that was there (parser.cpp 232-255). -/
def Parser.preFrameWrite (s : Parser) (fr : SlippiFrame) : SlippiFrame :=
  let fr :=
    { fr with
      frame := readBE4S s._rb (s._bp + 0x1)
      player := s.frameSlot % 4
      follower := decide (s.frameSlot > 3)
      alive := 1
      seed := readBE4U s._rb (s._bp + 0x7)
      action_pre := readBE2U s._rb (s._bp + 0xB)
      pos_x_pre := readBE4F s._rb (s._bp + 0xD)
      pos_y_pre := readBE4F s._rb (s._bp + 0x11)
      face_dir_pre := readBE4F s._rb (s._bp + 0x15)
      joy_x := readBE4F s._rb (s._bp + 0x19)
      joy_y := readBE4F s._rb (s._bp + 0x1D)
      c_x := readBE4F s._rb (s._bp + 0x21)
      c_y := readBE4F s._rb (s._bp + 0x25)
      trigger := readBE4F s._rb (s._bp + 0x29)
      buttons := readBE4U s._rb (s._bp + 0x31)
      phys_l := readBE4F s._rb (s._bp + 0x33)
      phys_r := readBE4F s._rb (s._bp + 0x37) }
  let fr := if s._slippi_min ≥ 2 then { fr with ucf_x := byteAt s._rb (s._bp + 0x3B) } else fr
  if s._slippi_min ≥ 2 ∧ s._slippi_min ≥ 4 then
    { fr with percent_pre := readBE4F s._rb (s._bp + 0x3C) }
  else fr

/-- The frame `_parsePostFrame` leaves in the slot and index it addresses, given the frame
`fr` that was there (parser.cpp 265-289). -/
def Parser.postFrameWrite (s : Parser) (fr : SlippiFrame) : SlippiFrame :=
  let fr :=
    { fr with
      char_id := byteAt s._rb (s._bp + 0x7)
      action_post := readBE2U s._rb (s._bp + 0x8)
      pos_x_post := readBE4F s._rb (s._bp + 0xA)
      pos_y_post := readBE4F s._rb (s._bp + 0xE)
      face_dir_post := readBE4F s._rb (s._bp + 0x12)
      percent_post := readBE4F s._rb (s._bp + 0x16)
      shield := readBE4F s._rb (s._bp + 0x1A)
      hit_with := byteAt s._rb (s._bp + 0x1E)
      combo := byteAt s._rb (s._bp + 0x1F)
      hurt_by := byteAt s._rb (s._bp + 0x20)
      stocks := byteAt s._rb (s._bp + 0x21)
      action_fc := readBE4F s._rb (s._bp + 0x22) }
  if s._slippi_maj ≥ 2 then
    { fr with
      flags_1 := byteAt s._rb (s._bp + 0x26)
      flags_2 := byteAt s._rb (s._bp + 0x27)
      flags_3 := byteAt s._rb (s._bp + 0x28)
      flags_4 := byteAt s._rb (s._bp + 0x29)
      flags_5 := byteAt s._rb (s._bp + 0x2A)
      hitstun := readBE4U s._rb (s._bp + 0x2B)
      airborne := decide (byteAt s._rb (s._bp + 0x2F) ≠ 0)
      ground_id := readBE2U s._rb (s._bp + 0x30)
      jumps := byteAt s._rb (s._bp + 0x32)
      l_cancel := byteAt s._rb (s._bp + 0x33) }
  else fr

/-- A replay file with a `GAME_START` of version 1.0.0, then a `PRE_FRAME` for frame 1 and
a `PRE_FRAME` for frame 0, both of port 0. -/
def backwardsFramesFile : List Nat :=
  sampleHeader 32 ++ sampleTable ++
    [0x36, 1, 0, 0, 0x37, 0, 0, 0, 1, 0, 0, 0x37, 0, 0, 0, 0, 0, 0]

/-- A replay file with one event: a `PRE_FRAME` for frame -123 of port 0. -/
def preFrameAloneFile : List Nat :=
  sampleHeader 21 ++ sampleTable ++ [0x37, 0xFF, 0xFF, 0xFF, 0x85, 0, 0]

/-- A replay file with a `GAME_START` of version 1.0.0 and a `PRE_FRAME` for frame -123 of
port 0, and no `POST_FRAME`. -/
def preOnlyFile : List Nat :=
  sampleHeader 25 ++ sampleTable ++ [0x36, 1, 0, 0, 0x37, 0xFF, 0xFF, 0xFF, 0x85, 0, 0]

/-! ## `Parser::_parseMetadata`

Texts (`std::string`, `std::stringstream`) are lists of bytes.  The loop
`for(unsigned i = 0;;)` has no bound of its own, so the embedding takes the number of passes
allowed as an argument. -/

/-- The bytes of a string literal of the source. -/
def bytes (t : String) : List Nat := t.toList.map Char.toNat

/-- The `len` bytes of the read buffer from offset `start` on: `assign(&_rb[start],len)`. -/
def bufSlice (rb : Nat → Nat) (start len : Nat) : List Nat :=
  (List.range len).map (fun j => byteAt rb (start + j))

/-- The index of the last byte `c` of a text, as `find_last_of` gives it; `none` for
`npos`. -/
def lastIndexOf (c : Nat) : List Nat → Option Nat
  | [] => none
  | x :: rest =>
    match lastIndexOf c rest with
    | some k => some (k + 1)
    | none => if x = c then some 0 else none

/-- The text `keypath.substr(0,keypath.find_last_of(","))`: the key path without its last
key; the whole text when it has no comma (`substr(0,npos)`). -/
def trimLastKey (keypath : List Nat) : List Nat :=
  match lastIndexOf 44 keypath with
  | some k => keypath.take k
  | none => keypath

/-- The index of the first place where `pat` occurs in a text, as `find` gives it; `none`
for `npos`. -/
def findSub (pat : List Nat) : List Nat → Option Nat
  | [] => if pat = [] then some 0 else none
  | c :: rest =>
    if (c :: rest).take pat.length = pat then some 0
    else (findSub pat rest).map (fun k => k + 1)

/-- The characters `\s` of the regular expression matches. -/
def isSpace (c : Nat) : Bool := c = 32 || (9 ≤ c && c ≤ 13)

/-- The text `regex_replace` makes with `comma_killer` = `(,)(\s*})` and `$2`: every comma
that is followed by white space and a closing brace, or by a closing brace, is left out. -/
def commaKiller : List Nat → List Nat
  | [] => []
  | c :: rest =>
    if c = 44 ∧ (rest.dropWhile isSpace).head? = some 125 then commaKiller rest
    else c :: commaKiller rest

/-- The text `metadata.substr(0,metadata.length()-2)`; `length()-2` is unsigned, so a text
shorter than 2 is kept whole. -/
def dropLast2 (t : List Nat) : List Nat :=
  if t.length < 2 then t else t.take (t.length - 2)

/-- The local variables of `_parseMetadata` that live across passes of its loop, and the
replay it writes to. -/
structure MetaState where
  i : Nat := 0
  ss : List Nat := []
  indent : List Nat := [32]
  key : List Nat := []
  val : List Nat := []
  keypath : List Nat := []
  replay : SlippiReplay := {}

/-- How a pass through the loop of `_parseMetadata` ends: with `continue`, with `break`
(`done`), with `return false`, or without a value: an exception of `substr` leaves the
function, or `_replay.player` is indexed below 0. -/
inductive MetaOutcome where
  | next (st : MetaState)
  | done (st : MetaState)
  | fail (st : MetaState)
  | stuck

/-- The string-value side effects (parser.cpp 370-380). `wide` says whether
`std::string::npos` is wider than `unsigned`: then `portpos != std::string::npos` holds also
when `find` gave `npos`, with `portpos+8` wrapping to 7.  The port is a `char` minus `'0'`. -/
def metaSideEffect (wide : Bool) (st : MetaState) : Option SlippiReplay :=
  if st.key = bytes "startAt" then
    some { st.replay with start_time := st.val }
  else if st.key = bytes "playedOn" then
    some { st.replay with played_on := st.val }
  else if st.key = bytes "netplay" then
    let found := findSub (bytes "players,") st.keypath
    if found.isSome ∨ wide = true then
      let at8 := match found with
        | some pos => (pos + 8) % 4294967296
        | none => 7
      if at8 > st.keypath.length then
        none
      else
        let port : Int := toInt8 (st.keypath.getD at8 0) - 48
        if port < 0 then
          none
        else
          some (st.replay.modifyPlayer port.toNat (fun pl => { pl with tag := st.val }))
    else
      some st.replay
  else
    some st.replay

/-- The second `switch` of the loop of `_parseMetadata` (parser.cpp 352-393): the value
after a key. -/
def metaValue (wide : Bool) (rb : Nat → Nat) (bp : Nat) (st : MetaState) : MetaOutcome :=
  let m := byteAt rb (bp + st.i)
  if m = 0x7b then
    let st := { st with ss := st.ss ++ [123, 10] }
    let st := if st.key ≠ bytes "metadata" then { st with indent := st.indent ++ [32] } else st
    MetaOutcome.next { st with i := st.i + 1 }
  else if m = 0x53 then
    let st := { st with ss := st.ss ++ [34] }
    if byteAt rb (bp + st.i + 1) ≠ 0x55 then
      MetaOutcome.fail st
    else
      let strlen := byteAt rb (bp + st.i + 2)
      let st := { st with val := bufSlice rb (bp + st.i + 3) strlen }
      let st := { st with ss := st.ss ++ st.val ++ [34, 44, 10] }
      match metaSideEffect wide st with
      | none => MetaOutcome.stuck
      | some r =>
        let st := { st with replay := r }
        let st := { st with i := st.i + 3 + strlen }
        MetaOutcome.next { st with keypath := trimLastKey st.keypath }
  else if m = 0x6c then
    let n := readBE4S rb (bp + st.i + 1)
    let st := { st with ss := st.ss ++ bytes (toString n) ++ [44, 10] }
    let st := { st with i := st.i + 5 }
    MetaOutcome.next { st with keypath := trimLastKey st.keypath }
  else
    MetaOutcome.fail st

/-- One pass through the loop of `_parseMetadata` (parser.cpp 321-395). -/
def metaStep (wide : Bool) (rb : Nat → Nat) (bp : Nat) (st : MetaState) : MetaOutcome :=
  let m := byteAt rb (bp + st.i)
  if m = 0x55 then
    let strlen := byteAt rb (bp + st.i + 1)
    let st := { st with key := bufSlice rb (bp + st.i + 2) strlen }
    let st := { st with keypath := st.keypath ++ [44] ++ st.key }
    let st :=
      if st.key ≠ bytes "metadata" then
        { st with ss := st.ss ++ st.indent ++ [34] ++ st.key ++ [34, 32, 58, 32] }
      else st
    let st := { st with i := st.i + 2 + strlen }
    metaValue wide rb bp st
  else if m = 0x7d then
    let st := { st with keypath := trimLastKey st.keypath }
    if st.indent.length < 1 then
      MetaOutcome.stuck
    else
      let st := { st with indent := st.indent.drop 1 }
      if st.indent.length = 0 then
        MetaOutcome.done st
      else
        let st := { st with ss := st.ss ++ st.indent ++ [125, 44, 10] }
        MetaOutcome.next { st with i := st.i + 1 }
  else
    MetaOutcome.fail st

/-- The loop of `_parseMetadata` run for at most `fuel` passes: the flag is `false` for
`return false` and `true` when the loop is left with `done`; `none` when a pass ends without
a value or the passes are used up. -/
def metaLoop (wide : Bool) (rb : Nat → Nat) (bp : Nat) : Nat → MetaState → Option (Bool × MetaState)
  | 0, _ => none
  | fuel + 1, st =>
    match metaStep wide rb bp st with
    | MetaOutcome.next st' => metaLoop wide rb bp fuel st'
    | MetaOutcome.done st' => some (true, st')
    | MetaOutcome.fail st' => some (false, st')
    | MetaOutcome.stuck => none

/-- The local variables of `_parseMetadata` when its loop is entered. -/
def Parser.metaInit (s : Parser) : MetaState := { replay := s._replay }

/-- `Parser::_parseMetadata` (parser.cpp 304-411), its loop run for at most `fuel` passes. -/
def Parser._parseMetadata (wide : Bool) (fuel : Nat) (s : Parser) : Option (Bool × Parser) :=
  match metaLoop wide s._rb s._bp fuel s.metaInit with
  | none => none
  | some (false, st) => some (false, { s with _replay := st.replay })
  | some (true, st) =>
    let metadata := dropLast2 st.ss
    let mjson := commaKiller metadata
    some (true, { s with _replay := { st.replay with metadata := mjson } })

/-- The state of the loop of `_parseMetadata` after `k` passes that all ended with
`continue`: the states in which the loop reads a key marker. -/
def metaIter (wide : Bool) (rb : Nat → Nat) (bp : Nat) : Nat → MetaState → Option MetaState
  | 0, st => some st
  | k + 1, st =>
    match metaStep wide rb bp st with
    | MetaOutcome.next st' => metaIter wide rb bp k st'
    | _ => none

/-- A parser state whose cursor is at the start of a metadata trailer. -/
def trailerState (trailer : List Nat) : Parser := Parser.fresh (bufOf trailer)

/-- The trailer `U 8 metadata {  U 7 startAt S U 1 x  }`. -/
def startAtTrailer : List Nat :=
  [0x55, 8] ++ bytes "metadata" ++ [0x7b] ++ [0x55, 7] ++ bytes "startAt" ++
    [0x53, 0x55, 1, 120] ++ [0x7d]

/-- The trailer `U 8 metadata {  U 7 players {  U 1 2 {  U 7 netplay S U 2 hi  }  }  }`. -/
def netplayTrailer : List Nat :=
  [0x55, 8] ++ bytes "metadata" ++ [0x7b] ++ [0x55, 7] ++ bytes "players" ++ [0x7b] ++
    [0x55, 1, 50, 0x7b] ++ [0x55, 7] ++ bytes "netplay" ++ [0x53, 0x55, 2, 104, 105] ++
    [0x7d, 0x7d, 0x7d]

/-- The trailer `U 8 metadata {  U 7 startAt $`, with a byte that is no value marker. -/
def badValueTrailer : List Nat :=
  [0x55, 8] ++ bytes "metadata" ++ [0x7b] ++ [0x55, 7] ++ bytes "startAt" ++ [0x24]

/-- The state of the loop of `_parseMetadata` after `k` passes over a trailer. -/
def metaStateAfter (trailer : List Nat) (k : Nat) : MetaState :=
  (metaIter false (bufOf trailer) 0 k (trailerState trailer).metaInit).getD {}

/-- A replay file whose raw portion ends four bytes into the payload of a `PRE_FRAME` for
frame -123 of port 0. -/
def truncatedPreFrameFile : List Nat :=
  sampleHeader 19 ++ sampleTable ++ [0x37, 0xFF, 0xFF, 0xFF, 0x85]

/-- A replay file with an event of code `0x80`, which the manifest does not declare, followed
by a `GAME_END`. -/
def highCodeFile : List Nat := sampleHeader 18 ++ sampleTable ++ [0x80, 0x39, 2, 0]

/-- A replay file with a `GAME_START` of version 1.0.0 and a `PRE_FRAME` for frame 0 with
player byte 2 and follower byte 1. -/
def followerFrameFile : List Nat :=
  sampleHeader 25 ++ sampleTable ++ [0x36, 1, 0, 0, 0x37, 0, 0, 0, 0, 2, 1]

/-- A replay file with a `GAME_START` of version 1.0.0, a `PRE_FRAME` for frame 0 and a
`PRE_FRAME` for frame 2147483647, both of port 0. -/
def wrappingFramesFile : List Nat :=
  sampleHeader 32 ++ sampleTable ++
    [0x36, 1, 0, 0, 0x37, 0, 0, 0, 0, 0, 0, 0x37, 0x7F, 0xFF, 0xFF, 0xFF, 0, 0]

/-- A `GAME_START` event of version 2.5.0 with payload size `0x1A2`: the tag of port 0 starts
with the character `0x40 + 1`, and the bytes at `0x1A1` (`pal`) and `0x1A2` (`frozen`) are
1. -/
def gatedStartEvent : List Nat :=
  [0x36, 2, 5, 0] ++ List.replicate (0x161 - 4) 0 ++ [0, 0x40] ++
    List.replicate (0x1A1 - 0x163) 0 ++ [1, 1]

/-- A `PRE_FRAME` event with payload size `0x3F` for frame 0 of port 0: `ucf_x` (offset
`0x3B`) is 7 and `percent_pre` (offset `0x3C`) is the pattern `0x42000000`. -/
def gatedPreEvent : List Nat :=
  [0x37, 0, 0, 0, 0, 0, 0] ++ List.replicate (0x3B - 7) 0 ++ [7, 0x42, 0, 0, 0]

/-- A `POST_FRAME` event with payload size `0x33` for frame 0 of port 0: the members from
offset `0x26` on are `flags_1..flags_5 = 1..5`, `hitstun = 9`, `airborne = 1`,
`ground_id = 3`, `jumps = 2`, `l_cancel = 1`. -/
def gatedPostEvent : List Nat :=
  [0x38, 0, 0, 0, 0, 0, 0] ++ List.replicate (0x26 - 7) 0 ++
    [1, 2, 3, 4, 5, 0, 0, 0, 9, 1, 0, 3, 2, 1]

/-- A replay file of version 2.5.0 whose manifest declares the sizes `0x1A2`, `0x3F`, `0x33`,
2, with the events `GAME_START`, `PRE_FRAME`, `POST_FRAME` and a `GAME_END` whose second
payload byte is `0xFF`; its raw portion is 552 bytes long. -/
def gatedFile : List Nat :=
  [0x7b, 0x55, 0x03, 0x72, 0x61, 0x77, 0x5b, 0x24, 0x55, 0x23, 0x6c, 0, 0, 2, 0x28] ++
    [0x35, 13, 0x36, 1, 0xA2, 0x37, 0, 0x3F, 0x38, 0, 0x33, 0x39, 0, 2] ++
    gatedStartEvent ++ gatedPreEvent ++ gatedPostEvent ++ [0x39, 2, 0xFF]

/-- The parser state after the table decoder and `k` passes of the event loop on a file. -/
def decodedEvents (file : List Nat) (k : Nat) : Parser :=
  (Parser.eventIter Externals.sample k (decodedTable file)).getD (decodedTable file)

/-! ## Analyzer (`analyzer.h`)

The action-state ids (`enums.h`) and `START_FRAMES` are declared in headers that are not
among the sources: they are parameters. -/

/-- The action-state ids the hitstun predicates name (`Action::...`, declared in `enums.h`). -/
structure ActionIds where
  DamageHi1 : Nat
  DamageFlyRoll : Nat
  DamageFall : Nat

/-- The ids of the game's action-state table, for evaluating the predicates on concrete
frames: `DamageFall = 0x26`, `DamageHi1 = 0x4B`, `DamageFlyRoll = 0x5B`. -/
def ActionIds.melee : ActionIds where
  DamageHi1 := 0x4B
  DamageFlyRoll := 0x5B
  DamageFall := 0x26

/-- `Analyzer::inTumble` (analyzer.h 99-101). -/
def Analyzer.inTumble (A : ActionIds) (f : SlippiFrame) : Bool :=
  f.action_pre == A.DamageFall

/-- `Analyzer::inDamagedState` (analyzer.h 102-104). -/
def Analyzer.inDamagedState (A : ActionIds) (f : SlippiFrame) : Bool :=
  decide (f.action_pre ≥ A.DamageHi1) && decide (f.action_pre ≤ A.DamageFlyRoll)

/-- `Analyzer::isInHitstun` (analyzer.h 132-134): `f.flags_4 & 0x02` as a `bool`. -/
def Analyzer.isInHitstun (f : SlippiFrame) : Bool :=
  decide (f.flags_4 &&& 0x02 ≠ 0)

/-- The hitstun predicate as the spec words it: the flag, or the damaged range, or tumble. -/
def Analyzer.hitstunAsSpecified (A : ActionIds) (f : SlippiFrame) : Bool :=
  decide (f.flags_4 &&& 0x02 ≠ 0) || Analyzer.inDamagedState A f || Analyzer.inTumble A f

/-- `TIMER_MINS` (analyzer.h 22). -/
def TIMER_MINS : Int := 8

/-- `Analyzer::frameAsTimer` (analyzer.h 153-174): the numbers `lmins`, `lsecs`, `lframes`
from which the returned text is assembled. `fnum-START_FRAMES` is an unsigned 32-bit
difference converted to `int`; the values after it stay within the range of `int`. -/
def Analyzer.frameAsTimer (START_FRAMES : Int) (fnum : Nat) : Int × Int × Int :=
  let elapsed := toInt32 ((fnum : Int) - START_FRAMES)
  let elapsed := if elapsed < 0 then 0 else elapsed
  let mins := elapsed / 3600
  let secs := elapsed / 60 - mins * 60
  let frames := elapsed - 60 * secs - 3600 * mins
  let lmins := TIMER_MINS - mins
  let lmins := if secs > 0 ∨ frames > 0 then lmins - 1 else lmins
  let lsecs := 60 - secs
  let lsecs := if frames > 0 then lsecs - 1 else lsecs
  let lframes := if frames > 0 then 60 - frames else 0
  (lmins, lsecs, lframes)

/-- The elapsed frames `frameAsTimer` works with: `max(fnum - START_FRAMES, 0)`. -/
def Analyzer.elapsed (START_FRAMES : Int) (fnum : Nat) : Int :=
  max ((fnum : Int) - START_FRAMES) 0

/-! ## Header -/

/-- C1. `_parseHeader` fails when the eight leading bytes differ from the magic or the
big-endian unsigned 32-bit value at offset 11 is 0; otherwise it succeeds, leaves the cursor
at 15, and both `_length_raw` and `_length_raw_start` equal to that value. -/
theorem parseHeader_spec (E : Externals) (s : Parser) :
    ((same8 s._rb 0 E.SLP_HEADER = false ∨ readBE4U s._rb 11 = 0) →
      (s._parseHeader E).1 = false) ∧
    ((same8 s._rb 0 E.SLP_HEADER = true ∧ readBE4U s._rb 11 ≠ 0) →
      (s._parseHeader E).1 = true ∧ (s._parseHeader E).2._bp = 15 ∧
      (s._parseHeader E).2._length_raw = readBE4U s._rb 11 ∧
      (s._parseHeader E).2._length_raw_start = readBE4U s._rb 11) := by
  constructor
  · intro h
    unfold Parser._parseHeader
    rcases h with h | h
    · simp [h]
    · simp only [Nat.zero_add, h]
      split <;> simp
  · rintro ⟨h1, h2⟩
    unfold Parser._parseHeader
    simp [h1, h2]

/-- Witness for C1 on a 15-byte header announcing 17 raw bytes. -/
theorem parseHeader_spec_witness :
    (same8 (Parser.fresh (bufOf (sampleHeader 17)))._rb 0 Externals.sample.SLP_HEADER = true ∧
      readBE4U (Parser.fresh (bufOf (sampleHeader 17)))._rb 11 ≠ 0) ∧
    ((Parser.fresh (bufOf (sampleHeader 17)))._parseHeader Externals.sample).2._length_raw = 17 :=
  ⟨⟨by decide, by decide⟩,
    ((parseHeader_spec Externals.sample (Parser.fresh (bufOf (sampleHeader 17)))).2
      ⟨by decide, by decide⟩).2.2.1⟩

/-! ## Conversions -/

/-- A byte below `0x80` converts to itself. -/
theorem charToUnsigned_of_lt (b : Nat) (h : b < 128) : charToUnsigned b = b := by
  simp [charToUnsigned, h]

/-- The conversion gives an index below `0x80` only for the byte of that value. -/
theorem charToUnsigned_eq_iff (b c : Nat) (hc : c < 128) : charToUnsigned b = c ↔ b = c := by
  unfold charToUnsigned
  split_ifs <;> omega

/-- Different bytes convert to different indices. -/
theorem charToUnsigned_inj (a b : Nat) (h : charToUnsigned a = charToUnsigned b) : a = b := by
  unfold charToUnsigned at h
  split_ifs at h <;> omega

/-- The number `readBE4S` gives is in the range of 32 bits. -/
theorem readBE4S_range (rb : Nat → Nat) (i : Nat) :
    -2147483648 ≤ readBE4S rb i ∧ readBE4S rb i < 2147483648 := by
  have h : readBE4U rb i < 4294967296 := by
    unfold readBE4U byteAt
    omega
  unfold readBE4S
  split_ifs <;> omega

/-- A 32-bit result that is in the range of 32 bits is the result itself. -/
theorem toInt32_of_range (u : Int) (h1 : -2147483648 ≤ u) (h2 : u < 2147483648) :
    toInt32 u = u := by
  unfold toInt32
  split_ifs <;> omega

/-! ## Event table -/

/-- The values of the manifest loop variable are the multiples of 3 below `ev_bytes`. -/
theorem mem_manifestOffsets (n i : Nat) : i ∈ manifestOffsets n ↔ i < n ∧ i % 3 = 0 := by
  simp [manifestOffsets, List.mem_filter]

/-- The manifest loop variable takes its values in increasing order. -/
theorem manifestOffsets_pairwise (n : Nat) : (manifestOffsets n).Pairwise (· < ·) :=
  (List.pairwise_lt_range n).filter _

/-- Once an entry is nonzero, a manifest loop that goes through meets no triple whose code
indexes that entry. -/
theorem manifestLoop_declared (rb : Nat → Nat) (bp c : Nat) :
    ∀ (offs : List Nat) (t : Nat → Nat), 0 < t c → (manifestLoop rb bp offs t).ok = true →
      ∀ j ∈ offs, charToUnsigned (byteAt rb (bp + j)) ≠ c := by
  intro offs
  induction offs with
  | nil => intro t _ _ j hj; simp at hj
  | cons i rest ih =>
    intro t ht hok j hj
    unfold manifestLoop at hok
    by_cases hi : t (charToUnsigned (byteAt rb (bp + i))) > 0
    · simp [hi] at hok
    · simp only [hi, if_false] at hok
      have hic : charToUnsigned (byteAt rb (bp + i)) ≠ c := by
        intro h; rw [h] at hi; exact hi ht
      rcases List.mem_cons.mp hj with rfl | hj
      · exact hic
      · refine ih _ ?_ hok j hj
        simp [setSize, Ne.symm hic, ht]

/-- A manifest loop over increasing offsets returns `false` at or before an offset whose code
indexes a nonzero entry, and has then read `Event::name` at the index of the code it stopped
at. -/
theorem manifestLoop_hits (rb : Nat → Nat) (bp : Nat) :
    ∀ (offs : List Nat) (t : Nat → Nat) (j : Nat), offs.Pairwise (· < ·) → j ∈ offs →
      0 < t (charToUnsigned (byteAt rb (bp + j))) →
      (manifestLoop rb bp offs t).ok = false ∧
      ∃ j' ∈ offs, j' ≤ j ∧ (manifestLoop rb bp offs t).nameRead
        = some (eventNameIndex (charToUnsigned (byteAt rb (bp + j')))) := by
  intro offs
  induction offs with
  | nil => intro t j _ hj; simp at hj
  | cons h rest ih =>
    intro t j hp hj ht
    have hp' := List.pairwise_cons.mp hp
    have hle : h ≤ j := by
      rcases List.mem_cons.mp hj with hjh | hjr
      · omega
      · exact Nat.le_of_lt (hp'.1 j hjr)
    unfold manifestLoop
    by_cases hh : t (charToUnsigned (byteAt rb (bp + h))) > 0
    · rw [if_pos hh]
      exact ⟨rfl, h, List.mem_cons_self _ _, hle, rfl⟩
    · simp only [hh, if_false]
      have hjr : j ∈ rest := by
        rcases List.mem_cons.mp hj with hjh | hjr
        · rw [hjh] at ht; exact absurd ht hh
        · exact hjr
      have hne : charToUnsigned (byteAt rb (bp + j)) ≠ charToUnsigned (byteAt rb (bp + h)) := by
        intro he; rw [he] at ht; exact hh ht
      have ht' : 0 < setSize t (charToUnsigned (byteAt rb (bp + h))) (readBE2U rb (bp + h + 1))
          (charToUnsigned (byteAt rb (bp + j))) := by
        simp only [setSize, hne, if_false]; exact ht
      obtain ⟨k1, j', hj', hle', k2⟩ := ih _ j hp'.2 hjr ht'
      exact ⟨k1, j', List.mem_cons_of_mem _ hj', hle', k2⟩

/-- A manifest loop over increasing offsets returns `false` when a code declared with a
nonzero size is declared again at a later offset: it stops at or before the later offset,
and has read `Event::name` at the index of the code it stopped at. -/
theorem manifestLoop_redeclared (rb : Nat → Nat) (bp : Nat) :
    ∀ (offs : List Nat) (t : Nat → Nat) (i j : Nat), offs.Pairwise (· < ·) → i ∈ offs → j ∈ offs →
      i < j → byteAt rb (bp + i) = byteAt rb (bp + j) → readBE2U rb (bp + i + 1) ≠ 0 →
      (manifestLoop rb bp offs t).ok = false ∧
      ∃ j' ∈ offs, j' ≤ j ∧ (manifestLoop rb bp offs t).nameRead
        = some (eventNameIndex (charToUnsigned (byteAt rb (bp + j')))) := by
  intro offs
  induction offs with
  | nil => intro t i j _ hi; simp at hi
  | cons h rest ih =>
    intro t i j hp hi hj hij hcode hsize
    have hp' := List.pairwise_cons.mp hp
    have hle : h ≤ j := by
      rcases List.mem_cons.mp hj with hjh | hjr
      · omega
      · exact Nat.le_of_lt (hp'.1 j hjr)
    unfold manifestLoop
    by_cases hh : t (charToUnsigned (byteAt rb (bp + h))) > 0
    · rw [if_pos hh]
      exact ⟨rfl, h, List.mem_cons_self _ _, hle, rfl⟩
    · simp only [hh, if_false]
      rcases List.mem_cons.mp hi with hih | hir
      · have hj' : j ∈ rest := by
          rcases List.mem_cons.mp hj with hjh | hjr
          · omega
          · exact hjr
        rw [hih] at hcode hsize
        have ht' : 0 < setSize t (charToUnsigned (byteAt rb (bp + h))) (readBE2U rb (bp + h + 1))
            (charToUnsigned (byteAt rb (bp + j))) := by
          rw [← hcode]
          simp only [setSize, if_true]
          exact Nat.pos_of_ne_zero hsize
        obtain ⟨k1, j', hj'', hle', k2⟩ := manifestLoop_hits rb bp rest _ j hp'.2 hj' ht'
        exact ⟨k1, j', List.mem_cons_of_mem _ hj'', hle', k2⟩
      · have hj' : j ∈ rest := by
          rcases List.mem_cons.mp hj with hjh | hjr
          · have := hp'.1 i hir; omega
          · exact hjr
        obtain ⟨k1, j', hj'', hle', k2⟩ := ih _ i j hp'.2 hir hj' hij hcode hsize
        exact ⟨k1, j', List.mem_cons_of_mem _ hj'', hle', k2⟩

/-- A manifest loop over offsets whose codes are pairwise distinct and index entries that are
0 goes through, stores each declared size and leaves every other entry as it was. -/
theorem manifestLoop_distinct (rb : Nat → Nat) (bp : Nat) :
    ∀ (offs : List Nat) (t : Nat → Nat),
      (∀ i ∈ offs, t (charToUnsigned (byteAt rb (bp + i))) = 0) →
      offs.Pairwise (fun i j => byteAt rb (bp + i) ≠ byteAt rb (bp + j)) →
      (manifestLoop rb bp offs t).ok = true ∧
      (∀ i ∈ offs, (manifestLoop rb bp offs t).sizes (charToUnsigned (byteAt rb (bp + i)))
        = readBE2U rb (bp + i + 1)) ∧
      (∀ c, (∀ i ∈ offs, charToUnsigned (byteAt rb (bp + i)) ≠ c) →
        (manifestLoop rb bp offs t).sizes c = t c) := by
  intro offs
  induction offs with
  | nil => intro t _ _; simp [manifestLoop]
  | cons h rest ih =>
    intro t hz hp
    have hp' := List.pairwise_cons.mp hp
    have hh : ¬ t (charToUnsigned (byteAt rb (bp + h))) > 0 := by
      have := hz h (List.mem_cons_self _ _); omega
    have hidx : ∀ i ∈ rest,
        charToUnsigned (byteAt rb (bp + h)) ≠ charToUnsigned (byteAt rb (bp + i)) :=
      fun i hi he => hp'.1 i hi (charToUnsigned_inj _ _ he)
    have hz' : ∀ i ∈ rest,
        setSize t (charToUnsigned (byteAt rb (bp + h))) (readBE2U rb (bp + h + 1))
          (charToUnsigned (byteAt rb (bp + i))) = 0 := by
      intro i hi
      simp [setSize, Ne.symm (hidx i hi), hz i (List.mem_cons_of_mem _ hi)]
    obtain ⟨k1, k2, k3⟩ := ih _ hz' hp'.2
    unfold manifestLoop
    simp only [hh, if_false]
    refine ⟨k1, ?_, ?_⟩
    · intro i hi
      rcases List.mem_cons.mp hi with rfl | hi
      · rw [k3 _ (fun j hj => Ne.symm (hidx j hj))]
        simp [setSize]
      · exact k2 i hi
    · intro c hc
      rw [k3 c (fun i hi => hc i (List.mem_cons_of_mem _ hi))]
      have := hc h (List.mem_cons_self _ _)
      simp [setSize, Ne.symm this]

/-- An entry that is 0 before a manifest loop and that no triple sets to a nonzero size is 0
after it. -/
theorem manifestLoop_undeclared (rb : Nat → Nat) (bp c : Nat) :
    ∀ (offs : List Nat) (t : Nat → Nat), t c = 0 →
      (∀ i ∈ offs, charToUnsigned (byteAt rb (bp + i)) = c → readBE2U rb (bp + i + 1) = 0) →
      (manifestLoop rb bp offs t).sizes c = 0 := by
  intro offs
  induction offs with
  | nil => intro t ht _; simpa [manifestLoop] using ht
  | cons h rest ih =>
    intro t ht hd
    unfold manifestLoop
    by_cases hh : t (charToUnsigned (byteAt rb (bp + h))) > 0
    · simpa [hh] using ht
    · simp only [hh, if_false]
      refine ih _ ?_ (fun i hi => hd i (List.mem_cons_of_mem _ hi))
      by_cases hc : charToUnsigned (byteAt rb (bp + h)) = c
      · have := hd h (List.mem_cons_self _ _) hc
        simp [setSize, hc, this]
      · simp [setSize, Ne.symm hc, ht]

/-- A manifest loop leaves an entry as it was when no triple's code indexes it. -/
theorem manifestLoop_kept (rb : Nat → Nat) (bp c : Nat) :
    ∀ (offs : List Nat) (t : Nat → Nat),
      (∀ j ∈ offs, charToUnsigned (byteAt rb (bp + j)) ≠ c) →
      (manifestLoop rb bp offs t).sizes c = t c := by
  intro offs
  induction offs with
  | nil => intro t _; rfl
  | cons i rest ih =>
    intro t hn
    unfold manifestLoop
    by_cases hi : t (charToUnsigned (byteAt rb (bp + i))) > 0
    · simp [hi]
    · simp only [hi, if_false]
      rw [ih _ (fun j hj => hn j (List.mem_cons_of_mem _ hj))]
      have := hn i (List.mem_cons_self _ _)
      simp [setSize, Ne.symm this]

/-- A manifest loop reads the buffer only in the three bytes of each triple it addresses. -/
theorem manifestLoop_ext (rb rb' : Nat → Nat) (bp : Nat) :
    ∀ (offs : List Nat) (t : Nat → Nat),
      (∀ i ∈ offs, ∀ k, k ≤ 2 → byteAt rb' (bp + i + k) = byteAt rb (bp + i + k)) →
      manifestLoop rb' bp offs t = manifestLoop rb bp offs t := by
  intro offs
  induction offs with
  | nil => intro t _; rfl
  | cons i rest ih =>
    intro t h
    have h0 : byteAt rb' (bp + i) = byteAt rb (bp + i) := h i (List.mem_cons_self _ _) 0 (by omega)
    have h1 : byteAt rb' (bp + i + 1) = byteAt rb (bp + i + 1) :=
      h i (List.mem_cons_self _ _) 1 (by omega)
    have h2 : byteAt rb' (bp + i + 1 + 1) = byteAt rb (bp + i + 1 + 1) :=
      h i (List.mem_cons_self _ _) 2 (by omega)
    have hr : readBE2U rb' (bp + i + 1) = readBE2U rb (bp + i + 1) := by
      unfold readBE2U; rw [h1, h2]
    unfold manifestLoop
    simp only [h0, hr]
    split_ifs
    · rfl
    · exact ih _ (fun j hj => h j (List.mem_cons_of_mem _ hj))

/-- The sanity loop finds a missing size exactly when a code in `0x35..0x39` has size 0. -/
theorem mandatoryMissing_iff (t : Nat → Nat) :
    mandatoryMissing t = true ↔ ∃ c, EV_PAYLOADS ≤ c ∧ c ≤ GAME_END ∧ t c = 0 := by
  simp only [mandatoryMissing, EV_PAYLOADS, GAME_END, List.any_eq_true, List.mem_range'_1,
    beq_iff_eq]
  constructor
  · rintro ⟨c, ⟨h1, h2⟩, h3⟩; exact ⟨c, h1, by omega, h3⟩
  · rintro ⟨c, h1, h2, h3⟩; exact ⟨c, ⟨h1, by omega⟩, h3⟩

/-- C2. `_parseEventDescriptions` fails whenever the byte at the cursor is not `0x35`, and
fails whenever one of the codes `0x35..0x39` has size 0 in the table once the manifest has
been read; in particular it fails when one of `0x36..0x39` had no size before and no triple
of the manifest declares it with a nonzero size. -/
theorem parseEventDescriptions_fails (s : Parser) :
    (byteAt s._rb s._bp ≠ EV_PAYLOADS → (s._parseEventDescriptions).1 = false) ∧
    (∀ c, EV_PAYLOADS ≤ c → c ≤ GAME_END →
      (s._parseEventDescriptions).2._payload_sizes c = 0 →
      (s._parseEventDescriptions).1 = false) ∧
    (∀ c, GAME_START ≤ c → c ≤ GAME_END → s._payload_sizes c = 0 →
      (∀ i ∈ manifestOffsets s.ev_bytes, byteAt s._rb (s._bp + 2 + i) = c →
        readBE2U s._rb (s._bp + 2 + i + 1) = 0) →
      (s._parseEventDescriptions).1 = false) := by
  have key : ∀ c, EV_PAYLOADS ≤ c → c ≤ GAME_END →
      (s._parseEventDescriptions).2._payload_sizes c = 0 →
      (s._parseEventDescriptions).1 = false := by
    intro c h1 h2 h3
    unfold Parser._parseEventDescriptions at h3 ⊢
    by_cases hb : byteAt s._rb s._bp ≠ EV_PAYLOADS
    · simp [hb]
    · simp only [hb, if_false] at h3 ⊢
      split
      · rfl
      · split
        · rfl
        · rename_i hm1 hm2
          simp only [hm1, hm2, if_false] at h3
          exact absurd ((mandatoryMissing_iff _).mpr ⟨c, h1, h2, h3⟩) hm2
  refine ⟨?_, key, ?_⟩
  · intro hb
    unfold Parser._parseEventDescriptions
    simp [hb]
  · intro c h1 h2 h0 hd
    by_cases hb : byteAt s._rb s._bp ≠ EV_PAYLOADS
    · unfold Parser._parseEventDescriptions
      simp [hb]
    · refine key c (by unfold GAME_START at h1; unfold EV_PAYLOADS; omega) h2 ?_
      have hc : c ≠ EV_PAYLOADS := by unfold GAME_START at h1; unfold EV_PAYLOADS; omega
      have hc128 : c < 128 := by unfold GAME_END at h2; omega
      have hu := manifestLoop_undeclared s._rb (s._bp + 2) c (manifestOffsets s.ev_bytes)
        (setSize s._payload_sizes EV_PAYLOADS (s.ev_bytes + 1)) (by simp [setSize, hc, h0])
        (fun i hi hidx => hd i hi ((charToUnsigned_eq_iff _ c hc128).mp hidx))
      unfold Parser._parseEventDescriptions
      simp only [hb, if_false]
      split
      · exact hu
      · split
        · exact hu
        · exact hu

/-- Witness for C2: a manifest that declares `0x36`, `0x37`, `0x38` and not `0x39`. -/
theorem parseEventDescriptions_fails_witness :
    (∀ i ∈ manifestOffsets (decodedHeader noGameEndFile).ev_bytes,
      byteAt (decodedHeader noGameEndFile)._rb ((decodedHeader noGameEndFile)._bp + 2 + i) = 0x39 →
        readBE2U (decodedHeader noGameEndFile)._rb
          ((decodedHeader noGameEndFile)._bp + 2 + i + 1) = 0) ∧
    ((decodedHeader noGameEndFile)._parseEventDescriptions).1 = false :=
  ⟨by decide,
    (parseEventDescriptions_fails (decodedHeader noGameEndFile)).2.2 0x39 (by decide) (by decide)
      (by decide) (by decide)⟩

/-- C3 (as the code has it). In a manifest whose triples, up to and including the later of
the two, declare codes among `0x35..0x39` (the codes `Event::name` is read for elsewhere): if
a code is declared by a triple with a nonzero size and declared again by a later triple,
`_parseEventDescriptions` fails, and the name its manifest loop reads for the message is
that of one of these codes (an index in `0..4`). -/
theorem redeclared_code_fails (s : Parser) (a b : Nat) (hab : a < b)
    (hb : 3 * b < s.ev_bytes)
    (hnamed : ∀ k, k ≤ b → EV_PAYLOADS ≤ byteAt s._rb (s._bp + 2 + 3 * k) ∧
      byteAt s._rb (s._bp + 2 + 3 * k) ≤ GAME_END)
    (hcode : byteAt s._rb (s._bp + 2 + 3 * a) = byteAt s._rb (s._bp + 2 + 3 * b))
    (hsize : readBE2U s._rb (s._bp + 2 + 3 * a + 1) ≠ 0) :
    (s._parseEventDescriptions).1 = false ∧
    ∃ c, EV_PAYLOADS ≤ c ∧ c ≤ GAME_END ∧
      (manifestLoop s._rb (s._bp + 2) (manifestOffsets s.ev_bytes)
        (setSize s._payload_sizes EV_PAYLOADS (s.ev_bytes + 1))).nameRead
        = some (c - EV_PAYLOADS) := by
  obtain ⟨hl, j', hj', hle, hname⟩ :=
    manifestLoop_redeclared s._rb (s._bp + 2) (manifestOffsets s.ev_bytes)
      (setSize s._payload_sizes EV_PAYLOADS (s.ev_bytes + 1)) (3 * a) (3 * b)
      (manifestOffsets_pairwise _)
      ((mem_manifestOffsets _ _).mpr ⟨by omega, by omega⟩)
      ((mem_manifestOffsets _ _).mpr ⟨hb, by omega⟩) (by omega) hcode hsize
  constructor
  · unfold Parser._parseEventDescriptions
    by_cases h0 : byteAt s._rb s._bp ≠ EV_PAYLOADS
    · simp [h0]
    · simp only [h0, if_false]
      simp [hl]
  · obtain ⟨_, h3⟩ := (mem_manifestOffsets _ _).mp hj'
    obtain ⟨k, hk⟩ : ∃ k, j' = 3 * k := ⟨j' / 3, by omega⟩
    subst hk
    obtain ⟨n1, n2⟩ := hnamed k (by omega)
    unfold EV_PAYLOADS at n1
    unfold GAME_END at n2
    refine ⟨byteAt s._rb (s._bp + 2 + 3 * k), n1, n2, ?_⟩
    have he : eventNameIndex (byteAt s._rb (s._bp + 2 + 3 * k))
        = byteAt s._rb (s._bp + 2 + 3 * k) - EV_PAYLOADS := by
      unfold eventNameIndex EV_PAYLOADS
      omega
    rw [hname, charToUnsigned_of_lt _ (by omega), he]

/-- Witness for C3: `PRE_FRAME` declared with size 6 by the first and the second triple. -/
theorem redeclared_code_fails_witness :
    3 * 1 < (decodedHeader redeclaredTwiceFile).ev_bytes ∧
    ((decodedHeader redeclaredTwiceFile)._parseEventDescriptions).1 = false :=
  ⟨by decide,
    (redeclared_code_fails (decodedHeader redeclaredTwiceFile) 0 1 (by decide) (by decide)
      (by decide) (by decide) (by decide)).1⟩

/-- Counterexample to C3 as stated: the manifest declares code `0x37` in its first triple
(size 0) and again in its second triple (size 6), and the table decoder succeeds. -/
theorem redeclared_zero_size_accepted :
    3 * 1 < (decodedHeader redeclaredFile).ev_bytes ∧
    byteAt (decodedHeader redeclaredFile)._rb ((decodedHeader redeclaredFile)._bp + 2 + 3 * 0)
      = PRE_FRAME ∧
    byteAt (decodedHeader redeclaredFile)._rb ((decodedHeader redeclaredFile)._bp + 2 + 3 * 1)
      = PRE_FRAME ∧
    (Parser._parseHeader Externals.sample (Parser.fresh (bufOf redeclaredFile))).1 = true ∧
    ((decodedHeader redeclaredFile)._parseEventDescriptions).1 = true ∧
    ((decodedHeader redeclaredFile)._parseEventDescriptions).2._payload_sizes PRE_FRAME = 6 := by
  decide

/-- C4 (as the code has it). For a manifest of `n` complete triples with pairwise distinct
codes below `0x80`, none of them `0x35`, nonzero sizes, and declaring `0x36..0x39`, read into
an empty table while at least `2 + 3n` raw bytes remain: `_parseEventDescriptions` succeeds,
the table maps every declared code to `256*size_hi + size_lo` and every undeclared code other
than `0x35` to 0, the cursor advances by `2 + 3n` and `_length_raw` decreases by `2 + 3n`. -/
theorem manifest_table_built (s : Parser) (n : Nat)
    (h35 : byteAt s._rb s._bp = EV_PAYLOADS)
    (hn : s.ev_bytes = 3 * n)
    (hzero : ∀ c, s._payload_sizes c = 0)
    (hlow : ∀ a, a < n → byteAt s._rb (s._bp + 2 + 3 * a) < 128)
    (hdist : ∀ a, a < n → ∀ b, b < n → a ≠ b →
      byteAt s._rb (s._bp + 2 + 3 * a) ≠ byteAt s._rb (s._bp + 2 + 3 * b))
    (hne : ∀ a, a < n → byteAt s._rb (s._bp + 2 + 3 * a) ≠ EV_PAYLOADS)
    (hnz : ∀ a, a < n → readBE2U s._rb (s._bp + 2 + 3 * a + 1) ≠ 0)
    (hmand : ∀ c ∈ [GAME_START, PRE_FRAME, POST_FRAME, GAME_END],
      ∃ a, a < n ∧ byteAt s._rb (s._bp + 2 + 3 * a) = c)
    (hlen : 2 + 3 * n ≤ s._length_raw) (h32 : s._length_raw < 4294967296) :
    (s._parseEventDescriptions).1 = true ∧
    (∀ a, a < n → (s._parseEventDescriptions).2._payload_sizes (byteAt s._rb (s._bp + 2 + 3 * a))
      = 256 * byteAt s._rb (s._bp + 2 + 3 * a + 1) + byteAt s._rb (s._bp + 2 + 3 * a + 2)) ∧
    (∀ c, c ≠ EV_PAYLOADS → (∀ a, a < n → byteAt s._rb (s._bp + 2 + 3 * a) ≠ c) →
      (s._parseEventDescriptions).2._payload_sizes c = 0) ∧
    (s._parseEventDescriptions).2._bp = s._bp + (2 + 3 * n) ∧
    (s._parseEventDescriptions).2._length_raw + (2 + 3 * n) = s._length_raw := by
  have hoff : ∀ i ∈ manifestOffsets (3 * n), ∃ a, a < n ∧ i = 3 * a := by
    intro i hi
    obtain ⟨h1, h2⟩ := (mem_manifestOffsets _ _).mp hi
    exact ⟨i / 3, by omega, by omega⟩
  have hidx : ∀ a, a < n → charToUnsigned (byteAt s._rb (s._bp + 2 + 3 * a))
      = byteAt s._rb (s._bp + 2 + 3 * a) := fun a ha => charToUnsigned_of_lt _ (hlow a ha)
  have hz : ∀ i ∈ manifestOffsets (3 * n),
      setSize s._payload_sizes EV_PAYLOADS (3 * n + 1)
        (charToUnsigned (byteAt s._rb (s._bp + 2 + i))) = 0 := by
    intro i hi
    obtain ⟨a, ha, rfl⟩ := hoff i hi
    rw [hidx a ha]
    simp [setSize, hne a ha, hzero]
  have hp : (manifestOffsets (3 * n)).Pairwise
      (fun i j => byteAt s._rb (s._bp + 2 + i) ≠ byteAt s._rb (s._bp + 2 + j)) := by
    refine List.Pairwise.imp_of_mem ?_ (manifestOffsets_pairwise (3 * n))
    intro i j hi hj hij
    obtain ⟨a, ha, rfl⟩ := hoff i hi
    obtain ⟨b, hb, rfl⟩ := hoff j hj
    exact hdist a ha b hb (by omega)
  obtain ⟨k1, k2, k3⟩ := manifestLoop_distinct s._rb (s._bp + 2) (manifestOffsets (3 * n))
    (setSize s._payload_sizes EV_PAYLOADS (3 * n + 1)) hz hp
  have hmem : ∀ a, a < n → 3 * a ∈ manifestOffsets (3 * n) := fun a ha =>
    (mem_manifestOffsets _ _).mpr ⟨by omega, by omega⟩
  have hdecl : ∀ a, a < n →
      (manifestLoop s._rb (s._bp + 2) (manifestOffsets (3 * n))
        (setSize s._payload_sizes EV_PAYLOADS (3 * n + 1))).sizes
          (byteAt s._rb (s._bp + 2 + 3 * a))
      = readBE2U s._rb (s._bp + 2 + 3 * a + 1) := by
    intro a ha
    have := k2 _ (hmem a ha)
    rw [hidx a ha] at this
    exact this
  have hundecl : ∀ c, (∀ a, a < n → byteAt s._rb (s._bp + 2 + 3 * a) ≠ c) →
      (manifestLoop s._rb (s._bp + 2) (manifestOffsets (3 * n))
        (setSize s._payload_sizes EV_PAYLOADS (3 * n + 1))).sizes c
      = setSize s._payload_sizes EV_PAYLOADS (3 * n + 1) c := by
    intro c hc
    refine k3 c (fun i hi => ?_)
    obtain ⟨a, ha, rfl⟩ := hoff i hi
    rw [hidx a ha]
    exact hc a ha
  have hmiss : mandatoryMissing (manifestLoop s._rb (s._bp + 2) (manifestOffsets (3 * n))
      (setSize s._payload_sizes EV_PAYLOADS (3 * n + 1))).sizes = false := by
    rw [Bool.eq_false_iff]
    intro hm
    obtain ⟨c, h1, h2, h3⟩ := (mandatoryMissing_iff _).mp hm
    by_cases hc : c = EV_PAYLOADS
    · subst hc
      rw [hundecl _ hne] at h3
      simp [setSize] at h3
    · have hcm : c ∈ [GAME_START, PRE_FRAME, POST_FRAME, GAME_END] := by
        simp only [EV_PAYLOADS, GAME_END] at h1 h2 hc
        simp only [GAME_START, PRE_FRAME, POST_FRAME, GAME_END, List.mem_cons, List.mem_singleton]
        have : c = 54 ∨ c = 55 ∨ c = 56 ∨ c = 57 := by omega
        simpa using this
      obtain ⟨a, ha, hac⟩ := hmand c hcm
      rw [← hac, hdecl a ha] at h3
      exact hnz a ha h3
  unfold Parser._parseEventDescriptions
  simp only [h35, ne_eq, not_true_eq_false, if_false, hn, k1, hmiss, Bool.true_eq_false,
    Bool.false_eq_true]
  refine ⟨trivial, ?_, ?_, ?_, ?_⟩
  · intro a ha
    rw [hdecl a ha]
    simp [readBE2U, Nat.add_assoc]
  · intro c hc hu
    rw [hundecl c hu]
    simp [setSize, hc, hzero]
  · omega
  · show (s._length_raw + 4294967296 - (2 + 3 * n)) % 4294967296 + (2 + 3 * n) = s._length_raw
    have : s._length_raw + 4294967296 - (2 + 3 * n)
        = (s._length_raw - (2 + 3 * n)) + 4294967296 := by omega
    rw [this, Nat.add_mod_right, Nat.mod_eq_of_lt (by omega)]
    omega

/-- Witness for C4: the sample manifest (four triples) in a file announcing 14 raw bytes. -/
theorem manifest_table_built_witness :
    (2 + 3 * 4 ≤ (decodedHeader tableOnlyFile)._length_raw) ∧
    ((decodedHeader tableOnlyFile)._parseEventDescriptions).1 = true ∧
    ((decodedHeader tableOnlyFile)._parseEventDescriptions).2._payload_sizes PRE_FRAME = 6 ∧
    ((decodedHeader tableOnlyFile)._parseEventDescriptions).2._length_raw + (2 + 3 * 4)
      = (decodedHeader tableOnlyFile)._length_raw :=
  have h := manifest_table_built (decodedHeader tableOnlyFile) 4 (by decide) (by decide)
    (fun _ => rfl) (by decide) (by decide) (by decide) (by decide) (by decide) (by decide)
    (by decide)
  ⟨by decide, h.1, (h.2.1 1 (by decide)).trans (by decide), h.2.2.2.2⟩

/-- Counterexample to C4 as stated: the header announces 1 raw byte and the manifest has
four well-formed triples; the table decoder succeeds and leaves `_length_raw` at
`4294967283`, not at `1 - (2 + 3*4)` as a non-negative integer. -/
theorem manifest_wraps_length_raw :
    (Parser._parseHeader Externals.sample (Parser.fresh (bufOf shortRawFile))).1 = true ∧
    (decodedHeader shortRawFile)._length_raw = 1 ∧
    (decodedHeader shortRawFile).ev_bytes = 3 * 4 ∧
    ((decodedHeader shortRawFile)._parseEventDescriptions).1 = true ∧
    ((decodedHeader shortRawFile)._parseEventDescriptions).2._length_raw = 4294967283 ∧
    (((decodedHeader shortRawFile)._parseEventDescriptions).2._length_raw : Int)
      ≠ ((decodedHeader shortRawFile)._length_raw : Int) - (2 + 3 * 4) := by
  decide

/-! ## Event handlers and the cursor -/

/-- The handler lemma: `_parseGameStart` leaves the framing members as they are. -/
theorem parseGameStart_framing (E : Externals) (s : Parser) :
    s.sameFraming (s._parseGameStart E).2 := by
  unfold Parser._parseGameStart Parser.sameFraming
  simp only []
  split_ifs <;> simp

/-- The handler lemma: `_parsePreFrame` leaves the framing members as they are. -/
theorem parsePreFrame_framing (s : Parser) : s.sameFraming (s._parsePreFrame).2 := by
  simp [Parser._parsePreFrame, Parser.sameFraming]

/-- The handler lemma: `_parsePostFrame` leaves the framing members as they are. -/
theorem parsePostFrame_framing (s : Parser) : s.sameFraming (s._parsePostFrame).2 := by
  simp [Parser._parsePostFrame, Parser.sameFraming]

/-- The handler lemma: `_parseGameEnd` leaves the framing members as they are. -/
theorem parseGameEnd_framing (s : Parser) : s.sameFraming (s._parseGameEnd).2 := by
  unfold Parser._parseGameEnd Parser.sameFraming
  dsimp only
  split <;> simp

/-- The handler lemma: Whatever handler the switch calls, the framing members stay as they are. -/
theorem dispatch_framing (E : Externals) (s : Parser) : s.sameFraming (s.dispatch E).2 := by
  unfold Parser.dispatch
  dsimp only
  split
  · exact parseGameStart_framing E s
  · split
    · exact parsePreFrame_framing s
    · split
      · exact parsePostFrame_framing s
      · split
        · exact parseGameEnd_framing s
        · simp [Parser.sameFraming]

/-- The result of `_parseGameStart`: it fails exactly when a major version is already
recorded or the major-version byte of the event is 0. -/
theorem parseGameStart_flag (E : Externals) (s : Parser) :
    (s._parseGameStart E).1 = false ↔ (0 < s._slippi_maj ∨ byteAt s._rb (s._bp + 0x1) = 0) := by
  unfold Parser._parseGameStart
  by_cases h1 : s._slippi_maj > 0
  · simp [h1]
  · by_cases h2 : byteAt s._rb (s._bp + 0x1) = 0
    · simp [h1, h2]
    · simp [h1, h2]

/-- The major version recorded by `_parseGameStart` when no version was recorded before. -/
theorem parseGameStart_maj (E : Externals) (s : Parser) (h : s._slippi_maj = 0) :
    (s._parseGameStart E).2._slippi_maj = byteAt s._rb (s._bp + 0x1) := by
  unfold Parser._parseGameStart
  simp only [h, gt_iff_lt, lt_self_iff_false, if_false]
  split_ifs <;> rfl

/-- A failing `_parseGameStart` on a state with a recorded version leaves the state as it
is. -/
theorem parseGameStart_dup (E : Externals) (s : Parser) (h : 0 < s._slippi_maj) :
    s._parseGameStart E = (false, s) := by
  unfold Parser._parseGameStart
  simp [h]

/-- The handler lemma: `_parsePreFrame` returns `true` and keeps the recorded major version. -/
theorem parsePreFrame_maj (s : Parser) :
    (s._parsePreFrame).1 = true ∧ (s._parsePreFrame).2._slippi_maj = s._slippi_maj := by
  simp [Parser._parsePreFrame]

/-- The handler lemma: `_parsePostFrame` returns `true` and keeps the recorded major version. -/
theorem parsePostFrame_maj (s : Parser) :
    (s._parsePostFrame).1 = true ∧ (s._parsePostFrame).2._slippi_maj = s._slippi_maj := by
  simp [Parser._parsePostFrame]

/-- The handler lemma: `_parseGameEnd` returns `true` and keeps the recorded major version. -/
theorem parseGameEnd_maj (s : Parser) :
    (s._parseGameEnd).1 = true ∧ (s._parseGameEnd).2._slippi_maj = s._slippi_maj := by
  unfold Parser._parseGameEnd
  simp only []
  split_ifs <;> simp

/-- A recorded major version stays recorded through the dispatch of any event. -/
theorem dispatch_maj_pos (E : Externals) (s : Parser) (h : 0 < s._slippi_maj) :
    0 < (s.dispatch E).2._slippi_maj := by
  unfold Parser.dispatch
  simp only []
  split_ifs
  · rw [parseGameStart_dup E s h]; exact h
  · rw [(parsePreFrame_maj s).2]; exact h
  · rw [(parsePostFrame_maj s).2]; exact h
  · rw [(parseGameEnd_maj s).2]; exact h
  · exact h

/-- A `GAME_START` event is accepted only when no major version is recorded, and then
records a nonzero one. -/
theorem dispatch_gameStart_ok (E : Externals) (s : Parser)
    (hc : byteAt s._rb s._bp = GAME_START) (hok : (s.dispatch E).1 = true) :
    s._slippi_maj = 0 ∧ 0 < (s.dispatch E).2._slippi_maj := by
  unfold Parser.dispatch at hok ⊢
  simp only [hc, if_true] at hok ⊢
  have hf := parseGameStart_flag E s
  have h0 : s._slippi_maj = 0 := by
    by_contra hne
    have := hf.mpr (Or.inl (Nat.pos_of_ne_zero hne))
    rw [this] at hok; exact Bool.false_ne_true hok
  refine ⟨h0, ?_⟩
  rw [parseGameStart_maj E s h0]
  by_contra hne
  have := hf.mpr (Or.inr (by omega))
  rw [this] at hok; exact Bool.false_ne_true hok

/-- An event whose code is none of `0x36..0x39` is dispatched to no handler. -/
theorem dispatch_unknown (E : Externals) (s : Parser)
    (h1 : byteAt s._rb s._bp ≠ GAME_START) (h2 : byteAt s._rb s._bp ≠ PRE_FRAME)
    (h3 : byteAt s._rb s._bp ≠ POST_FRAME) (h4 : byteAt s._rb s._bp ≠ GAME_END) :
    s.dispatch E = (true, s) := by
  unfold Parser.dispatch
  simp [h1, h2, h3, h4]

/-! ## One pass of the event loop -/

/-- A pass of the loop body goes through exactly when the handler succeeds and the event
fits in the remaining raw bytes. -/
theorem eventBody_flag (E : Externals) (s : Parser) :
    (s.eventBody E).1 = true ↔
      ((s.dispatch E).1 = true ∧ s.declaredSize + 1 ≤ s._length_raw) := by
  obtain ⟨h1, h2, h3, h4, _⟩ := dispatch_framing E s
  unfold Parser.eventBody Parser.declaredSize
  simp only [h1, h2, h3, h4]
  by_cases hd : (s.dispatch E).1 = false
  · simp [hd]
  · simp only [hd, if_false]
    have hd' : (s.dispatch E).1 = true := by simpa using hd
    by_cases hs : s._payload_sizes (charToUnsigned (byteAt s._rb s._bp)) + 1 > s._length_raw
    · simp only [hs, if_true, hd', true_and]
      constructor
      · intro h; exact absurd h Bool.false_ne_true
      · intro h; omega
    · simp only [hs, if_false, hd', true_and]
      constructor
      · intro _; omega
      · intro _; trivial

/-- The state after a pass of the loop body that went through: the state the handler left,
with the cursor moved and the counter decreased by the declared size plus one. -/
theorem eventBody_state (E : Externals) (s : Parser) (h : (s.eventBody E).1 = true) :
    (s.eventBody E).2 =
      { (s.dispatch E).2 with
        _length_raw := s._length_raw - (s.declaredSize + 1)
        _bp := s._bp + (s.declaredSize + 1) } := by
  obtain ⟨hd, hs⟩ := (eventBody_flag E s).mp h
  obtain ⟨h1, h2, h3, h4, _⟩ := dispatch_framing E s
  unfold Parser.declaredSize at hs ⊢
  unfold Parser.eventBody
  simp only [h1, h2, h3, h4, hd, Bool.true_eq_false, if_false]
  have : ¬ (s._payload_sizes (charToUnsigned (byteAt s._rb s._bp)) + 1 > s._length_raw) := by omega
  simp only [this, if_false]

/-- The state after a pass of the loop body that returned `false` is the state the handler
left. -/
theorem eventBody_fail_state (E : Externals) (s : Parser) (h : (s.eventBody E).1 = false) :
    (s.eventBody E).2 = (s.dispatch E).2 := by
  unfold Parser.eventBody at h ⊢
  by_cases hd : (s.dispatch E).1 = false
  · simp [hd]
  · have hd' : (s.dispatch E).1 = true := by simpa using hd
    simp only [hd', Bool.true_eq_false, if_false] at h ⊢
    by_cases hs : (s.dispatch E).2._payload_sizes
        (charToUnsigned (byteAt (s.dispatch E).2._rb (s.dispatch E).2._bp)) + 1 > (s.dispatch E).2._length_raw
    · simp only [hs, if_true]
    · simp only [hs, if_false] at h
      exact absurd h (by simp)

/-- What a pass of the loop body that went through does to the framing fields. -/
theorem eventBody_framing (E : Externals) (s : Parser) (h : (s.eventBody E).1 = true) :
    (s.eventBody E).2._rb = s._rb ∧
    (s.eventBody E).2._payload_sizes = s._payload_sizes ∧
    (s.eventBody E).2._length_raw_start = s._length_raw_start ∧
    (s.eventBody E).2._bp = s._bp + (s.declaredSize + 1) ∧
    (s.eventBody E).2._length_raw = s._length_raw - (s.declaredSize + 1) ∧
    s.declaredSize + 1 ≤ s._length_raw ∧
    (s.eventBody E).2._slippi_maj = (s.dispatch E).2._slippi_maj ∧
    (s.eventBody E).2._replay = (s.dispatch E).2._replay := by
  obtain ⟨h1, _, _, h4, h5⟩ := dispatch_framing E s
  rw [eventBody_state E s h]
  exact ⟨h1, h4, h5, rfl, rfl, ((eventBody_flag E s).mp h).2, rfl, rfl⟩

/-! ## The event loop -/

/-- A pass of the loop body that went through consumed at least one raw byte. -/
theorem eventBody_decreases (E : Externals) (s : Parser) (h : (s.eventBody E).1 = true) :
    (s.eventBody E).2._length_raw < s._length_raw := by
  obtain ⟨_, _, _, _, h5, h6, _⟩ := eventBody_framing E s h
  omega

/-- The event loop gives the same result for any two numbers of passes that are at least
the number of raw bytes remaining. -/
theorem eventLoop_fuel (E : Externals) :
    ∀ (f1 f2 : Nat) (s : Parser), s._length_raw ≤ f1 → s._length_raw ≤ f2 →
      Parser.eventLoop E f1 s = Parser.eventLoop E f2 s := by
  intro f1
  induction f1 with
  | zero =>
    intro f2 s h1 _
    have h0 : ¬ s._length_raw > 0 := by omega
    cases f2 <;> simp [Parser.eventLoop, h0]
  | succ f1 ih =>
    intro f2 s h1 h2
    by_cases h0 : s._length_raw > 0
    · cases f2 with
      | zero => omega
      | succ f2 =>
        simp only [Parser.eventLoop, h0, if_true]
        by_cases hb : (s.eventBody E).1 = false
        · simp [hb]
        · simp only [hb, if_false]
          have hb' : (s.eventBody E).1 = true := by simpa using hb
          have := eventBody_decreases E s hb'
          exact ih f2 _ (by omega) (by omega)
    · cases f2 <;> simp [Parser.eventLoop, h0]

/-- With at least as many passes as raw bytes remain, the event loop returns. -/
theorem eventLoop_total (E : Externals) :
    ∀ (f : Nat) (s : Parser), s._length_raw ≤ f → ∃ r, Parser.eventLoop E f s = some r := by
  intro f
  induction f with
  | zero =>
    intro s h
    have h0 : ¬ s._length_raw > 0 := by omega
    exact ⟨(true, s), by simp [Parser.eventLoop, h0]⟩
  | succ f ih =>
    intro s h
    by_cases h0 : s._length_raw > 0
    · simp only [Parser.eventLoop, h0, if_true]
      by_cases hb : (s.eventBody E).1 = false
      · exact ⟨(false, (s.eventBody E).2), by simp [hb]⟩
      · simp only [hb, if_false]
        have hb' : (s.eventBody E).1 = true := by simpa using hb
        have := eventBody_decreases E s hb'
        exact ih _ (by omega)
    · exact ⟨(true, s), by simp [Parser.eventLoop, h0]⟩

/-- When the event loop returns `true`, no raw byte remains. -/
theorem eventLoop_zero (E : Externals) :
    ∀ (f : Nat) (s : Parser) (r : Bool × Parser), Parser.eventLoop E f s = some r →
      r.1 = true → r.2._length_raw = 0 := by
  intro f
  induction f with
  | zero =>
    intro s r h hr
    by_cases h0 : s._length_raw > 0
    · simp [Parser.eventLoop, h0] at h
    · simp only [Parser.eventLoop, h0, if_false, Option.some.injEq] at h
      subst h; simp only; omega
  | succ f ih =>
    intro s r h hr
    by_cases h0 : s._length_raw > 0
    · simp only [Parser.eventLoop, h0, if_true] at h
      by_cases hb : (s.eventBody E).1 = false
      · simp only [hb, if_true, Option.some.injEq] at h
        subst h; simp at hr
      · simp only [hb, if_false] at h
        exact ih _ r h hr
    · simp only [Parser.eventLoop, h0, if_false, Option.some.injEq] at h
      subst h; simp only; omega

/-- With raw bytes remaining, `_parseEvents` returns `false` in the state the loop body
left when the pass through the body returns `false`. -/
theorem parseEvents_fail (E : Externals) (s : Parser) (h0 : 0 < s._length_raw)
    (hb : (s.eventBody E).1 = false) :
    s._parseEvents E = some (false, (s.eventBody E).2) := by
  unfold Parser._parseEvents
  obtain ⟨f, hf⟩ : ∃ f, s._length_raw = f + 1 := ⟨s._length_raw - 1, by omega⟩
  rw [hf]
  simp [Parser.eventLoop, hf, hb]

/-- With raw bytes remaining, `_parseEvents` continues from the state after a pass through
the body that went through. -/
theorem parseEvents_step (E : Externals) (s : Parser) (h0 : 0 < s._length_raw)
    (hb : (s.eventBody E).1 = true) :
    s._parseEvents E = (s.eventBody E).2._parseEvents E := by
  unfold Parser._parseEvents
  obtain ⟨f, hf⟩ : ∃ f, s._length_raw = f + 1 := ⟨s._length_raw - 1, by omega⟩
  have hd := eventBody_decreases E s hb
  rw [hf]
  simp only [Parser.eventLoop, hf, gt_iff_lt, Nat.zero_lt_succ, if_true, hb, Bool.true_eq_false,
    if_false]
  exact eventLoop_fuel E _ _ _ (by omega) le_rfl

/-- `_parseEvents` continues from every state the loop reaches. -/
theorem parseEvents_iter (E : Externals) :
    ∀ (k : Nat) (s s' : Parser), Parser.eventIter E k s = some s' →
      s._parseEvents E = s'._parseEvents E := by
  intro k
  induction k with
  | zero => intro s s' h; simp [Parser.eventIter] at h; rw [h]
  | succ k ih =>
    intro s s' h
    unfold Parser.eventIter at h
    by_cases hc : s._length_raw > 0 ∧ (s.eventBody E).1 = true
    · simp only [hc, and_self, if_true] at h
      rw [parseEvents_step E s hc.1 hc.2]
      exact ih _ _ h
    · simp [hc] at h

/-- Along the loop the framing members stay, the sum of cursor and counter stays, the
counter does not grow, and a recorded major version stays recorded. -/
theorem eventIter_framing (E : Externals) :
    ∀ (k : Nat) (s s' : Parser), Parser.eventIter E k s = some s' →
      s'._rb = s._rb ∧ s'._payload_sizes = s._payload_sizes ∧
      s'._length_raw_start = s._length_raw_start ∧
      s'._bp + s'._length_raw = s._bp + s._length_raw ∧
      s'._length_raw ≤ s._length_raw ∧
      (0 < s._slippi_maj → 0 < s'._slippi_maj) := by
  intro k
  induction k with
  | zero =>
    intro s s' h
    simp [Parser.eventIter] at h
    subst h
    exact ⟨rfl, rfl, rfl, rfl, le_rfl, id⟩
  | succ k ih =>
    intro s s' h
    unfold Parser.eventIter at h
    by_cases hc : s._length_raw > 0 ∧ (s.eventBody E).1 = true
    · simp only [hc, and_self, if_true] at h
      obtain ⟨a1, a2, a3, a4, a5, a6⟩ := ih _ _ h
      obtain ⟨b1, b2, b3, b4, b5, b6, b7, _⟩ := eventBody_framing E s hc.2
      refine ⟨a1.trans b1, a2.trans b2, a3.trans b3, by omega, by omega, ?_⟩
      intro hm
      apply a6
      rw [b7]
      exact dispatch_maj_pos E s hm
    · simp [hc] at h

/-- What a successful `_parseHeader` leaves in the cursor and the counters. -/
theorem parseHeader_cursor (E : Externals) (s : Parser) (h : (s._parseHeader E).1 = true) :
    (s._parseHeader E).2._bp = 15 ∧
    (s._parseHeader E).2._length_raw = readBE4U s._rb 11 ∧
    (s._parseHeader E).2._length_raw_start = readBE4U s._rb 11 := by
  unfold Parser._parseHeader at h ⊢
  simp only [Nat.zero_add] at h ⊢
  split_ifs at h ⊢
  exact ⟨rfl, rfl, rfl⟩

/-- What a successful `_parseEventDescriptions` does to the cursor and the counter. -/
theorem parseEventDescriptions_cursor (s : Parser) (h : (s._parseEventDescriptions).1 = true) :
    (s._parseEventDescriptions).2._bp = s._bp + 2 + s.ev_bytes ∧
    (s._parseEventDescriptions).2._length_raw
      = (s._length_raw + 4294967296 - (2 + s.ev_bytes)) % 4294967296 ∧
    (s._parseEventDescriptions).2._length_raw_start = s._length_raw_start ∧
    (s._parseEventDescriptions).2._rb = s._rb := by
  unfold Parser._parseEventDescriptions at h ⊢
  by_cases hb : byteAt s._rb s._bp ≠ EV_PAYLOADS
  · simp [hb] at h
  · simp only [hb, if_false] at h ⊢
    split_ifs at h ⊢
    exact ⟨rfl, rfl, rfl, rfl⟩

/-- C5. `_parseEvents` returns on every input; whenever it returns success the remaining-raw
counter is exactly 0, and in every state the loop reaches the counter is at most what it
was (no pass wraps it). -/
theorem parseEvents_success_zero (E : Externals) (s : Parser) :
    (∃ r, s._parseEvents E = some r) ∧
    (∀ r, s._parseEvents E = some r → r.1 = true → r.2._length_raw = 0) ∧
    (∀ k s', Parser.eventIter E k s = some s' → s'._length_raw ≤ s._length_raw) :=
  ⟨eventLoop_total E _ s le_rfl, fun r h hr => eventLoop_zero E _ s r h hr,
    fun k s' h => (eventIter_framing E k s s' h).2.2.2.2.1⟩

/-- Witness for C5: a stream of one `GAME_START` event decodes with no raw byte left. -/
theorem parseEvents_success_zero_witness :
    ((decodedTable startOnlyFile)._parseEvents Externals.sample).map Prod.fst = some true ∧
    ∀ r, (decodedTable startOnlyFile)._parseEvents Externals.sample = some r →
      r.2._length_raw = 0 := by
  have hflag : ((decodedTable startOnlyFile)._parseEvents Externals.sample).map Prod.fst
      = some true := by decide
  refine ⟨hflag, fun r hr => ?_⟩
  refine (parseEvents_success_zero Externals.sample (decodedTable startOnlyFile)).2.1 r hr ?_
  rw [hr] at hflag
  simpa using hflag

/-- C6. A pass of the event loop that goes through advances the cursor by
`payload_size[code] + 1` (the entry the loop reads, `_payload_sizes[(unsigned)_rb[_bp]]`) and
decreases the remaining-raw counter by the same amount, so their sum stays; after a header
and a table decoded without wrapping the counter, the sum is `15 + _length_raw_start` in
every state the loop reaches. -/
theorem cursor_counter_invariant (E : Externals) :
    (∀ s : Parser, (s.eventBody E).1 = true →
      (s.eventBody E).2._bp = s._bp + (s._payload_sizes (charToUnsigned (byteAt s._rb s._bp)) + 1) ∧
      (s.eventBody E).2._length_raw + (s._payload_sizes (charToUnsigned (byteAt s._rb s._bp)) + 1)
        = s._length_raw ∧
      (s.eventBody E).2._bp + (s.eventBody E).2._length_raw = s._bp + s._length_raw) ∧
    (∀ (s0 : Parser) (k : Nat) (s' : Parser),
      (s0._parseHeader E).1 = true →
      ((s0._parseHeader E).2._parseEventDescriptions).1 = true →
      2 + (s0._parseHeader E).2.ev_bytes ≤ (s0._parseHeader E).2._length_raw →
      Parser.eventIter E k ((s0._parseHeader E).2._parseEventDescriptions).2 = some s' →
      s'._bp + s'._length_raw = 15 + s'._length_raw_start) := by
  constructor
  · intro s h
    obtain ⟨_, _, _, h4, h5, h6, _⟩ := eventBody_framing E s h
    unfold Parser.declaredSize at h4 h5 h6
    omega
  · intro s0 k s' hh ht hw hk
    obtain ⟨_, _, a3, a4, _, _⟩ := eventIter_framing E k _ s' hk
    rw [a4, a3]
    obtain ⟨b2, b3, b4⟩ := parseHeader_cursor E s0 hh
    have h32 : readBE4U s0._rb 11 < 4294967296 := by
      unfold readBE4U byteAt
      omega
    have hev : (s0._parseHeader E).2.ev_bytes < 256 := by
      unfold Parser.ev_bytes; omega
    generalize (s0._parseHeader E).2 = s1 at ht hw b2 b3 b4 hev ⊢
    obtain ⟨c1, c2, c3, _⟩ := parseEventDescriptions_cursor s1 ht
    rw [c1, c2, c3, b2, b3, b4]
    rw [b3] at hw
    have : readBE4U s0._rb 11 + 4294967296 - (2 + s1.ev_bytes)
        = (readBE4U s0._rb 11 - (2 + s1.ev_bytes)) + 4294967296 := by omega
    rw [this, Nat.add_mod_right, Nat.mod_eq_of_lt (by omega)]
    omega

/-- Witness for C6: after the `0x3A` event of the sample stream the cursor and the counter
sum to `15 + 23`. -/
theorem cursor_counter_invariant_witness :
    2 + (decodedHeader unknownEventFile).ev_bytes ≤ (decodedHeader unknownEventFile)._length_raw ∧
    ∃ s', Parser.eventIter Externals.sample 1 (decodedTable unknownEventFile) = some s' ∧
      s'._bp + s'._length_raw = 15 + 23 :=
  ⟨by decide, ((decodedTable unknownEventFile).eventBody Externals.sample).2, rfl,
    (cursor_counter_invariant Externals.sample).2 (Parser.fresh (bufOf unknownEventFile)) 1 _
      (by decide) (by decide) (by decide) rfl⟩

/-- C7. When the loop examines an event (raw bytes remain) whose declared size `S` (the
entry the loop reads, `_payload_sizes[(unsigned)_rb[_bp]]`) has `S + 1 > _length_raw`,
`_parseEvents` returns failure, whatever the event code; this holds for the first event and
for every event the loop reaches. -/
theorem truncated_event_fails (E : Externals) (s0 : Parser) (k : Nat) (s : Parser)
    (hreach : Parser.eventIter E k s0 = some s) (hpos : 0 < s._length_raw)
    (htr : s._payload_sizes (charToUnsigned (byteAt s._rb s._bp)) + 1 > s._length_raw) :
    (s0._parseEvents E).map Prod.fst = some false := by
  rw [parseEvents_iter E k s0 s hreach]
  have hb : (s.eventBody E).1 = false := by
    rw [Bool.eq_false_iff]
    intro h
    have := ((eventBody_flag E s).mp h).2
    unfold Parser.declaredSize at this
    omega
  rw [parseEvents_fail E s hpos hb]
  rfl

/-- Witness for C7: a `GAME_END` of declared size 2 with 2 raw bytes remaining. -/
theorem truncated_event_fails_witness :
    (decodedTable truncatedFile)._payload_sizes
        (charToUnsigned (byteAt (decodedTable truncatedFile)._rb (decodedTable truncatedFile)._bp)) + 1
      > (decodedTable truncatedFile)._length_raw ∧
    ((decodedTable truncatedFile)._parseEvents Externals.sample).map Prod.fst = some false :=
  ⟨by decide,
    truncated_event_fails Externals.sample (decodedTable truncatedFile) 0
      (decodedTable truncatedFile) rfl (by decide) (by decide)⟩

/-- An event whose code is below `0x80` and none of `0x36..0x39`, of declared size `S` with
`S + 1 <= _length_raw`: the pass of the loop goes through, changes nothing but the cursor and
the counter (so the replay model is as before), moves both by `S + 1`, and `_parseEvents`
continues with the event after it. -/
theorem low_unknown_event_skipped (E : Externals) (s : Parser)
    (h1 : byteAt s._rb s._bp ≠ GAME_START) (h2 : byteAt s._rb s._bp ≠ PRE_FRAME)
    (h3 : byteAt s._rb s._bp ≠ POST_FRAME) (h4 : byteAt s._rb s._bp ≠ GAME_END)
    (hlow : byteAt s._rb s._bp < 128)
    (hfit : s._payload_sizes (byteAt s._rb s._bp) + 1 ≤ s._length_raw) :
    s.eventBody E =
      (true, { s with
        _length_raw := s._length_raw - (s._payload_sizes (byteAt s._rb s._bp) + 1)
        _bp := s._bp + (s._payload_sizes (byteAt s._rb s._bp) + 1) }) ∧
    (s.eventBody E).2._replay = s._replay ∧
    s._parseEvents E =
      Parser._parseEvents E { s with
        _length_raw := s._length_raw - (s._payload_sizes (byteAt s._rb s._bp) + 1)
        _bp := s._bp + (s._payload_sizes (byteAt s._rb s._bp) + 1) } := by
  have hd := dispatch_unknown E s h1 h2 h3 h4
  have hsz : s.declaredSize = s._payload_sizes (byteAt s._rb s._bp) := by
    unfold Parser.declaredSize
    rw [charToUnsigned_of_lt _ hlow]
  have hok : (s.eventBody E).1 = true :=
    (eventBody_flag E s).mpr ⟨by rw [hd], by rw [hsz]; exact hfit⟩
  have hst := eventBody_state E s hok
  rw [hd, hsz] at hst
  refine ⟨Prod.ext hok hst, by rw [hst], ?_⟩
  rw [parseEvents_step E s (by omega) hok, hst]

/-- C8. Where the event loop departs from the claim: for an event whose code byte is `0x80`
or more (so none of `0x36..0x39`) the switch calls no handler, and the size the loop then
reads is not the table entry of the code: `(unsigned)_rb[_bp]` is the code plus `2^32 - 256`,
an index of `4294967168` or more, outside a table that has an entry per code. -/
theorem high_code_reads_outside_table (E : Externals) (s : Parser)
    (hhigh : 128 ≤ byteAt s._rb s._bp) :
    s.dispatch E = (true, s) ∧
    charToUnsigned (byteAt s._rb s._bp) = byteAt s._rb s._bp + 4294967040 ∧
    4294967168 ≤ charToUnsigned (byteAt s._rb s._bp) ∧
    s.declaredSize = s._payload_sizes (byteAt s._rb s._bp + 4294967040) := by
  have hidx : charToUnsigned (byteAt s._rb s._bp) = byteAt s._rb s._bp + 4294967040 := by
    unfold charToUnsigned
    split_ifs <;> omega
  have hsz : s.declaredSize = s._payload_sizes (byteAt s._rb s._bp + 4294967040) := by
    unfold Parser.declaredSize
    rw [hidx]
  refine ⟨?_, hidx, by omega, hsz⟩
  apply dispatch_unknown E s <;>
    (simp only [GAME_START, PRE_FRAME, POST_FRAME, GAME_END]; omega)

/-- Witness for C8: an event of code `0x80`, which the manifest does not declare (size 0),
with 4 raw bytes remaining: the size is read at index `4294967168`. -/
theorem high_code_reads_outside_table_witness :
    byteAt (decodedTable highCodeFile)._rb (decodedTable highCodeFile)._bp = 0x80 ∧
    (decodedTable highCodeFile)._payload_sizes 0x80 + 1
      ≤ (decodedTable highCodeFile)._length_raw ∧
    charToUnsigned (byteAt (decodedTable highCodeFile)._rb (decodedTable highCodeFile)._bp)
      = 4294967168 ∧
    (decodedTable highCodeFile).declaredSize
      = (decodedTable highCodeFile)._payload_sizes 4294967168 :=
  have h := high_code_reads_outside_table Externals.sample (decodedTable highCodeFile)
    (by decide)
  ⟨by decide, by decide, h.2.1.trans (by decide), h.2.2.2.trans (by decide)⟩

/-- C9. `_parseGameStart` fails if and only if a major version is already recorded or the
major-version byte of the event (offset 1) is 0; and once the loop has accepted a
`GAME_START`, `_parseGameStart` fails in every state the loop reaches afterwards. -/
theorem parseGameStart_fails_iff (E : Externals) (s : Parser) :
    ((s._parseGameStart E).1 = false ↔
      (0 < s._slippi_maj ∨ byteAt s._rb (s._bp + 0x1) = 0)) ∧
    (∀ k s', byteAt s._rb s._bp = GAME_START → Parser.eventIter E (k + 1) s = some s' →
      (s'._parseGameStart E).1 = false) := by
  refine ⟨parseGameStart_flag E s, ?_⟩
  intro k s' hc hk
  unfold Parser.eventIter at hk
  by_cases hcond : s._length_raw > 0 ∧ (s.eventBody E).1 = true
  · simp only [hcond, and_self, if_true] at hk
    have hd := ((eventBody_flag E s).mp hcond.2).1
    have hm := (dispatch_gameStart_ok E s hc hd).2
    rw [← (eventBody_framing E s hcond.2).2.2.2.2.2.2.1] at hm
    have hm' := (eventIter_framing E k _ s' hk).2.2.2.2.2 hm
    exact (parseGameStart_flag E s').mpr (Or.inl hm')
  · simp [hcond] at hk

/-- Witness for C9: after the first `GAME_START` of a stream of two is accepted, the
handler fails at the second. -/
theorem parseGameStart_fails_iff_witness :
    ∃ s', Parser.eventIter Externals.sample 1 (decodedTable twoStartsFile) = some s' ∧
      byteAt s'._rb s'._bp = GAME_START ∧ (s'._parseGameStart Externals.sample).1 = false :=
  ⟨((decodedTable twoStartsFile).eventBody Externals.sample).2, rfl, by decide,
    (parseGameStart_fails_iff Externals.sample (decodedTable twoStartsFile)).2 0 _ (by decide)
      rfl⟩

/-! ## `GAME_START` events in a decoded stream -/

/-- The flag `_parseEvents` returns is `true` only if, with raw bytes remaining, the pass
through the loop body goes through. -/
theorem parseEvents_ok_body (E : Externals) (s : Parser) (h0 : 0 < s._length_raw)
    (hok : (s._parseEvents E).map Prod.fst = some true) : (s.eventBody E).1 = true := by
  by_contra hb
  have hb' : (s.eventBody E).1 = false := by simpa using hb
  rw [parseEvents_fail E s h0 hb'] at hok
  simp at hok

/-- A stream that decodes successfully from a state with a recorded major version has no
`GAME_START` event. -/
theorem streamCodes_no_start (E : Externals) :
    ∀ (fuel : Nat) (s : Parser), 0 < s._slippi_maj →
      (s._parseEvents E).map Prod.fst = some true →
      (streamCodes s._payload_sizes s._rb fuel s._bp s._length_raw).count GAME_START = 0 := by
  intro fuel
  induction fuel with
  | zero => intro s _ _; simp [streamCodes]
  | succ fuel ih =>
    intro s hm hok
    unfold streamCodes
    by_cases hc : 0 < s._length_raw ∧ s._payload_sizes (charToUnsigned (byteAt s._rb s._bp)) + 1 ≤ s._length_raw
    · simp only [hc, and_self, if_true]
      have hb := parseEvents_ok_body E s hc.1 hok
      obtain ⟨b1, b2, _, b4, b5, _, b7, _⟩ := eventBody_framing E s hb
      have hne : byteAt s._rb s._bp ≠ GAME_START := by
        intro hg
        have := (dispatch_gameStart_ok E s hg ((eventBody_flag E s).mp hb).1).1
        omega
      have hrec := ih (s.eventBody E).2 (by rw [b7]; exact dispatch_maj_pos E s hm)
        (by rw [← parseEvents_step E s hc.1 hb]; exact hok)
      rw [b1, b2, b4, b5] at hrec
      unfold Parser.declaredSize at hrec
      rw [List.count_cons, hrec]
      simp [hne]
    · simp [hc]

/-- A stream that decodes successfully has at most one `GAME_START` event. -/
theorem streamCodes_start_le_one (E : Externals) :
    ∀ (fuel : Nat) (s : Parser), (s._parseEvents E).map Prod.fst = some true →
      (streamCodes s._payload_sizes s._rb fuel s._bp s._length_raw).count GAME_START ≤ 1 := by
  intro fuel
  induction fuel with
  | zero => intro s _; simp [streamCodes]
  | succ fuel ih =>
    intro s hok
    unfold streamCodes
    by_cases hc : 0 < s._length_raw ∧ s._payload_sizes (charToUnsigned (byteAt s._rb s._bp)) + 1 ≤ s._length_raw
    · simp only [hc, and_self, if_true]
      have hb := parseEvents_ok_body E s hc.1 hok
      obtain ⟨b1, b2, _, b4, b5, _, b7, _⟩ := eventBody_framing E s hb
      have hnext : ((s.eventBody E).2._parseEvents E).map Prod.fst = some true := by
        rw [← parseEvents_step E s hc.1 hb]; exact hok
      by_cases hg : byteAt s._rb s._bp = GAME_START
      · have hm := (dispatch_gameStart_ok E s hg ((eventBody_flag E s).mp hb).1).2
        have hrec := streamCodes_no_start E fuel (s.eventBody E).2 (by rw [b7]; exact hm) hnext
        rw [b1, b2, b4, b5] at hrec
        unfold Parser.declaredSize at hrec
        rw [List.count_cons, hrec]
        split <;> omega
      · have hrec := ih (s.eventBody E).2 hnext
        rw [b1, b2, b4, b5] at hrec
        unfold Parser.declaredSize at hrec
        rw [List.count_cons]
        simp only [beq_iff_eq, hg, if_false]
        exact hrec
    · simp [hc]

/-- A `GAME_END` event is accepted by its handler. -/
theorem dispatch_gameEnd_flag (E : Externals) (s : Parser)
    (hc : byteAt s._rb s._bp = GAME_END) : (s.dispatch E).1 = true := by
  unfold Parser.dispatch
  simp only [hc, GAME_END, GAME_START, PRE_FRAME, POST_FRAME]
  exact (parseGameEnd_maj s).1

/-- A `GAME_START` event with a nonzero major-version byte is accepted when no major version
is recorded. -/
theorem dispatch_gameStart_flag (E : Externals) (s : Parser)
    (hc : byteAt s._rb s._bp = GAME_START) (h0 : s._slippi_maj = 0)
    (hv : byteAt s._rb (s._bp + 0x1) ≠ 0) : (s.dispatch E).1 = true := by
  unfold Parser.dispatch
  simp only [hc, if_true]
  by_contra hf
  have hf' : (s._parseGameStart E).1 = false := by simpa using hf
  rcases (parseGameStart_flag E s).mp hf' with h | h
  · omega
  · exact hv h

/-- A stream that is exactly one event its handler accepts decodes successfully. -/
theorem parseEvents_single (E : Externals) (s : Parser) (h0 : 0 < s._length_raw)
    (hd : (s.dispatch E).1 = true) (hfit : s.declaredSize + 1 = s._length_raw) :
    (s._parseEvents E).map Prod.fst = some true := by
  have hb : (s.eventBody E).1 = true := (eventBody_flag E s).mpr ⟨hd, by omega⟩
  rw [parseEvents_step E s h0 hb]
  have hz : (s.eventBody E).2._length_raw = 0 := by
    rw [(eventBody_framing E s hb).2.2.2.2.1]; omega
  unfold Parser._parseEvents
  rw [hz]
  simp [Parser.eventLoop, hz]

/-- C10 (as the code has it). An event stream on which `_parseEvents` returns success
contains at most one `GAME_START` event; there are such streams with one `GAME_START` and
no `GAME_END`, and such streams with no `GAME_START`. -/
theorem at_most_one_game_start (E : Externals) :
    (∀ s : Parser, (s._parseEvents E).map Prod.fst = some true →
      s.eventCodes.count GAME_START ≤ 1) ∧
    (∃ s : Parser, (s._parseEvents E).map Prod.fst = some true ∧
      s.eventCodes.count GAME_START = 1 ∧ s.eventCodes.count GAME_END = 0) ∧
    (∃ s : Parser, (s._parseEvents E).map Prod.fst = some true ∧
      s.eventCodes.count GAME_START = 0) :=
  ⟨fun s hok => streamCodes_start_le_one E _ s hok,
    ⟨decodedTable startOnlyFile,
      parseEvents_single E _ (by decide)
        (dispatch_gameStart_flag E _ (by decide) (by decide) (by decide)) (by decide),
      by decide, by decide⟩,
    ⟨decodedTable endOnlyFile,
      parseEvents_single E _ (by decide) (dispatch_gameEnd_flag E _ (by decide)) (by decide),
      by decide⟩⟩

/-- Witness for C10: a stream of one `GAME_START` and no `GAME_END` decodes successfully. -/
theorem at_most_one_game_start_witness :
    ((decodedTable startOnlyFile)._parseEvents Externals.sample).map Prod.fst = some true ∧
    (decodedTable startOnlyFile).eventCodes = [GAME_START] ∧
    (decodedTable startOnlyFile).eventCodes.count GAME_START ≤ 1 :=
  ⟨by decide, by decide,
    (at_most_one_game_start Externals.sample).1 (decodedTable startOnlyFile) (by decide)⟩

/-- Counterexample to C10 as stated: a file whose header and table decode, whose event
stream is one `GAME_END` event and no `GAME_START`, and on which `_parseEvents` returns
success. -/
theorem stream_without_game_start_accepted :
    (Parser._parseHeader Externals.sample (Parser.fresh (bufOf endOnlyFile))).1 = true ∧
    ((decodedHeader endOnlyFile)._parseEventDescriptions).1 = true ∧
    ((decodedTable endOnlyFile)._parseEvents Externals.sample).map Prod.fst = some true ∧
    (decodedTable endOnlyFile).eventCodes = [GAME_END] ∧
    (decodedTable endOnlyFile).eventCodes.count GAME_START = 0 := by
  decide

/-! ## Frame slots -/

/-- The frame `modifyFrame` addresses is replaced by `g` applied to it. -/
theorem modifyFrame_same (r : SlippiReplay) (p : Nat) (f : Int) (g : SlippiFrame → SlippiFrame) :
    ((r.modifyFrame p f g).player p).frame f = g ((r.player p).frame f) := by
  simp [SlippiReplay.modifyFrame, SlippiReplay.modifyPlayer]

/-- The other player slots are left as they are by `modifyFrame`. -/
theorem modifyFrame_other_slot (r : SlippiReplay) (p q : Nat) (f : Int)
    (g : SlippiFrame → SlippiFrame) (h : q ≠ p) :
    (r.modifyFrame p f g).player q = r.player q := by
  simp [SlippiReplay.modifyFrame, SlippiReplay.modifyPlayer, h]

/-- The other frames of the addressed slot are left as they are by `modifyFrame`. -/
theorem modifyFrame_other_frame (r : SlippiReplay) (p : Nat) (f f' : Int)
    (g : SlippiFrame → SlippiFrame) (h : f' ≠ f) :
    ((r.modifyFrame p f g).player p).frame f' = (r.player p).frame f' := by
  simp [SlippiReplay.modifyFrame, SlippiReplay.modifyPlayer, h]

/-- The members of a replay other than the player slots are left as they are by
`modifyFrame`. -/
theorem modifyFrame_fields (r : SlippiReplay) (p : Nat) (f : Int) (g : SlippiFrame → SlippiFrame) :
    r.modifyFrame p f g = { r with player := (r.modifyFrame p f g).player } := rfl
/-! ## Version gates -/

/-- The player loop of `_parseGameStart` writes `tag_css` of port `p < 4` exactly when the
gate `major >= 2 or minor >= 3` holds. -/
theorem gameStartPlayers_tag_css (s : Parser) (r : SlippiReplay) (p : Nat) (hp : p < 4) :
    (((List.range 4).foldl (gameStartPlayer s) r).player p).tag_css =
      if s._slippi_maj ≥ 2 ∨ s._slippi_min ≥ 3 then cssTag s._rb (s._bp + (0x161 + 0x10 * p))
      else (r.player p).tag_css := by
  have h4 : List.range 4 = [0, 1, 2, 3] := by decide
  rw [h4]
  simp only [List.foldl, gameStartPlayer, SlippiReplay.modifyPlayer]
  by_cases hg : s._slippi_maj ≥ 2 ∨ s._slippi_min ≥ 3
  · simp only [hg, if_true]
    interval_cases p <;> simp
  · simp only [hg, if_false]
    interval_cases p <;> simp

/-- The player loop of `_parseGameStart` changes nothing of a replay but its player slots. -/
theorem gameStartPlayers_only_players (s : Parser) :
    ∀ (ps : List Nat) (r : SlippiReplay),
      ∃ pl, ps.foldl (gameStartPlayer s) r = { r with player := pl } := by
  intro ps
  induction ps with
  | nil => intro r; exact ⟨r.player, rfl⟩
  | cons p rest ih =>
    intro r
    obtain ⟨pl, hpl⟩ := ih (gameStartPlayer s r p)
    refine ⟨pl, ?_⟩
    rw [List.foldl_cons, hpl]
    unfold gameStartPlayer SlippiReplay.modifyPlayer
    simp only []
    split_ifs <;> rfl

/-- The player loop of `_parseGameStart` leaves `pal` as it is. -/
theorem gameStartPlayers_pal (s : Parser) (ps : List Nat) (r : SlippiReplay) :
    (ps.foldl (gameStartPlayer s) r).pal = r.pal := by
  obtain ⟨pl, hpl⟩ := gameStartPlayers_only_players s ps r
  rw [hpl]

/-- The player loop of `_parseGameStart` leaves `frozen` as it is. -/
theorem gameStartPlayers_frozen (s : Parser) (ps : List Nat) (r : SlippiReplay) :
    (ps.foldl (gameStartPlayer s) r).frozen = r.frozen := by
  obtain ⟨pl, hpl⟩ := gameStartPlayers_only_players s ps r
  rw [hpl]

/-- The replay an accepted `_parseGameStart` hands to `setFrames`: its gated members are
written from the event when their gate holds on the version just recorded, and are those of
the replay before the event otherwise. -/
theorem parseGameStart_replay (E : Externals) (s : Parser) (hok : (s._parseGameStart E).1 = true) :
    ∃ (n : Int) (R : SlippiReplay), (s._parseGameStart E).2._replay = E.setFrames n R ∧
      (s._parseGameStart E).2._slippi_maj = byteAt s._rb (s._bp + 0x1) ∧
      (s._parseGameStart E).2._slippi_min = byteAt s._rb (s._bp + 0x2) ∧
      R.pal = (if byteAt s._rb (s._bp + 0x1) ≥ 2 ∨ byteAt s._rb (s._bp + 0x2) ≥ 5
        then decide (byteAt s._rb (s._bp + 0x1A1) ≠ 0) else s._replay.pal) ∧
      R.frozen = (if byteAt s._rb (s._bp + 0x1) ≥ 2
        then decide (byteAt s._rb (s._bp + 0x1A2) ≠ 0) else s._replay.frozen) ∧
      (∀ p, p < 4 → (R.player p).tag_css =
        if byteAt s._rb (s._bp + 0x1) ≥ 2 ∨ byteAt s._rb (s._bp + 0x2) ≥ 3
        then cssTag s._rb (s._bp + (0x161 + 0x10 * p)) else (s._replay.player p).tag_css) := by
  have hf := parseGameStart_flag E s
  have h1 : ¬ s._slippi_maj > 0 := by
    intro h; rw [hf.mpr (Or.inl h)] at hok; exact Bool.false_ne_true hok
  have h2 : ¬ byteAt s._rb (s._bp + 0x1) = 0 := by
    intro h; rw [hf.mpr (Or.inr h)] at hok; exact Bool.false_ne_true hok
  unfold Parser._parseGameStart
  simp only [h1, h2, if_false]
  refine ⟨_, _, rfl, ?_, ?_, ?_, ?_, ?_⟩
  · split_ifs <;> rfl
  · split_ifs <;> rfl
  · split_ifs <;> first | rfl | simp only [gameStartPlayers_pal]
  · split_ifs <;> first | rfl | simp only [gameStartPlayers_frozen]
  · intro p hp
    split_ifs <;> first | rfl | (simp only [gameStartPlayers_tag_css _ _ p hp]; simp_all)
/-- C11. Version gating: each gated member is written from the event exactly when its gate
holds on the recorded version, and otherwise keeps the value it had before the event:
`tag_css` of ports 0..3 (major >= 2 or minor >= 3), `pal` (major >= 2 or minor >= 5) and
`frozen` (major >= 2) in an accepted `GAME_START`, given that `setFrames` leaves these three
members alone; `ucf_x` (minor >= 2) and `percent_pre` (minor >= 4) in `PRE_FRAME`; `flags_1`
to `flags_5`, `hitstun`, `airborne`, `ground_id`, `jumps`, `l_cancel` (major >= 2) in
`POST_FRAME`; `lras` (major >= 2) in `GAME_END`. -/
theorem version_gates (E : Externals) (s : Parser)
    (hE : ∀ n r, (E.setFrames n r).pal = r.pal ∧ (E.setFrames n r).frozen = r.frozen ∧
      ∀ p, ((E.setFrames n r).player p).tag_css = (r.player p).tag_css) :
    ((s._parseGameStart E).1 = true →
      (∀ p, p < 4 → ((s._parseGameStart E).2._replay.player p).tag_css =
        if (s._parseGameStart E).2._slippi_maj ≥ 2 ∨ (s._parseGameStart E).2._slippi_min ≥ 3
        then cssTag s._rb (s._bp + (0x161 + 0x10 * p)) else (s._replay.player p).tag_css) ∧
      (s._parseGameStart E).2._replay.pal =
        (if (s._parseGameStart E).2._slippi_maj ≥ 2 ∨ (s._parseGameStart E).2._slippi_min ≥ 5
        then decide (byteAt s._rb (s._bp + 0x1A1) ≠ 0) else s._replay.pal) ∧
      (s._parseGameStart E).2._replay.frozen =
        (if (s._parseGameStart E).2._slippi_maj ≥ 2
        then decide (byteAt s._rb (s._bp + 0x1A2) ≠ 0) else s._replay.frozen)) ∧
    ((((s._parsePreFrame).2._replay.player s.frameSlot).frame s.frameIndex).ucf_x =
        (if s._slippi_min ≥ 2 then byteAt s._rb (s._bp + 0x3B)
        else ((s._replay.player s.frameSlot).frame s.frameIndex).ucf_x) ∧
      (((s._parsePreFrame).2._replay.player s.frameSlot).frame s.frameIndex).percent_pre =
        (if s._slippi_min ≥ 4 then readBE4F s._rb (s._bp + 0x3C)
        else ((s._replay.player s.frameSlot).frame s.frameIndex).percent_pre)) ∧
    (∀ fr' fr : SlippiFrame,
      fr' = ((s._parsePostFrame).2._replay.player s.frameSlot).frame s.frameIndex →
      fr = (s._replay.player s.frameSlot).frame s.frameIndex →
      fr'.flags_1 = (if s._slippi_maj ≥ 2 then byteAt s._rb (s._bp + 0x26) else fr.flags_1) ∧
      fr'.flags_2 = (if s._slippi_maj ≥ 2 then byteAt s._rb (s._bp + 0x27) else fr.flags_2) ∧
      fr'.flags_3 = (if s._slippi_maj ≥ 2 then byteAt s._rb (s._bp + 0x28) else fr.flags_3) ∧
      fr'.flags_4 = (if s._slippi_maj ≥ 2 then byteAt s._rb (s._bp + 0x29) else fr.flags_4) ∧
      fr'.flags_5 = (if s._slippi_maj ≥ 2 then byteAt s._rb (s._bp + 0x2A) else fr.flags_5) ∧
      fr'.hitstun = (if s._slippi_maj ≥ 2 then readBE4U s._rb (s._bp + 0x2B) else fr.hitstun) ∧
      fr'.airborne =
        (if s._slippi_maj ≥ 2 then decide (byteAt s._rb (s._bp + 0x2F) ≠ 0) else fr.airborne) ∧
      fr'.ground_id =
        (if s._slippi_maj ≥ 2 then readBE2U s._rb (s._bp + 0x30) else fr.ground_id) ∧
      fr'.jumps = (if s._slippi_maj ≥ 2 then byteAt s._rb (s._bp + 0x32) else fr.jumps) ∧
      fr'.l_cancel = (if s._slippi_maj ≥ 2 then byteAt s._rb (s._bp + 0x33) else fr.l_cancel)) ∧
    ((s._parseGameEnd).2._replay.lras =
      if s._slippi_maj ≥ 2 then toInt8 (byteAt s._rb (s._bp + 0x2)) else s._replay.lras) := by
  refine ⟨?_, ?_, ?_, ?_⟩
  · intro hok
    obtain ⟨n, R, hR, hmaj, hmin, hpal, hfro, htag⟩ := parseGameStart_replay E s hok
    obtain ⟨e1, e2, e3⟩ := hE n R
    rw [hR, hmaj, hmin, e1, e2]
    refine ⟨fun p hp => ?_, hpal, hfro⟩
    rw [e3 p, htag p hp]
  · unfold Parser._parsePreFrame Parser.frameIndex
    simp only []
    constructor
    · split_ifs <;> simp only [modifyFrame_same]
    · split_ifs <;> first | omega | simp only [modifyFrame_same]
  · intro fr' fr h1 h2
    subst h1 h2
    unfold Parser._parsePostFrame Parser.frameIndex
    simp only []
    split_ifs <;> simp only [modifyFrame_same, and_self]
  · unfold Parser._parseGameEnd
    simp only []
    split_ifs <;> rfl
set_option maxRecDepth 100000 in
/-- Witness for C11: in the sample file of version 2.5.0 every gate holds: the `GAME_START`
writes `tag_css`, `pal` and `frozen`, the `PRE_FRAME` writes `ucf_x` and `percent_pre`, the
`POST_FRAME` writes its flags, and the `GAME_END` writes `lras`. -/
theorem version_gates_witness :
    (∀ n r, (Externals.sample.setFrames n r).pal = r.pal ∧
      (Externals.sample.setFrames n r).frozen = r.frozen ∧
      ∀ p, ((Externals.sample.setFrames n r).player p).tag_css = (r.player p).tag_css) ∧
    ((decodedEvents gatedFile 0)._parseGameStart Externals.sample).1 = true ∧
    (((decodedEvents gatedFile 0)._parseGameStart Externals.sample).2._replay.player 0).tag_css
      = [0x41, 1, 1, 1, 1, 1, 1, 1] ∧
    ((decodedEvents gatedFile 0)._parseGameStart Externals.sample).2._replay.pal = true ∧
    ((decodedEvents gatedFile 0)._parseGameStart Externals.sample).2._replay.frozen = true ∧
    ((((decodedEvents gatedFile 1)._parsePreFrame).2._replay.player
      (decodedEvents gatedFile 1).frameSlot).frame (decodedEvents gatedFile 1).frameIndex).ucf_x
      = 7 ∧
    ((((decodedEvents gatedFile 1)._parsePreFrame).2._replay.player
      (decodedEvents gatedFile 1).frameSlot).frame
        (decodedEvents gatedFile 1).frameIndex).percent_pre = 0x42000000 ∧
    ((((decodedEvents gatedFile 2)._parsePostFrame).2._replay.player
      (decodedEvents gatedFile 2).frameSlot).frame (decodedEvents gatedFile 2).frameIndex).flags_4
      = 4 ∧
    ((decodedEvents gatedFile 3)._parseGameEnd).2._replay.lras = -1 :=
  have hE : ∀ n r, (Externals.sample.setFrames n r).pal = r.pal ∧
      (Externals.sample.setFrames n r).frozen = r.frozen ∧
      ∀ p, ((Externals.sample.setFrames n r).player p).tag_css = (r.player p).tag_css :=
    fun _ _ => ⟨rfl, rfl, fun _ => rfl⟩
  have hok : ((decodedEvents gatedFile 0)._parseGameStart Externals.sample).1 = true := by
    decide
  have g0 := (version_gates Externals.sample (decodedEvents gatedFile 0) hE).1 hok
  have g1 := (version_gates Externals.sample (decodedEvents gatedFile 1) hE).2.1
  have g2 := (version_gates Externals.sample (decodedEvents gatedFile 2) hE).2.2.1 _ _ rfl rfl
  have g3 := (version_gates Externals.sample (decodedEvents gatedFile 3) hE).2.2.2
  ⟨hE, hok, (g0.1 0 (by decide)).trans (by decide), g0.2.1.trans (by decide),
    g0.2.2.trans (by decide), g1.1.trans (by decide), g1.2.trans (by decide),
    g2.2.2.2.1.trans (by decide), g3.trans (by decide)⟩

/-! ## The frame counters -/

/-- The handler lemma: `_parsePreFrame` sets `last_frame` to the frame number of the event
and `frame_count` to that number minus `LOAD_FRAME` plus one, both sums taken in 32 bits. -/
theorem parsePreFrame_counts (s : Parser) :
    (s._parsePreFrame).2._replay.last_frame = readBE4S s._rb (s._bp + 0x1) ∧
    (s._parsePreFrame).2._replay.frame_count
      = toInt32 (toInt32 (readBE4S s._rb (s._bp + 0x1) - LOAD_FRAME) + 1) := by
  unfold Parser._parsePreFrame
  simp only []
  split_ifs <;> exact ⟨rfl, rfl⟩

/-- The handler lemma: `_parsePostFrame` leaves the two frame counters as they are. -/
theorem parsePostFrame_counts (s : Parser) :
    (s._parsePostFrame).2._replay.last_frame = s._replay.last_frame ∧
    (s._parsePostFrame).2._replay.frame_count = s._replay.frame_count := by
  unfold Parser._parsePostFrame
  simp only []
  split_ifs <;> exact ⟨rfl, rfl⟩

/-- The handler lemma: `_parseGameEnd` leaves the two frame counters as they are. -/
theorem parseGameEnd_counts (s : Parser) :
    (s._parseGameEnd).2._replay.last_frame = s._replay.last_frame ∧
    (s._parseGameEnd).2._replay.frame_count = s._replay.frame_count := by
  unfold Parser._parseGameEnd
  simp only []
  split_ifs <;> exact ⟨rfl, rfl⟩

/-- What the dispatch of an event other than `GAME_START` does to the two frame counters:
a `PRE_FRAME` sets them from its frame number, any other event leaves them. -/
theorem dispatch_counts (E : Externals) (s : Parser) (hg : byteAt s._rb s._bp ≠ GAME_START) :
    (byteAt s._rb s._bp = PRE_FRAME →
      (s.dispatch E).2._replay.last_frame = readBE4S s._rb (s._bp + 0x1) ∧
      (s.dispatch E).2._replay.frame_count
        = toInt32 (toInt32 (readBE4S s._rb (s._bp + 0x1) - LOAD_FRAME) + 1)) ∧
    (byteAt s._rb s._bp ≠ PRE_FRAME →
      (s.dispatch E).2._replay.last_frame = s._replay.last_frame ∧
      (s.dispatch E).2._replay.frame_count = s._replay.frame_count) := by
  unfold Parser.dispatch
  simp only [hg, if_false]
  constructor
  · intro hp
    simp only [hp, if_true]
    exact parsePreFrame_counts s
  · intro hp
    simp only [hp, if_false]
    split_ifs
    · exact parsePostFrame_counts s
    · exact parseGameEnd_counts s
    · exact ⟨rfl, rfl⟩

/-- The framing of a stream does not depend on the number of passes allowed, once that
number is at least the number of raw bytes. -/
theorem streamCodes_fuel (t : Nat → Nat) (rb : Nat → Nat) :
    ∀ (f1 f2 bp len : Nat), len ≤ f1 → len ≤ f2 →
      streamCodes t rb f1 bp len = streamCodes t rb f2 bp len := by
  intro f1
  induction f1 with
  | zero =>
    intro f2 bp len h1 _
    have : len = 0 := by omega
    subst this
    cases f2 <;> simp [streamCodes]
  | succ f1 ih =>
    intro f2 bp len h1 h2
    cases f2 with
    | zero =>
      have : len = 0 := by omega
      subst this
      simp [streamCodes]
    | succ f2 =>
      unfold streamCodes
      by_cases hc : 0 < len ∧ t (charToUnsigned (byteAt rb bp)) + 1 ≤ len
      · simp only [hc, and_self, if_true]
        rw [ih f2 _ _ (by omega) (by omega)]
      · simp [hc]

/-- The first event of a stream and the stream after it: when the codes of the stream are
`c :: rest`, raw bytes remain, `c` is the code at the cursor, the event fits, and after a
pass through the loop body the codes of the stream are `rest`. -/
theorem eventCodes_cons (E : Externals) (s : Parser) (c : Nat) (rest : List Nat)
    (h : s.eventCodes = c :: rest) :
    0 < s._length_raw ∧ byteAt s._rb s._bp = c ∧ s.declaredSize + 1 ≤ s._length_raw ∧
    ((s.eventBody E).1 = true → (s.eventBody E).2.eventCodes = rest) := by
  unfold Parser.eventCodes at h
  obtain ⟨f, hf⟩ : ∃ f, s._length_raw = f + 1 := by
    rcases Nat.eq_zero_or_pos s._length_raw with h0 | h0
    · rw [h0] at h; simp [streamCodes] at h
    · exact ⟨s._length_raw - 1, by omega⟩
  rw [hf] at h
  unfold streamCodes at h
  rw [← hf] at h
  by_cases hc : 0 < s._length_raw ∧ s._payload_sizes (charToUnsigned (byteAt s._rb s._bp)) + 1 ≤ s._length_raw
  · simp only [hc, and_self, if_true, List.cons.injEq] at h
    refine ⟨hc.1, h.1, hc.2, ?_⟩
    intro hb
    obtain ⟨b1, b2, _, b4, b5, _, _, _⟩ := eventBody_framing E s hb
    unfold Parser.eventCodes
    rw [b1, b2, b4, b5]
    unfold Parser.declaredSize
    rw [← h.2]
    exact streamCodes_fuel _ _ _ _ _ _ le_rfl (by omega)
  · simp [hc] at h
/-- A successful `_parseEvents` on a stream without events returns the state it was given. -/
theorem parseEvents_no_events (E : Externals) (s : Parser) (r : Bool × Parser)
    (hc : s.eventCodes = []) (hr : s._parseEvents E = some r) (hok : r.1 = true) : r.2 = s := by
  rcases Nat.eq_zero_or_pos s._length_raw with h0 | h0
  · unfold Parser._parseEvents at hr
    rw [h0] at hr
    simp only [Parser.eventLoop, h0, gt_iff_lt, lt_self_iff_false, if_false,
      Option.some.injEq] at hr
    rw [← hr]
  · exfalso
    have hb : (s.eventBody E).1 = false := by
      rw [Bool.eq_false_iff]
      intro hb
      have hfit := ((eventBody_flag E s).mp hb).2
      unfold Parser.eventCodes at hc
      obtain ⟨f, hf⟩ : ∃ f, s._length_raw = f + 1 := ⟨s._length_raw - 1, by omega⟩
      rw [hf] at hc
      unfold streamCodes at hc
      rw [← hf] at hc
      unfold Parser.declaredSize at hfit
      simp [h0, hfit] at hc
    rw [parseEvents_fail E s h0 hb] at hr
    simp only [Option.some.injEq] at hr
    rw [← hr] at hok
    exact Bool.false_ne_true hok

/-- The flag of a result of `_parseEvents`, as the flag of the optional result. -/
theorem parseEvents_flag_of_result (E : Externals) (s : Parser) (r : Bool × Parser)
    (hr : s._parseEvents E = some r) (hok : r.1 = true) :
    (s._parseEvents E).map Prod.fst = some true := by
  rw [hr]; simp [hok]

/-- The relation between the frame counters is kept by a successful decode of a stream
without `GAME_START` events. -/
theorem frameCountOk_kept (E : Externals) :
    ∀ (l : List Nat) (s : Parser) (r : Bool × Parser), s.eventCodes = l → GAME_START ∉ l →
      s._parseEvents E = some r → r.1 = true → s._replay.frameCountOk →
      r.2._replay.frameCountOk := by
  intro l
  induction l with
  | nil =>
    intro s r hc _ hr hok hI
    rw [parseEvents_no_events E s r hc hr hok]
    exact hI
  | cons c rest ih =>
    intro s r hc hn hr hok hI
    obtain ⟨h0, hcode, _, hnext⟩ := eventCodes_cons E s c rest hc
    have hb := parseEvents_ok_body E s h0 (parseEvents_flag_of_result E s r hr hok)
    have hg : byteAt s._rb s._bp ≠ GAME_START := by
      rw [hcode]; intro h; exact hn (by rw [h]; exact List.mem_cons_self _ _)
    rw [parseEvents_step E s h0 hb] at hr
    refine ih _ r (hnext hb) (fun h => hn (List.mem_cons_of_mem _ h)) hr hok ?_
    have hrep := (eventBody_framing E s hb).2.2.2.2.2.2.2
    unfold SlippiReplay.frameCountOk at hI ⊢
    rw [hrep]
    obtain ⟨d1, d2⟩ := dispatch_counts E s hg
    by_cases hp : byteAt s._rb s._bp = PRE_FRAME
    · rw [(d1 hp).1, (d1 hp).2]
      exact ⟨(readBE4S_range _ _).1, (readBE4S_range _ _).2, rfl⟩
    · rw [(d2 hp).1, (d2 hp).2]; exact hI

/-- The relation between the frame counters holds after a successful decode of a stream in
which some `PRE_FRAME` event has no `GAME_START` event after it. -/
theorem frameCountOk_established (E : Externals) (l2 : List Nat) (hn : GAME_START ∉ l2) :
    ∀ (l1 : List Nat) (s : Parser) (r : Bool × Parser),
      s.eventCodes = l1 ++ PRE_FRAME :: l2 → s._parseEvents E = some r → r.1 = true →
      r.2._replay.frameCountOk := by
  intro l1
  induction l1 with
  | nil =>
    intro s r hc hr hok
    rw [List.nil_append] at hc
    obtain ⟨h0, hcode, _, hnext⟩ := eventCodes_cons E s PRE_FRAME l2 hc
    have hb := parseEvents_ok_body E s h0 (parseEvents_flag_of_result E s r hr hok)
    rw [parseEvents_step E s h0 hb] at hr
    refine frameCountOk_kept E l2 _ r (hnext hb) hn hr hok ?_
    have hrep := (eventBody_framing E s hb).2.2.2.2.2.2.2
    have hg : byteAt s._rb s._bp ≠ GAME_START := by rw [hcode]; decide
    obtain ⟨d1, _⟩ := dispatch_counts E s hg
    unfold SlippiReplay.frameCountOk
    rw [hrep, (d1 hcode).1, (d1 hcode).2]
    exact ⟨(readBE4S_range _ _).1, (readBE4S_range _ _).2, rfl⟩
  | cons c rest ih =>
    intro s r hc hr hok
    rw [List.cons_append] at hc
    obtain ⟨h0, _, _, hnext⟩ := eventCodes_cons E s c _ hc
    have hb := parseEvents_ok_body E s h0 (parseEvents_flag_of_result E s r hr hok)
    rw [parseEvents_step E s h0 hb] at hr
    exact ih _ r (hnext hb) hr hok

/-- C12 (as the code has it). After every successful decode of an event stream in which
some `PRE_FRAME` event has no `GAME_START` event after it, `frame_count` is
`last_frame - LOAD_FRAME + 1` with both sums taken in 32 bits; it is
`last_frame - LOAD_FRAME + 1` itself when `last_frame` is at most `2147483523`, so that no
sum leaves the range of 32 bits. -/
theorem frame_count_after_decode (E : Externals) (s : Parser) (r : Bool × Parser)
    (l1 l2 : List Nat) (hcodes : s.eventCodes = l1 ++ PRE_FRAME :: l2)
    (hn : GAME_START ∉ l2) (hr : s._parseEvents E = some r) (hok : r.1 = true) :
    r.2._replay.frame_count = toInt32 (toInt32 (r.2._replay.last_frame - LOAD_FRAME) + 1) ∧
    (r.2._replay.last_frame ≤ 2147483523 →
      r.2._replay.frame_count = r.2._replay.last_frame - LOAD_FRAME + 1) := by
  obtain ⟨h1, _, h3⟩ := frameCountOk_established E l2 hn l1 s r hcodes hr hok
  refine ⟨h3, fun hle => ?_⟩
  rw [h3]
  unfold LOAD_FRAME
  rw [toInt32_of_range (r.2._replay.last_frame - -123) (by omega) (by omega),
    toInt32_of_range _ (by omega) (by omega)]

/-- Witness for C12: a stream `GAME_START, PRE_FRAME, POST_FRAME` for frame -123 decodes
with `last_frame = -123` and `frame_count = 1`. -/
theorem frame_count_after_decode_witness :
    (decodedTable oneFrameFile).eventCodes = [GAME_START] ++ PRE_FRAME :: [POST_FRAME] ∧
    ∃ r, (decodedTable oneFrameFile)._parseEvents Externals.sample = some r ∧ r.1 = true ∧
      r.2._replay.last_frame = -123 ∧
      r.2._replay.frame_count = r.2._replay.last_frame - LOAD_FRAME + 1 := by
  have hflag : ((decodedTable oneFrameFile)._parseEvents Externals.sample).map Prod.fst
      = some true := by decide
  have hlast : ((decodedTable oneFrameFile)._parseEvents Externals.sample).map
      (fun r => r.2._replay.last_frame) = some (-123) := by decide
  obtain ⟨r, hr⟩ := eventLoop_total Externals.sample _ (decodedTable oneFrameFile) le_rfl
  have hr' : (decodedTable oneFrameFile)._parseEvents Externals.sample = some r := hr
  rw [hr'] at hflag hlast
  have hok : r.1 = true := by simpa using hflag
  have hl : r.2._replay.last_frame = -123 := by simpa using hlast
  refine ⟨by decide, r, hr', hok, hl, ?_⟩
  exact (frame_count_after_decode Externals.sample (decodedTable oneFrameFile) r [GAME_START]
    [POST_FRAME] (by decide) (by decide) hr' hok).2 (by rw [hl]; decide)

/-- Counterexample to C12 as stated: a stream of one `GAME_END` event decodes successfully
and leaves `frame_count = 0` and `last_frame = 0`; a stream of one `GAME_START` event decodes
successfully and (with a `setFrames` that records the estimated frame count, here 18) leaves
`frame_count = 18` and `last_frame = 0`; a stream whose last `PRE_FRAME` is for frame
`2147483647` decodes successfully and leaves `frame_count = -2147483525`. In all three
`frame_count` is not `last_frame - LOAD_FRAME + 1`. -/
theorem frame_count_without_pre_frame :
    ((decodedTable endOnlyFile)._parseEvents Externals.sample).map
      (fun r => (r.1, r.2._replay.frame_count, r.2._replay.last_frame)) = some (true, 0, 0) ∧
    ((decodedTable endOnlyFile)._parseEvents Externals.sample).map
      (fun r => decide (r.2._replay.frame_count = r.2._replay.last_frame - LOAD_FRAME + 1))
      = some false ∧
    ((decodedTable startOnlyFile)._parseEvents Externals.sample).map
      (fun r => (r.1, r.2._replay.frame_count, r.2._replay.last_frame)) = some (true, 18, 0) ∧
    ((decodedTable startOnlyFile)._parseEvents Externals.sample).map
      (fun r => decide (r.2._replay.frame_count = r.2._replay.last_frame - LOAD_FRAME + 1))
      = some false ∧
    ((decodedTable wrappingFramesFile)._parseEvents Externals.sample).map
      (fun r => (r.1, r.2._replay.frame_count, r.2._replay.last_frame))
      = some (true, -2147483525, 2147483647) ∧
    ((decodedTable wrappingFramesFile)._parseEvents Externals.sample).map
      (fun r => decide (r.2._replay.frame_count = r.2._replay.last_frame - LOAD_FRAME + 1))
      = some false := by
  decide

/-! ## The frame handlers as writes into one frame -/

/-- Two `modifyFrame` at the same slot and index are one, with the composed function. -/
theorem modifyFrame_twice (r : SlippiReplay) (p : Nat) (f : Int)
    (g1 g2 : SlippiFrame → SlippiFrame) :
    (r.modifyFrame p f g1).modifyFrame p f g2 = r.modifyFrame p f (fun fr => g2 (g1 fr)) := by
  unfold SlippiReplay.modifyFrame SlippiReplay.modifyPlayer
  simp only [SlippiReplay.mk.injEq, true_and]
  funext q
  by_cases hq : q = p
  · simp only [hq, if_true, SlippiPlayer.mk.injEq, true_and]
    funext i
    by_cases hi : i = f <;> simp [hi]
  · simp [hq]

/-- Two `modifyFrame` commute when their functions commute. -/
theorem modifyFrame_comm (r : SlippiReplay) (p1 p2 : Nat) (f1 f2 : Int)
    (g1 g2 : SlippiFrame → SlippiFrame) (hg : ∀ fr, g1 (g2 fr) = g2 (g1 fr)) :
    (r.modifyFrame p1 f1 g1).modifyFrame p2 f2 g2
      = (r.modifyFrame p2 f2 g2).modifyFrame p1 f1 g1 := by
  by_cases hp : p1 = p2
  · subst hp
    unfold SlippiReplay.modifyFrame SlippiReplay.modifyPlayer
    simp only [SlippiReplay.mk.injEq, true_and]
    funext q
    by_cases hq : q = p1
    · subst hq
      simp only [if_true, SlippiPlayer.mk.injEq, true_and]
      funext i
      rcases eq_or_ne i f1 with rfl | i1 <;> rcases eq_or_ne i f2 with rfl | i2
      · simp [hg]
      · simp [i2]
      · simp [i1]
      · simp [i1, i2]
    · simp [hq]
  · unfold SlippiReplay.modifyFrame SlippiReplay.modifyPlayer
    simp only [SlippiReplay.mk.injEq, true_and]
    funext q
    by_cases h1 : q = p1
    · subst h1
      simp [hp]
    · by_cases h2 : q = p2
      · subst h2
        simp [h1]
      · simp [h1, h2]

/-- The handler lemma: `_parsePreFrame` sets the two frame counters and writes one frame. -/
theorem parsePreFrame_eq (s : Parser) :
    s._parsePreFrame =
      (true, { s with
        _replay := SlippiReplay.modifyFrame
          { s._replay with
            last_frame := readBE4S s._rb (s._bp + 0x1)
            frame_count := toInt32 (s.frameIndex + 1) }
          s.frameSlot s.frameIndex s.preFrameWrite }) := by
  unfold Parser._parsePreFrame Parser.frameIndex
  simp only []
  split_ifs with h2 h4
  · rw [modifyFrame_twice, modifyFrame_twice]
    congr 3
    funext fr
    simp [Parser.preFrameWrite, h2, h4]
  · rw [modifyFrame_twice]
    congr 3
    funext fr
    simp [Parser.preFrameWrite, h2, h4]
  · congr 3
    funext fr
    simp [Parser.preFrameWrite, h2]

/-- The handler lemma: `_parsePostFrame` writes one frame. -/
theorem parsePostFrame_eq (s : Parser) :
    s._parsePostFrame =
      (true, { s with
        _replay := s._replay.modifyFrame s.frameSlot s.frameIndex s.postFrameWrite }) := by
  unfold Parser._parsePostFrame Parser.frameIndex
  simp only []
  split_ifs with h2
  · rw [modifyFrame_twice]
    congr 3
    funext fr
    simp [Parser.postFrameWrite, h2]
  · congr 3
    funext fr
    simp [Parser.postFrameWrite, h2]

/-- The writes of a `PRE_FRAME` and of a `POST_FRAME` into a frame commute: they set
different members. -/
theorem preFrameWrite_postFrameWrite (s1 s2 : Parser) (fr : SlippiFrame) :
    s1.preFrameWrite (s2.postFrameWrite fr) = s2.postFrameWrite (s1.preFrameWrite fr) := by
  unfold Parser.preFrameWrite Parser.postFrameWrite
  simp only []
  split_ifs <;> rfl
/-- C13. Order independence of `PRE_FRAME` and `POST_FRAME`: from every parser state, running
the `PRE_FRAME` handler on the event at offset `b1` and then the `POST_FRAME` handler on the
event at offset `b2` leaves the same replay model (frame slots, `last_frame`, `frame_count`
and all other members) as running them in the other order; in particular when both events
address the same player slot and frame index. -/
theorem pre_post_order_independent (s : Parser) (b1 b2 : Nat) :
    ((((s.seek b1)._parsePreFrame).2.seek b2)._parsePostFrame).2._replay
      = ((((s.seek b2)._parsePostFrame).2.seek b1)._parsePreFrame).2._replay := by
  simp only [parsePreFrame_eq, parsePostFrame_eq]
  exact modifyFrame_comm
    { s._replay with
      last_frame := readBE4S s._rb (b1 + 0x1)
      frame_count := toInt32 ((s.seek b1).frameIndex + 1) }
    (s.seek b1).frameSlot (s.seek b2).frameSlot (s.seek b1).frameIndex (s.seek b2).frameIndex
    (s.seek b1).preFrameWrite (s.seek b2).postFrameWrite
    (fun fr => preFrameWrite_postFrameWrite _ _ fr)

/-- C17. Follower slot addressing: a `PRE_FRAME` or `POST_FRAME` event with player byte `i`
in 0..3 and follower byte `b` in 0..1 addresses slot `i + 4*b`, which is below 8; the handler
writes the frame at the event's index in that slot, leaves every other slot and every other
frame of that slot as they were, and the `PRE_FRAME` handler stores `player = i` and
`follower = (b = 1)` in the frame. -/
theorem follower_slot (s : Parser) (i b : Nat) (hi : i < 4) (hb : b ≤ 1)
    (h5 : byteAt s._rb (s._bp + 0x5) = i) (h6 : byteAt s._rb (s._bp + 0x6) = b) :
    s.frameSlot = i + 4 * b ∧ i + 4 * b < 8 ∧
    (∀ q, q ≠ i + 4 * b → (s._parsePreFrame).2._replay.player q = s._replay.player q) ∧
    (∀ q, q ≠ i + 4 * b → (s._parsePostFrame).2._replay.player q = s._replay.player q) ∧
    (∀ f, f ≠ s.frameIndex →
      ((s._parsePreFrame).2._replay.player (i + 4 * b)).frame f
        = (s._replay.player (i + 4 * b)).frame f ∧
      ((s._parsePostFrame).2._replay.player (i + 4 * b)).frame f
        = (s._replay.player (i + 4 * b)).frame f) ∧
    ((s._parsePreFrame).2._replay.player (i + 4 * b)).frame s.frameIndex
      = s.preFrameWrite ((s._replay.player (i + 4 * b)).frame s.frameIndex) ∧
    ((s._parsePostFrame).2._replay.player (i + 4 * b)).frame s.frameIndex
      = s.postFrameWrite ((s._replay.player (i + 4 * b)).frame s.frameIndex) ∧
    (((s._parsePreFrame).2._replay.player (i + 4 * b)).frame s.frameIndex).player = i ∧
    (((s._parsePreFrame).2._replay.player (i + 4 * b)).frame s.frameIndex).follower
      = decide (b = 1) := by
  have hslot : s.frameSlot = i + 4 * b := by
    unfold Parser.frameSlot
    rw [h5, h6]
    omega
  have hpre : ((s._parsePreFrame).2._replay.player (i + 4 * b)).frame s.frameIndex
      = s.preFrameWrite ((s._replay.player (i + 4 * b)).frame s.frameIndex) := by
    rw [parsePreFrame_eq, ← hslot]
    exact modifyFrame_same _ _ _ _
  refine ⟨hslot, by omega, ?_, ?_, ?_, hpre, ?_, ?_, ?_⟩
  · intro q hq
    rw [parsePreFrame_eq, hslot]
    exact modifyFrame_other_slot _ _ _ _ _ hq
  · intro q hq
    rw [parsePostFrame_eq, hslot]
    exact modifyFrame_other_slot _ _ _ _ _ hq
  · intro f hf
    rw [parsePreFrame_eq, parsePostFrame_eq, ← hslot]
    exact ⟨modifyFrame_other_frame _ _ _ _ _ hf, modifyFrame_other_frame _ _ _ _ _ hf⟩
  · rw [parsePostFrame_eq, ← hslot]
    exact modifyFrame_same _ _ _ _
  · rw [hpre]
    unfold Parser.preFrameWrite
    simp only []
    rw [hslot]
    split_ifs <;> (simp only []; omega)
  · rw [hpre]
    unfold Parser.preFrameWrite
    simp only []
    rw [hslot]
    have : decide (i + 4 * b > 3) = decide (b = 1) := by
      rcases Nat.eq_zero_or_pos b with h0 | h0
      · subst h0; simp; omega
      · have : b = 1 := by omega
        subst this; simp
    split_ifs <;> exact this

/-- Witness for C17: a `PRE_FRAME` event with player byte 2 and follower byte 1 addresses
slot 6 and stores `player = 2` and `follower = true`. -/
theorem follower_slot_witness :
    byteAt (decodedEvents followerFrameFile 1)._rb
      ((decodedEvents followerFrameFile 1)._bp + 0x5) = 2 ∧
    byteAt (decodedEvents followerFrameFile 1)._rb
      ((decodedEvents followerFrameFile 1)._bp + 0x6) = 1 ∧
    (decodedEvents followerFrameFile 1).frameSlot = 2 + 4 * 1 ∧
    ((((decodedEvents followerFrameFile 1)._parsePreFrame).2._replay.player (2 + 4 * 1)).frame
      (decodedEvents followerFrameFile 1).frameIndex).player = 2 ∧
    ((((decodedEvents followerFrameFile 1)._parsePreFrame).2._replay.player (2 + 4 * 1)).frame
      (decodedEvents followerFrameFile 1).frameIndex).follower = true :=
  have h := follower_slot (decodedEvents followerFrameFile 1) 2 1 (by decide) (by decide)
    (by decide) (by decide)
  ⟨by decide, by decide, h.1, h.2.2.2.2.2.2.2.1, h.2.2.2.2.2.2.2.2.trans (by decide)⟩

/-- C18 (as the code has it). Across a pass of the event loop that goes through,
`frame_count` is unchanged when the event is a `POST_FRAME`, a `GAME_END` or of unknown
code; a `PRE_FRAME` sets it to its frame number minus `LOAD_FRAME` plus one, both sums taken
in 32 bits. When the frame number is at most `2147483523` no sum leaves the range of 32
bits: `frame_count` is then the frame number minus `LOAD_FRAME` plus one, so it does not
decrease when that is at least the previous value, in particular when the counters were set
by an earlier `PRE_FRAME` and the frame number is not below `last_frame`. -/
theorem frame_count_step (E : Externals) (s : Parser) (hb : (s.eventBody E).1 = true)
    (hg : byteAt s._rb s._bp ≠ GAME_START) :
    (byteAt s._rb s._bp ≠ PRE_FRAME →
      (s.eventBody E).2._replay.frame_count = s._replay.frame_count) ∧
    (byteAt s._rb s._bp = PRE_FRAME →
      (s.eventBody E).2._replay.frame_count
        = toInt32 (toInt32 (readBE4S s._rb (s._bp + 0x1) - LOAD_FRAME) + 1) ∧
      (readBE4S s._rb (s._bp + 0x1) ≤ 2147483523 →
        (s.eventBody E).2._replay.frame_count = readBE4S s._rb (s._bp + 0x1) - LOAD_FRAME + 1 ∧
        (s._replay.frame_count ≤ readBE4S s._rb (s._bp + 0x1) - LOAD_FRAME + 1 →
          s._replay.frame_count ≤ (s.eventBody E).2._replay.frame_count) ∧
        (s._replay.frame_count = s._replay.last_frame - LOAD_FRAME + 1 →
          s._replay.last_frame ≤ readBE4S s._rb (s._bp + 0x1) →
          s._replay.frame_count ≤ (s.eventBody E).2._replay.frame_count))) := by
  have hrep := (eventBody_framing E s hb).2.2.2.2.2.2.2
  obtain ⟨d1, d2⟩ := dispatch_counts E s hg
  rw [hrep]
  refine ⟨fun hp => (d2 hp).2, fun hp => ?_⟩
  rw [(d1 hp).2]
  refine ⟨rfl, fun hle => ?_⟩
  have hlo := (readBE4S_range s._rb (s._bp + 0x1)).1
  have hval : toInt32 (toInt32 (readBE4S s._rb (s._bp + 0x1) - LOAD_FRAME) + 1)
      = readBE4S s._rb (s._bp + 0x1) - LOAD_FRAME + 1 := by
    unfold LOAD_FRAME
    rw [toInt32_of_range (readBE4S s._rb (s._bp + 0x1) - -123) (by omega) (by omega),
      toInt32_of_range _ (by omega) (by omega)]
  rw [hval]
  refine ⟨rfl, fun h => h, fun h1 h2 => ?_⟩
  rw [h1]
  omega

/-- Witness for C18: the first `PRE_FRAME` of the sample stream, for frame 1, sets
`frame_count` to 125. -/
theorem frame_count_step_witness :
    (((decodedTable backwardsFramesFile).eventBody Externals.sample).2.eventBody
      Externals.sample).1 = true ∧
    readBE4S ((decodedTable backwardsFramesFile).eventBody Externals.sample).2._rb
      (((decodedTable backwardsFramesFile).eventBody Externals.sample).2._bp + 0x1) = 1 ∧
    (((decodedTable backwardsFramesFile).eventBody Externals.sample).2.eventBody
      Externals.sample).2._replay.frame_count = 125 :=
  ⟨by decide, by decide,
    ((((frame_count_step Externals.sample
      ((decodedTable backwardsFramesFile).eventBody Externals.sample).2 (by decide)
      (by decide)).2 (by decide)).2 (by decide)).1).trans (by decide)⟩

/-- Counterexample to C18 as stated: in the stream `GAME_START, PRE_FRAME` (frame 1),
`PRE_FRAME` (frame 0), which decodes successfully, `frame_count` is 125 after the second
event and 124 after the third; in the stream `GAME_START, PRE_FRAME` (frame 0), `PRE_FRAME`
(frame 2147483647), which decodes successfully, it is 124 after the second event and
-2147483525 after the third. -/
theorem frame_count_decreases :
    ((decodedTable backwardsFramesFile)._parseEvents Externals.sample).map Prod.fst
      = some true ∧
    (decodedTable backwardsFramesFile).eventCodes = [GAME_START, PRE_FRAME, PRE_FRAME] ∧
    (Parser.eventIter Externals.sample 2 (decodedTable backwardsFramesFile)).map
      (fun s => s._replay.frame_count) = some 125 ∧
    (Parser.eventIter Externals.sample 3 (decodedTable backwardsFramesFile)).map
      (fun s => s._replay.frame_count) = some 124 ∧
    ((decodedTable wrappingFramesFile)._parseEvents Externals.sample).map Prod.fst
      = some true ∧
    (decodedTable wrappingFramesFile).eventCodes = [GAME_START, PRE_FRAME, PRE_FRAME] ∧
    (Parser.eventIter Externals.sample 2 (decodedTable wrappingFramesFile)).map
      (fun s => s._replay.frame_count) = some 124 ∧
    (Parser.eventIter Externals.sample 3 (decodedTable wrappingFramesFile)).map
      (fun s => s._replay.frame_count) = some (-2147483525) := by
  decide

/-! ## What makes the event stream fail -/

/-- The switch of the event loop yields `false` only from the `GAME_START` handler. -/
theorem dispatch_fail (E : Externals) (s : Parser) (h : (s.dispatch E).1 = false) :
    byteAt s._rb s._bp = GAME_START ∧ (s._parseGameStart E).1 = false := by
  unfold Parser.dispatch at h
  simp only [] at h
  split_ifs at h with h1 h2 h3 h4
  · exact ⟨h1, h⟩
  · rw [(parsePreFrame_maj s).1] at h; exact absurd h (by decide)
  · rw [(parsePostFrame_maj s).1] at h; exact absurd h (by decide)
  · rw [(parseGameEnd_maj s).1] at h; exact absurd h (by decide)

/-- When the event loop returns `false`, it does so in a state it reached in which raw bytes
remain and either the event is a `GAME_START` its handler rejects, or the event does not fit
in the remaining raw bytes. -/
theorem eventLoop_fail_cause (E : Externals) :
    ∀ (fuel : Nat) (s : Parser) (r : Bool × Parser), Parser.eventLoop E fuel s = some r →
      r.1 = false →
      ∃ k s', Parser.eventIter E k s = some s' ∧ 0 < s'._length_raw ∧
        ((byteAt s'._rb s'._bp = GAME_START ∧ (s'._parseGameStart E).1 = false) ∨
          s'._length_raw < s'._payload_sizes (charToUnsigned (byteAt s'._rb s'._bp)) + 1) := by
  intro fuel
  induction fuel with
  | zero =>
    intro s r h hr
    by_cases h0 : s._length_raw > 0
    · simp [Parser.eventLoop, h0] at h
    · simp only [Parser.eventLoop, h0, if_false, Option.some.injEq] at h
      rw [← h] at hr; exact absurd hr (by simp)
  | succ fuel ih =>
    intro s r h hr
    by_cases h0 : s._length_raw > 0
    · simp only [Parser.eventLoop, h0, if_true] at h
      by_cases hb : (s.eventBody E).1 = false
      · refine ⟨0, s, rfl, h0, ?_⟩
        by_cases hd : (s.dispatch E).1 = false
        · exact Or.inl (dispatch_fail E s hd)
        · right
          have hd' : (s.dispatch E).1 = true := by simpa using hd
          by_contra hfit
          have := (eventBody_flag E s).mpr ⟨hd', by unfold Parser.declaredSize; omega⟩
          rw [this] at hb; exact absurd hb (by decide)
      · simp only [hb, if_false] at h
        have hb' : (s.eventBody E).1 = true := by simpa using hb
        obtain ⟨k, s', hk, rest⟩ := ih _ r h hr
        refine ⟨k + 1, s', ?_, rest⟩
        unfold Parser.eventIter
        simp only [h0, hb', and_self, if_true]
        exact hk
    · simp only [Parser.eventLoop, h0, if_false, Option.some.injEq] at h
      rw [← h] at hr; exact absurd hr (by simp)

/-- A `PRE_FRAME` event is accepted by its handler. -/
theorem dispatch_preFrame_flag (E : Externals) (s : Parser)
    (hc : byteAt s._rb s._bp = PRE_FRAME) : (s.dispatch E).1 = true := by
  unfold Parser.dispatch
  simp only [hc, PRE_FRAME, GAME_START]
  exact (parsePreFrame_maj s).1

/-- C19 (as the code has it). A missing Pre/Post pair is not a decode error: the
`PRE_FRAME` and `POST_FRAME` handlers always succeed, and `_parseEvents` fails only in a
state the loop reached where raw bytes remain and either the event is a `GAME_START` its
handler rejects or the event does not fit in the remaining raw bytes; there is a stream that
consists of one `PRE_FRAME` event, with no `POST_FRAME`, and decodes successfully. -/
theorem decode_failure_causes (E : Externals) (s : Parser) :
    (∀ t : Parser, (t._parsePreFrame).1 = true ∧ (t._parsePostFrame).1 = true) ∧
    (∀ r, s._parseEvents E = some r → r.1 = false →
      ∃ k s', Parser.eventIter E k s = some s' ∧ 0 < s'._length_raw ∧
        ((byteAt s'._rb s'._bp = GAME_START ∧ (s'._parseGameStart E).1 = false) ∨
          s'._length_raw < s'._payload_sizes (charToUnsigned (byteAt s'._rb s'._bp)) + 1)) ∧
    (∃ t : Parser, (t._parseEvents E).map Prod.fst = some true ∧
      t.eventCodes = [PRE_FRAME]) :=
  ⟨fun t => ⟨(parsePreFrame_maj t).1, (parsePostFrame_maj t).1⟩,
    fun r hr hf => eventLoop_fail_cause E _ s r hr hf,
    ⟨decodedTable preFrameAloneFile,
      parseEvents_single E _ (by decide) (dispatch_preFrame_flag E _ (by decide)) (by decide),
      by decide⟩⟩

/-- Witness for C19: the truncated sample stream fails at its first event, a `GAME_END`
that does not fit. -/
theorem decode_failure_causes_witness :
    ((decodedTable truncatedFile)._parseEvents Externals.sample).map Prod.fst = some false ∧
    ∃ k s', Parser.eventIter Externals.sample k (decodedTable truncatedFile) = some s' ∧
      0 < s'._length_raw ∧
      ((byteAt s'._rb s'._bp = GAME_START ∧ (s'._parseGameStart Externals.sample).1 = false) ∨
        s'._length_raw < s'._payload_sizes (charToUnsigned (byteAt s'._rb s'._bp)) + 1) := by
  have hflag : ((decodedTable truncatedFile)._parseEvents Externals.sample).map Prod.fst
      = some false := by decide
  obtain ⟨r, hr⟩ := eventLoop_total Externals.sample _ (decodedTable truncatedFile) le_rfl
  have hr' : (decodedTable truncatedFile)._parseEvents Externals.sample = some r := hr
  refine ⟨hflag,
    (decode_failure_causes Externals.sample (decodedTable truncatedFile)).2.1 r hr' ?_⟩
  rw [hr'] at hflag
  simpa using hflag

/-- Counterexample to C19 as stated: the stream `GAME_START, PRE_FRAME` gives slot 0,
frame -123 a `PRE_FRAME` and no `POST_FRAME`, and decodes successfully. -/
theorem missing_post_frame_accepted :
    (Parser._parseHeader Externals.sample (Parser.fresh (bufOf preOnlyFile))).1 = true ∧
    ((decodedHeader preOnlyFile)._parseEventDescriptions).1 = true ∧
    (decodedTable preOnlyFile).eventCodes = [GAME_START, PRE_FRAME] ∧
    ((decodedTable preOnlyFile)._parseEvents Externals.sample).map Prod.fst = some true := by
  decide

/-! ## The size byte of the manifest event -/

/-- A manifest whose length is not a multiple of 3: with size byte 11 the manifest is 10
bytes long and the triple at offset 9 takes its size from the two bytes after these 10; two
files that agree on the 10 manifest bytes and differ in the second byte after them give `GAME_END`
the sizes 2 and 3. -/
theorem manifest_last_triple_reads_beyond :
    (decodedHeader (sampleHeader 16 ++
      [0x35, 11, 0x36, 0, 3, 0x37, 0, 6, 0x38, 0, 6, 0x39, 0, 2, 0, 0])).ev_bytes = 10 ∧
    (decodedTable (sampleHeader 16 ++
      [0x35, 11, 0x36, 0, 3, 0x37, 0, 6, 0x38, 0, 6, 0x39, 0, 2, 0, 0]))._payload_sizes GAME_END
      = 2 ∧
    (decodedTable (sampleHeader 16 ++
      [0x35, 11, 0x36, 0, 3, 0x37, 0, 6, 0x38, 0, 6, 0x39, 0, 3, 0, 0]))._payload_sizes GAME_END
      = 3 ∧
    (decodedTable (sampleHeader 16 ++
      [0x35, 11, 0x36, 0, 3, 0x37, 0, 6, 0x38, 0, 6, 0x39, 0, 2, 0, 0]))._bp = 15 + 2 + 10 := by
  decide

/-- C20 (as the code has it). The size byte of the `EV_PAYLOADS` event is the manifest
length plus one: for a size byte `sz >= 1` the table decoder takes `sz - 1` as the manifest
length. It reads the triples that start at the offsets `0, 3, 6, ..` below `sz - 1` after the
size byte, which cover each of these `sz - 1` bytes, records `sz` as the payload size of
`0x35`, and on success leaves the cursor `sz - 1` bytes after the size byte. When `sz - 1` is
a multiple of 3, every triple ends within the `sz - 1` bytes and the result depends on no
byte after them: the decoder treats exactly these `sz - 1` bytes as the manifest. When it is
not, the last triple ends beyond them. -/
theorem payloads_size_byte (s : Parser) (sz : Nat) (hsz : byteAt s._rb (s._bp + 1) = sz)
    (h1 : 1 ≤ sz) :
    s.ev_bytes + 1 = sz ∧
    (∀ i ∈ manifestOffsets s.ev_bytes, i + 1 < sz) ∧
    (∀ j, j + 1 < sz → ∃ i ∈ manifestOffsets s.ev_bytes, i ≤ j ∧ j ≤ i + 2) ∧
    ((sz - 1) % 3 = 0 →
      (∀ i ∈ manifestOffsets s.ev_bytes, i + 2 + 1 < sz) ∧
      ∀ rb' : Nat → Nat,
        (∀ j, j < 2 + (sz - 1) → byteAt rb' (s._bp + j) = byteAt s._rb (s._bp + j)) →
        (Parser._parseEventDescriptions { s with _rb := rb' }).1
          = (s._parseEventDescriptions).1 ∧
        (Parser._parseEventDescriptions { s with _rb := rb' }).2._payload_sizes
          = (s._parseEventDescriptions).2._payload_sizes ∧
        (Parser._parseEventDescriptions { s with _rb := rb' }).2._bp
          = (s._parseEventDescriptions).2._bp ∧
        (Parser._parseEventDescriptions { s with _rb := rb' }).2._length_raw
          = (s._parseEventDescriptions).2._length_raw) ∧
    ((sz - 1) % 3 ≠ 0 → ∃ i ∈ manifestOffsets s.ev_bytes, sz ≤ i + 2 + 1) ∧
    ((s._parseEventDescriptions).1 = true →
      (s._parseEventDescriptions).2._bp = (s._bp + 2) + (sz - 1) ∧
      (s._parseEventDescriptions).2._payload_sizes EV_PAYLOADS = sz) := by
  have hlt : sz < 256 := by rw [← hsz]; unfold byteAt; omega
  have hev : s.ev_bytes + 1 = sz := by
    unfold Parser.ev_bytes; rw [hsz]; omega
  refine ⟨hev, ?_, ?_, ?_, ?_, ?_⟩
  · intro i hi
    have := ((mem_manifestOffsets _ _).mp hi).1
    omega
  · intro j hj
    exact ⟨j / 3 * 3, (mem_manifestOffsets _ _).mpr ⟨by omega, by omega⟩, by omega, by omega⟩
  · intro h3
    have hin : ∀ i ∈ manifestOffsets s.ev_bytes, i + 2 + 1 < sz := by
      intro i hi
      obtain ⟨a1, a2⟩ := (mem_manifestOffsets _ _).mp hi
      omega
    refine ⟨hin, fun rb' hagree => ?_⟩
    have hb0 : byteAt rb' s._bp = byteAt s._rb s._bp := by
      simpa using hagree 0 (by omega)
    have hev' : Parser.ev_bytes { s with _rb := rb' } = s.ev_bytes := by
      unfold Parser.ev_bytes
      simp only []
      rw [hagree 1 (by omega)]
    have hloop : ∀ T, manifestLoop rb' (s._bp + 2) (manifestOffsets s.ev_bytes) T
        = manifestLoop s._rb (s._bp + 2) (manifestOffsets s.ev_bytes) T := by
      intro T
      refine manifestLoop_ext s._rb rb' (s._bp + 2) _ T (fun i hi k hk => ?_)
      have hi3 := hin i hi
      have := hagree (2 + i + k) (by omega)
      simpa [Nat.add_assoc] using this
    unfold Parser._parseEventDescriptions
    simp only [hev', hb0, hloop]
    split_ifs <;> exact ⟨rfl, rfl, rfl, rfl⟩
  · intro h3
    exact ⟨(sz - 2) / 3 * 3, (mem_manifestOffsets _ _).mpr ⟨by omega, by omega⟩, by omega⟩
  · intro hok
    obtain ⟨c1, _, _, _⟩ := parseEventDescriptions_cursor s hok
    refine ⟨by rw [c1]; omega, ?_⟩
    have hb : ¬ byteAt s._rb s._bp ≠ EV_PAYLOADS := by
      intro hb
      have : (s._parseEventDescriptions).1 = false := by
        unfold Parser._parseEventDescriptions; simp [hb]
      rw [this] at hok; exact absurd hok (by decide)
    have hloop : (manifestLoop s._rb (s._bp + 2) (manifestOffsets s.ev_bytes)
        (setSize s._payload_sizes EV_PAYLOADS (s.ev_bytes + 1))).ok = true := by
      by_contra hl
      have : (s._parseEventDescriptions).1 = false := by
        unfold Parser._parseEventDescriptions; simp [hb, hl]
      rw [this] at hok; exact absurd hok (by decide)
    have hno := manifestLoop_declared s._rb (s._bp + 2) EV_PAYLOADS (manifestOffsets s.ev_bytes)
      (setSize s._payload_sizes EV_PAYLOADS (s.ev_bytes + 1)) (by simp [setSize]) hloop
    have hkeep := manifestLoop_kept s._rb (s._bp + 2) EV_PAYLOADS (manifestOffsets s.ev_bytes)
      (setSize s._payload_sizes EV_PAYLOADS (s.ev_bytes + 1)) hno
    unfold Parser._parseEventDescriptions
    simp only [hb, if_false]
    split_ifs <;> (simp only []; rw [hkeep]; simp [setSize, hev])

/-- Witness for C20: the sample manifest event has size byte 13 and 12 manifest bytes, four
triples that end within them. -/
theorem payloads_size_byte_witness :
    byteAt (decodedHeader endOnlyFile)._rb ((decodedHeader endOnlyFile)._bp + 1) = 13 ∧
    (decodedHeader endOnlyFile).ev_bytes + 1 = 13 ∧
    (∀ i ∈ manifestOffsets (decodedHeader endOnlyFile).ev_bytes, i + 2 + 1 < 13) ∧
    ((decodedHeader endOnlyFile)._parseEventDescriptions).2._bp
      = ((decodedHeader endOnlyFile)._bp + 2) + (13 - 1) :=
  have h := payloads_size_byte (decodedHeader endOnlyFile) 13 (by decide) (by decide)
  ⟨by decide, h.1, (h.2.2.2.1 (by decide)).1, (h.2.2.2.2.2 (by decide)).1⟩

/-- Counterexample to C20 as stated: with size byte 13 the table decoder treats 12 bytes
after the size byte as the manifest, not 14: it succeeds with the cursor at 15 + 2 + 12, and
the byte there is decoded as the first event of the stream. -/
theorem size_byte_not_minus_one :
    byteAt (decodedHeader endOnlyFile)._rb ((decodedHeader endOnlyFile)._bp + 1) = 13 ∧
    (decodedHeader endOnlyFile).ev_bytes = 12 ∧
    (decodedHeader endOnlyFile).ev_bytes ≠ 13 + 1 ∧
    ((decodedHeader endOnlyFile)._parseEventDescriptions).1 = true ∧
    (decodedTable endOnlyFile)._bp = 15 + 2 + 12 ∧
    (decodedTable endOnlyFile).eventCodes = [GAME_END] ∧
    ((decodedTable endOnlyFile)._parseEvents Externals.sample).map Prod.fst = some true := by
  decide

/-! ## Metadata trailer -/

/-- The loop of `_parseMetadata` with a pass left: the first pass, and the loop after it. -/
theorem metaLoop_succ (wide : Bool) (rb : Nat → Nat) (bp fuel : Nat) (st : MetaState) :
    metaLoop wide rb bp (fuel + 1) st =
      match metaStep wide rb bp st with
      | MetaOutcome.next st' => metaLoop wide rb bp fuel st'
      | MetaOutcome.done st' => some (true, st')
      | MetaOutcome.fail st' => some (false, st')
      | MetaOutcome.stuck => none := rfl

/-- Passes that end with `continue` use up that many of the passes allowed. -/
theorem metaLoop_of_iter (wide : Bool) (rb : Nat → Nat) (bp : Nat) :
    ∀ (k fuel : Nat) (st0 st : MetaState), metaIter wide rb bp k st0 = some st →
      metaLoop wide rb bp (k + fuel) st0 = metaLoop wide rb bp fuel st := by
  intro k
  induction k with
  | zero =>
    intro fuel st0 st h
    simp only [metaIter, Option.some.injEq] at h
    rw [h, Nat.zero_add]
  | succ k ih =>
    intro fuel st0 st h
    rw [Nat.add_right_comm, metaLoop_succ]
    unfold metaIter at h
    split at h
    · rename_i st1 hstep
      rw [hstep]
      exact ih fuel st1 st h
    · exact absurd h (by simp)

/-- A pass that reads a byte other than `U` and `}` as key marker ends with
`return false`. -/
theorem metaStep_bad_key (wide : Bool) (rb : Nat → Nat) (bp : Nat) (st : MetaState)
    (h1 : byteAt rb (bp + st.i) ≠ 0x55) (h2 : byteAt rb (bp + st.i) ≠ 0x7d) :
    metaStep wide rb bp st = MetaOutcome.fail st := by
  unfold metaStep
  simp [h1, h2]

/-- After a key, a byte other than `{`, `S` and `l` as value marker ends the pass with
`return false`. -/
theorem metaValue_bad (wide : Bool) (rb : Nat → Nat) (bp : Nat) (st : MetaState)
    (h1 : byteAt rb (bp + st.i) ≠ 0x7b) (h2 : byteAt rb (bp + st.i) ≠ 0x53)
    (h3 : byteAt rb (bp + st.i) ≠ 0x6c) :
    metaValue wide rb bp st = MetaOutcome.fail st := by
  unfold metaValue
  simp [h1, h2, h3]

/-- After a key, an `S` that is not followed by `U` ends the pass with `return false`. -/
theorem metaValue_long_string (wide : Bool) (rb : Nat → Nat) (bp : Nat) (st : MetaState)
    (h1 : byteAt rb (bp + st.i) = 0x53) (h2 : byteAt rb (bp + st.i + 1) ≠ 0x55) :
    metaValue wide rb bp st = MetaOutcome.fail { st with ss := st.ss ++ [34] } := by
  unfold metaValue
  simp [h1, h2]

/-- The state in which the value after a `U` key is read. -/
theorem metaStep_key (wide : Bool) (rb : Nat → Nat) (bp : Nat) (st : MetaState)
    (h : byteAt rb (bp + st.i) = 0x55) :
    ∃ stv : MetaState, metaStep wide rb bp st = metaValue wide rb bp stv ∧
      stv.i = st.i + 2 + byteAt rb (bp + st.i + 1) ∧
      stv.key = bufSlice rb (bp + st.i + 2) (byteAt rb (bp + st.i + 1)) ∧
      stv.keypath = st.keypath ++ [44] ++ bufSlice rb (bp + st.i + 2) (byteAt rb (bp + st.i + 1)) ∧
      stv.replay = st.replay := by
  unfold metaStep
  simp only [h, if_true]
  split_ifs <;> exact ⟨_, rfl, rfl, rfl, rfl, rfl⟩

/-- The flag of `_parseMetadata` is the flag of its loop. -/
theorem parseMetadata_flag (wide : Bool) (fuel : Nat) (s : Parser) :
    (s._parseMetadata wide fuel).map Prod.fst
      = (metaLoop wide s._rb s._bp fuel s.metaInit).map Prod.fst := by
  unfold Parser._parseMetadata
  split
  · rename_i h; rw [h]; rfl
  · rename_i st h; rw [h]; rfl
  · rename_i st h; rw [h]; rfl

/-- C14. `_parseMetadata` fails whenever its loop reaches a key position that holds a byte
other than `0x55` and `0x7d`, or reads a `U` key and finds at the value position after it a
byte other than `0x7b`, `0x53` and `0x6c`, or an `S` that is not immediately followed by
`0x55`. -/
theorem metadata_bad_marker_fails (wide : Bool) (s : Parser) (k fuel : Nat) (st : MetaState)
    (hreach : metaIter wide s._rb s._bp k s.metaInit = some st) (hfuel : k < fuel)
    (hbad :
      (byteAt s._rb (s._bp + st.i) ≠ 0x55 ∧ byteAt s._rb (s._bp + st.i) ≠ 0x7d) ∨
      (byteAt s._rb (s._bp + st.i) = 0x55 ∧
        byteAt s._rb (s._bp + (st.i + 2 + byteAt s._rb (s._bp + st.i + 1))) ≠ 0x7b ∧
        byteAt s._rb (s._bp + (st.i + 2 + byteAt s._rb (s._bp + st.i + 1))) ≠ 0x53 ∧
        byteAt s._rb (s._bp + (st.i + 2 + byteAt s._rb (s._bp + st.i + 1))) ≠ 0x6c) ∨
      (byteAt s._rb (s._bp + st.i) = 0x55 ∧
        byteAt s._rb (s._bp + (st.i + 2 + byteAt s._rb (s._bp + st.i + 1))) = 0x53 ∧
        byteAt s._rb (s._bp + (st.i + 2 + byteAt s._rb (s._bp + st.i + 1)) + 1) ≠ 0x55)) :
    (s._parseMetadata wide fuel).map Prod.fst = some false := by
  have hstep : ∃ stf, metaStep wide s._rb s._bp st = MetaOutcome.fail stf := by
    rcases hbad with ⟨h1, h2⟩ | ⟨hU, h1, h2, h3⟩ | ⟨hU, h1, h2⟩
    · exact ⟨_, metaStep_bad_key wide _ _ st h1 h2⟩
    · obtain ⟨stv, hv, hi, _⟩ := metaStep_key wide s._rb s._bp st hU
      rw [← hi] at h1 h2 h3
      exact ⟨_, hv.trans (metaValue_bad wide _ _ stv h1 h2 h3)⟩
    · obtain ⟨stv, hv, hi, _⟩ := metaStep_key wide s._rb s._bp st hU
      rw [← hi] at h1 h2
      exact ⟨_, hv.trans (metaValue_long_string wide _ _ stv h1 h2)⟩
  obtain ⟨stf, hstf⟩ := hstep
  obtain ⟨f, hf⟩ : ∃ f, fuel = k + (f + 1) := ⟨fuel - k - 1, by omega⟩
  rw [parseMetadata_flag, hf, metaLoop_of_iter wide _ _ k (f + 1) _ st hreach, metaLoop_succ,
    hstf]
  rfl

/-- Witness for C14: after the pass for `metadata {`, the trailer has the key `startAt`
and then the byte `0x24` where a value marker is read. -/
theorem metadata_bad_marker_fails_witness :
    ∃ st, metaIter true (trailerState badValueTrailer)._rb (trailerState badValueTrailer)._bp 1
        (trailerState badValueTrailer).metaInit = some st ∧
      ((trailerState badValueTrailer)._parseMetadata true 2).map Prod.fst = some false :=
  ⟨_, rfl,
    metadata_bad_marker_fails true (trailerState badValueTrailer) 1 2 _ rfl (by decide)
      (Or.inr (Or.inl (by decide)))⟩
/-- Where `find` gives an index, the pattern fits in the text from that index on. -/
theorem findSub_bound (pat : List Nat) :
    ∀ (l : List Nat) (pos : Nat), findSub pat l = some pos → pos + pat.length ≤ l.length := by
  intro l
  induction l with
  | nil =>
    intro pos h
    unfold findSub at h
    split_ifs at h with hp
    · simp only [Option.some.injEq] at h
      subst h; subst hp; simp
  | cons c rest ih =>
    intro pos h
    unfold findSub at h
    split_ifs at h with hp
    · simp only [Option.some.injEq] at h
      subst h
      have := congrArg List.length hp
      rw [List.length_take] at this
      omega
    · cases hrec : findSub pat rest with
      | none => rw [hrec] at h; simp at h
      | some k =>
        rw [hrec] at h
        simp only [Option.map_some', Option.some.injEq] at h
        have := ih k hrec
        simp only [List.length_cons]
        omega

/-- The pass for a string value: `S`, `U`, a length and that many bytes. -/
theorem metaValue_string (wide : Bool) (rb : Nat → Nat) (bp : Nat) (st : MetaState)
    (h1 : byteAt rb (bp + st.i) = 0x53) (h2 : byteAt rb (bp + st.i + 1) = 0x55) :
    metaValue wide rb bp st =
      match metaSideEffect wide
        { st with
          ss := st.ss ++ [34] ++ bufSlice rb (bp + st.i + 3) (byteAt rb (bp + st.i + 2))
            ++ [34, 44, 10]
          val := bufSlice rb (bp + st.i + 3) (byteAt rb (bp + st.i + 2)) } with
      | none => MetaOutcome.stuck
      | some r =>
        MetaOutcome.next
          { st with
            ss := st.ss ++ [34] ++ bufSlice rb (bp + st.i + 3) (byteAt rb (bp + st.i + 2))
              ++ [34, 44, 10]
            val := bufSlice rb (bp + st.i + 3) (byteAt rb (bp + st.i + 2))
            replay := r
            i := st.i + 3 + byteAt rb (bp + st.i + 2)
            keypath := trimLastKey st.keypath } := by
  unfold metaValue
  simp only [h1, h2]
  simp only [Nat.reduceEqDiff, if_false, if_true, ne_eq, not_true_eq_false]

/-- C15. Metadata side-effect extraction: in a pass of the loop of `_parseMetadata` that
reads a key and a string value (`U` key, then `S`, `U`, length, bytes), the value is stored
in `replay.start_time` when the key is `startAt`, in `replay.played_on` when the key is
`playedOn`, and in `replay.player[n].tag` when the key is `netplay` and in the key path the
text `players,` (where it first occurs) is followed by the digit `n` with `0 <= n <= 3`;
a string value under any other key leaves the replay as it is. -/
theorem metadata_string_side_effects (wide : Bool) (rb : Nat → Nat) (bp : Nat) (st : MetaState)
    (klen v : Nat) (key val : List Nat)
    (hU : byteAt rb (bp + st.i) = 0x55)
    (hklen : klen = byteAt rb (bp + st.i + 1))
    (hkey : key = bufSlice rb (bp + st.i + 2) klen)
    (hv : v = st.i + 2 + klen)
    (hS : byteAt rb (bp + v) = 0x53) (hSU : byteAt rb (bp + v + 1) = 0x55)
    (hval : val = bufSlice rb (bp + v + 3) (byteAt rb (bp + v + 2))) :
    (key = bytes "startAt" →
      ∃ st', metaStep wide rb bp st = MetaOutcome.next st' ∧
        st'.replay = { st.replay with start_time := val }) ∧
    (key = bytes "playedOn" →
      ∃ st', metaStep wide rb bp st = MetaOutcome.next st' ∧
        st'.replay = { st.replay with played_on := val }) ∧
    (key = bytes "netplay" →
      ∀ pos n, findSub (bytes "players,") (st.keypath ++ [44] ++ key) = some pos →
        pos + 8 < 4294967296 → (st.keypath ++ [44] ++ key).getD (pos + 8) 0 = 48 + n → n ≤ 3 →
        ∃ st', metaStep wide rb bp st = MetaOutcome.next st' ∧
          st'.replay = st.replay.modifyPlayer n (fun pl => { pl with tag := val })) ∧
    (key ≠ bytes "startAt" → key ≠ bytes "playedOn" → key ≠ bytes "netplay" →
      ∃ st', metaStep wide rb bp st = MetaOutcome.next st' ∧ st'.replay = st.replay) := by
  obtain ⟨stv, hstep, hi, hk, hkp, hrep⟩ := metaStep_key wide rb bp st hU
  rw [← hklen] at hi hk hkp
  rw [← hkey] at hk hkp
  rw [← hv] at hi
  rw [← hi] at hS hSU hval
  rw [hstep, metaValue_string wide rb bp stv hS hSU, ← hval]
  have hne1 : bytes "playedOn" ≠ bytes "startAt" := by decide
  have hne2 : bytes "netplay" ≠ bytes "startAt" := by decide
  have hne3 : bytes "netplay" ≠ bytes "playedOn" := by decide
  refine ⟨?_, ?_, ?_, ?_⟩
  · intro hkeq
    simp only [metaSideEffect, hk, hkeq, if_true, hrep]
    exact ⟨_, rfl, rfl⟩
  · intro hkeq
    simp only [metaSideEffect, hk, hkeq, hne1, if_true, if_false, hrep]
    exact ⟨_, rfl, rfl⟩
  · intro hkeq pos n hfind hpos hget hn
    subst hkeq
    have hb := findSub_bound _ _ _ hfind
    have h8 : (bytes "players,").length = 8 := by decide
    rw [h8] at hb
    simp only [metaSideEffect, hk, hne2, hne3, if_false, if_true, hkp, hrep, hfind,
      Option.isSome_some, true_or]
    rw [Nat.mod_eq_of_lt hpos]
    have hlen : ¬ (pos + 8 > (st.keypath ++ [44] ++ bytes "netplay").length) := by omega
    simp only [hlen, if_false, hget]
    have h8' : toInt8 (48 + n) = ((48 + n : Nat) : Int) := by
      unfold toInt8
      rw [if_pos (by omega)]
    rw [h8']
    have hport : ¬ (((48 + n : Nat) : Int) - 48 < 0) := by omega
    simp only [hport, if_false]
    refine ⟨_, rfl, ?_⟩
    have : (((48 + n : Nat) : Int) - 48).toNat = n := by omega
    simp only [this]
  · intro n1 n2 n3
    simp only [metaSideEffect, hk, n1, n2, n3, if_false, hrep]
    exact ⟨_, rfl, rfl⟩
/-- Witness for C15: in the trailer `metadata { players { 2 { netplay : "hi"`, the pass that
reads `netplay` and its string stores the value in `player[2].tag`. -/
theorem metadata_string_side_effects_witness :
    findSub (bytes "players,") ((metaStateAfter netplayTrailer 3).keypath ++ [44]
      ++ bytes "netplay") = some 10 ∧
    ∃ st', metaStep false (bufOf netplayTrailer) 0 (metaStateAfter netplayTrailer 3)
        = MetaOutcome.next st' ∧ (st'.replay.player 2).tag = [104, 105] := by
  refine ⟨by decide, ?_⟩
  obtain ⟨st', h1, h2⟩ :=
    (metadata_string_side_effects false (bufOf netplayTrailer) 0 (metaStateAfter netplayTrailer 3)
      7 _ (bytes "netplay") [104, 105] (by decide) (by decide) (by decide) rfl (by decide)
      (by decide) (by decide)).2.2.1 rfl 10 2 (by decide) (by decide) (by decide) (by decide)
  exact ⟨st', h1, by rw [h2]; rfl⟩

/-- The pass for an object value `{`. -/
theorem metaValue_object (wide : Bool) (rb : Nat → Nat) (bp : Nat) (st : MetaState)
    (h : byteAt rb (bp + st.i) = 0x7b) :
    ∃ st', metaValue wide rb bp st = MetaOutcome.next st' ∧ st'.replay = st.replay := by
  unfold metaValue
  simp only [h, if_true]
  split_ifs <;> exact ⟨_, rfl, rfl⟩

/-- The pass for an integer value `l`. -/
theorem metaValue_int (wide : Bool) (rb : Nat → Nat) (bp : Nat) (st : MetaState)
    (h : byteAt rb (bp + st.i) = 0x6c) :
    ∃ st', metaValue wide rb bp st = MetaOutcome.next st' ∧ st'.replay = st.replay := by
  unfold metaValue
  simp only [h]
  exact ⟨_, rfl, rfl⟩

/-- The value `switch` never ends a pass with `done`. -/
theorem metaValue_not_done (wide : Bool) (rb : Nat → Nat) (bp : Nat) (st st' : MetaState) :
    metaValue wide rb bp st ≠ MetaOutcome.done st' := by
  by_cases h1 : byteAt rb (bp + st.i) = 0x7b
  · obtain ⟨st1, e, _⟩ := metaValue_object wide rb bp st h1
    rw [e]; simp
  · by_cases h2 : byteAt rb (bp + st.i) = 0x53
    · by_cases h3 : byteAt rb (bp + st.i + 1) = 0x55
      · rw [metaValue_string wide rb bp st h2 h3]
        split <;> simp
      · rw [metaValue_long_string wide rb bp st h2 h3]; simp
    · by_cases h4 : byteAt rb (bp + st.i) = 0x6c
      · obtain ⟨st1, e, _⟩ := metaValue_int wide rb bp st h4
        rw [e]; simp
      · rw [metaValue_bad wide rb bp st h1 h2 h4]; simp

/-- The pass for a `}` read as key marker. -/
theorem metaStep_close (wide : Bool) (rb : Nat → Nat) (bp : Nat) (st : MetaState)
    (h : byteAt rb (bp + st.i) = 0x7d) :
    metaStep wide rb bp st =
      if st.indent.length < 1 then MetaOutcome.stuck
      else if (st.indent.drop 1).length = 0 then
        MetaOutcome.done { st with keypath := trimLastKey st.keypath, indent := st.indent.drop 1 }
      else
        MetaOutcome.next
          { st with
            keypath := trimLastKey st.keypath
            indent := st.indent.drop 1
            ss := st.ss ++ st.indent.drop 1 ++ [125, 44, 10]
            i := st.i + 1 } := by
  unfold metaStep
  simp only [h]
  simp only [Nat.reduceEqDiff, if_false, if_true]

/-- A pass ends with `done` only at a `}` read with an indent of one blank, and it emits
nothing and writes nothing to the replay. -/
theorem metaStep_done (wide : Bool) (rb : Nat → Nat) (bp : Nat) (st st' : MetaState)
    (h : metaStep wide rb bp st = MetaOutcome.done st') :
    byteAt rb (bp + st.i) = 0x7d ∧ st.indent.length = 1 ∧ st'.ss = st.ss ∧
      st'.replay = st.replay := by
  by_cases hU : byteAt rb (bp + st.i) = 0x55
  · obtain ⟨stv, hv, _⟩ := metaStep_key wide rb bp st hU
    rw [hv] at h
    exact absurd h (metaValue_not_done _ _ _ _ _)
  · by_cases hC : byteAt rb (bp + st.i) = 0x7d
    · rw [metaStep_close wide rb bp st hC] at h
      by_cases h1 : st.indent.length < 1
      · simp [h1] at h
      · simp only [h1, if_false] at h
        by_cases h0 : (st.indent.drop 1).length = 0
        · simp only [h0, if_true, MetaOutcome.done.injEq] at h
          simp only [List.length_drop] at h0
          refine ⟨hC, by omega, ?_, ?_⟩ <;> rw [← h]
        · simp only [h0, if_false] at h
          exact absurd h (by simp)
    · rw [metaStep_bad_key wide rb bp st hU hC] at h
      simp at h

/-- When the loop of `_parseMetadata` is left with `done`, it is by a pass from a state it
reached. -/
theorem metaLoop_done (wide : Bool) (rb : Nat → Nat) (bp : Nat) :
    ∀ (fuel : Nat) (st0 st' : MetaState), metaLoop wide rb bp fuel st0 = some (true, st') →
      ∃ k st, k < fuel ∧ metaIter wide rb bp k st0 = some st ∧
        metaStep wide rb bp st = MetaOutcome.done st' := by
  intro fuel
  induction fuel with
  | zero => intro st0 st' h; simp [metaLoop] at h
  | succ fuel ih =>
    intro st0 st' h
    rw [metaLoop_succ] at h
    split at h
    · rename_i st1 hstep
      obtain ⟨k, st, hk, hiter, hdone⟩ := ih st1 st' h
      refine ⟨k + 1, st, by omega, ?_, hdone⟩
      unfold metaIter
      rw [hstep]
      exact hiter
    · rename_i st1 hstep
      simp only [Option.some.injEq, Prod.mk.injEq, true_and] at h
      subst h
      exact ⟨0, st0, by omega, rfl, hstep⟩
    · simp at h
    · simp at h

/-- C16 (as the code has it). For every metadata trailer that `_parseMetadata` accepts, the
`}` that closes the outermost object (the indent is one blank) ends the walk and emits
nothing: the text stored in `replay.metadata` is the text emitted before that `}` was read,
without its last two characters and without the commas that precede a `}`. -/
theorem metadata_text (wide : Bool) (fuel : Nat) (s : Parser) (r : Bool × Parser)
    (hr : s._parseMetadata wide fuel = some r) (hok : r.1 = true) :
    ∃ k st st', metaIter wide s._rb s._bp k s.metaInit = some st ∧
      byteAt s._rb (s._bp + st.i) = 0x7d ∧ st.indent.length = 1 ∧
      metaStep wide s._rb s._bp st = MetaOutcome.done st' ∧ st'.ss = st.ss ∧
      r.2._replay.metadata = commaKiller (dropLast2 st.ss) := by
  unfold Parser._parseMetadata at hr
  split at hr
  · simp at hr
  · simp only [Option.some.injEq] at hr
    rw [← hr] at hok; simp at hok
  · rename_i st' hloop
    simp only [Option.some.injEq] at hr
    obtain ⟨k, st, _, hiter, hdone⟩ := metaLoop_done wide _ _ fuel _ st' hloop
    obtain ⟨d1, d2, d3, _⟩ := metaStep_done wide _ _ st st' hdone
    refine ⟨k, st, st', hiter, d1, d2, hdone, d3, ?_⟩
    rw [← hr, ← d3]

/-- Witness for C16: the trailer `metadata { startAt : "x" }` is accepted. -/
theorem metadata_text_witness :
    ((trailerState startAtTrailer)._parseMetadata false 3).map Prod.fst = some true ∧
    ∃ r k st st', (trailerState startAtTrailer)._parseMetadata false 3 = some r ∧
      metaIter false (trailerState startAtTrailer)._rb (trailerState startAtTrailer)._bp k
        (trailerState startAtTrailer).metaInit = some st ∧
      byteAt (trailerState startAtTrailer)._rb ((trailerState startAtTrailer)._bp + st.i) = 0x7d ∧
      metaStep false (trailerState startAtTrailer)._rb (trailerState startAtTrailer)._bp st
        = MetaOutcome.done st' ∧
      r.2._replay.metadata = commaKiller (dropLast2 st.ss) := by
  have hflag : ((trailerState startAtTrailer)._parseMetadata false 3).map Prod.fst
      = some true := by decide
  refine ⟨hflag, ?_⟩
  cases hr : (trailerState startAtTrailer)._parseMetadata false 3 with
  | none => rw [hr] at hflag; simp at hflag
  | some r =>
    rw [hr] at hflag
    have hok : r.1 = true := by simpa using hflag
    obtain ⟨k, st, st', a1, a2, _, a4, _, a6⟩ :=
      metadata_text false 3 (trailerState startAtTrailer) r hr hok
    exact ⟨r, k, st, st', rfl, a1, a2, a4, a6⟩

/-- Counterexample to C16 as stated: the trailer `metadata { startAt : "x" }` is accepted,
and the text stored in `replay.metadata` is an opening brace, a line break and
` "startAt" : "x"`: it ends with a quote, has one `{` and no `}`. -/
theorem metadata_without_closing_brace :
    ((trailerState startAtTrailer)._parseMetadata false 3).map
      (fun r => (r.1, r.2._replay.metadata)) =
      some (true, [123, 10, 32, 34] ++ bytes "startAt" ++ [34, 32, 58, 32, 34, 120, 34]) ∧
    ((trailerState startAtTrailer)._parseMetadata false 3).map
      (fun r => (r.2._replay.metadata.getLast?, r.2._replay.metadata.count 123,
        r.2._replay.metadata.count 125)) = some (some 34, 1, 0) := by
  decide

/-! ## The replay after a truncated event -/

/-- The switch of the event loop calls `_parsePreFrame` for code `0x37`. -/
theorem dispatch_preFrame (E : Externals) (s : Parser) (hc : byteAt s._rb s._bp = PRE_FRAME) :
    s.dispatch E = s._parsePreFrame := by
  unfold Parser.dispatch
  simp [hc, PRE_FRAME, GAME_START]

/-- The switch of the event loop calls `_parsePostFrame` for code `0x38`. -/
theorem dispatch_postFrame (E : Externals) (s : Parser) (hc : byteAt s._rb s._bp = POST_FRAME) :
    s.dispatch E = s._parsePostFrame := by
  unfold Parser.dispatch
  simp [hc, POST_FRAME, PRE_FRAME, GAME_START]

/-- The switch of the event loop calls `_parseGameEnd` for code `0x39`. -/
theorem dispatch_gameEnd (E : Externals) (s : Parser) (hc : byteAt s._rb s._bp = GAME_END) :
    s.dispatch E = s._parseGameEnd := by
  unfold Parser.dispatch
  simp [hc, GAME_END, POST_FRAME, PRE_FRAME, GAME_START]

/-- The handler lemma: `_parseGameEnd` writes `end_type` from the byte after the code. -/
theorem parseGameEnd_end_type (s : Parser) :
    (s._parseGameEnd).2._replay.end_type = byteAt s._rb (s._bp + 0x1) := by
  unfold Parser._parseGameEnd
  simp only []
  split_ifs <;> rfl

/-- C21 (as the code has it). When `_parseEvents` rejects an event because its declared size
`S` (the entry the loop reads, `_payload_sizes[(unsigned)_rb[_bp]]`) has
`S + 1 > _length_raw`, the event's handler has already run: `_parseEvents` returns failure in
the state the switch left. For an event of unknown code that is the state before
the event; a truncated `GAME_END` has written `end_type`, and a truncated `PRE_FRAME` or
`POST_FRAME` has written its frame. -/
theorem truncated_event_state (E : Externals) (s0 : Parser) (k : Nat) (s : Parser)
    (hreach : Parser.eventIter E k s0 = some s) (hpos : 0 < s._length_raw)
    (htr : s._payload_sizes (charToUnsigned (byteAt s._rb s._bp)) + 1 > s._length_raw) :
    s0._parseEvents E = some (false, (s.dispatch E).2) ∧
    (byteAt s._rb s._bp ≠ GAME_START → byteAt s._rb s._bp ≠ PRE_FRAME →
      byteAt s._rb s._bp ≠ POST_FRAME → byteAt s._rb s._bp ≠ GAME_END →
      (s.dispatch E).2 = s) ∧
    (byteAt s._rb s._bp = GAME_END →
      (s.dispatch E).2._replay.end_type = byteAt s._rb (s._bp + 0x1)) ∧
    (byteAt s._rb s._bp = PRE_FRAME →
      (s.dispatch E).2._replay =
        SlippiReplay.modifyFrame
          { s._replay with
            last_frame := readBE4S s._rb (s._bp + 0x1)
            frame_count := toInt32 (s.frameIndex + 1) }
          s.frameSlot s.frameIndex s.preFrameWrite) ∧
    (byteAt s._rb s._bp = POST_FRAME →
      (s.dispatch E).2._replay =
        s._replay.modifyFrame s.frameSlot s.frameIndex s.postFrameWrite) := by
  have hb : (s.eventBody E).1 = false := by
    rw [Bool.eq_false_iff]
    intro h
    have := ((eventBody_flag E s).mp h).2
    unfold Parser.declaredSize at this
    omega
  refine ⟨?_, ?_, ?_, ?_, ?_⟩
  · rw [parseEvents_iter E k s0 s hreach, parseEvents_fail E s hpos hb,
      eventBody_fail_state E s hb]
  · intro h1 h2 h3 h4
    rw [dispatch_unknown E s h1 h2 h3 h4]
  · intro hc
    rw [dispatch_gameEnd E s hc]
    exact parseGameEnd_end_type s
  · intro hc
    rw [dispatch_preFrame E s hc, parsePreFrame_eq]
  · intro hc
    rw [dispatch_postFrame E s hc, parsePostFrame_eq]

/-- Witness for C21: the truncated `GAME_END` of the sample stream. -/
theorem truncated_event_state_witness :
    (decodedTable truncatedFile)._payload_sizes
        (charToUnsigned (byteAt (decodedTable truncatedFile)._rb (decodedTable truncatedFile)._bp)) + 1
      > (decodedTable truncatedFile)._length_raw ∧
    (decodedTable truncatedFile)._parseEvents Externals.sample
      = some (false, ((decodedTable truncatedFile).dispatch Externals.sample).2) :=
  ⟨by decide,
    (truncated_event_state Externals.sample (decodedTable truncatedFile) 0
      (decodedTable truncatedFile) rfl (by decide) (by decide)).1⟩

/-- Counterexample to C21 as stated: a `GAME_END` of declared size 2 with 2 raw bytes left is
rejected, and `end_type`, 0 before the event, is 2 after; a `PRE_FRAME` of declared size 6
with 5 raw bytes left is rejected, and frame 0 of slot 0, not alive before the event, is
alive after, with `frame_count` changed from 0 to 1. -/
theorem truncated_event_written :
    (decodedTable truncatedFile)._replay.end_type = 0 ∧
    ((decodedTable truncatedFile)._parseEvents Externals.sample).map
      (fun r => (r.1, r.2._replay.end_type)) = some (false, 2) ∧
    (((decodedTable truncatedPreFrameFile)._replay.player 0).frame 0).alive = 0 ∧
    (decodedTable truncatedPreFrameFile)._replay.frame_count = 0 ∧
    (decodedTable truncatedPreFrameFile)._payload_sizes PRE_FRAME + 1
      > (decodedTable truncatedPreFrameFile)._length_raw ∧
    ((decodedTable truncatedPreFrameFile)._parseEvents Externals.sample).map
      (fun r => (r.1, ((r.2._replay.player 0).frame 0).alive, r.2._replay.frame_count))
      = some (false, 1, 1) := by
  decide

/-! ## Analyzer predicates -/

/-- The value `n & 0x02` is nonzero exactly when bit 1 of `n` is set. -/
theorem and_two_ne_zero (n : Nat) : n &&& 2 ≠ 0 ↔ n / 2 % 2 = 1 := by
  have h : n &&& 2 = (n.testBit 1).toNat * 2 ^ 1 := Nat.and_two_pow n 1
  rw [h, Nat.testBit_to_div_mod]
  by_cases hb : n / 2 ^ 1 % 2 = 1
  · simp [hb] at *
  · simp [hb] at *

/-- C22 (as the code has it). `isInHitstun(f)` is true if and only if `f.flags_4 & 0x02` is
nonzero, i.e. bit 1 of `flags_4` is set; it does not look at `action_pre`. The damaged range
`DamageHi1..DamageFlyRoll` and the tumble state `DamageFall` are what the separate predicates
`inDamagedState` and `inTumble` test. -/
theorem isInHitstun_flag (A : ActionIds) (f : SlippiFrame) :
    (Analyzer.isInHitstun f = true ↔ f.flags_4 &&& 0x02 ≠ 0) ∧
    (Analyzer.isInHitstun f = true ↔ f.flags_4 / 2 % 2 = 1) ∧
    (∀ a, Analyzer.isInHitstun { f with action_pre := a } = Analyzer.isInHitstun f) ∧
    (Analyzer.inDamagedState A f = true ↔
      (A.DamageHi1 ≤ f.action_pre ∧ f.action_pre ≤ A.DamageFlyRoll)) ∧
    (Analyzer.inTumble A f = true ↔ f.action_pre = A.DamageFall) := by
  refine ⟨?_, ?_, fun a => rfl, ?_, ?_⟩
  · simp [Analyzer.isInHitstun]
  · rw [← and_two_ne_zero]
    simp [Analyzer.isInHitstun]
  · simp [Analyzer.inDamagedState]
  · simp [Analyzer.inTumble]

/-- Counterexample to C22 as stated: a frame in the tumble state `DamageFall`, and a frame in
the damaged state `DamageHi1`, both with `flags_4 = 0`: `isInHitstun` is false for them
while `inTumble`, respectively `inDamagedState`, is true. -/
theorem isInHitstun_ignores_action :
    Analyzer.isInHitstun { action_pre := 0x26 } = false ∧
    Analyzer.inTumble ActionIds.melee { action_pre := 0x26 } = true ∧
    Analyzer.hitstunAsSpecified ActionIds.melee { action_pre := 0x26 } = true ∧
    Analyzer.isInHitstun { action_pre := 0x4B } = false ∧
    Analyzer.inDamagedState ActionIds.melee { action_pre := 0x4B } = true ∧
    Analyzer.hitstunAsSpecified ActionIds.melee { action_pre := 0x4B } = true := by
  decide

/-! ## The timer text -/

/-- The sum `3600*lmins + 60*lsecs + lframes` of the numbers `frameAsTimer` computes: the
remaining frames `8*3600 - elapsed`, except when the elapsed frames are a whole number of
minutes, where `lsecs` is 60 and the sum is 3600 more. -/
theorem frameAsTimer_sum (START_FRAMES : Int) (fnum : Nat)
    (h32 : -2147483648 ≤ (fnum : Int) - START_FRAMES ∧ (fnum : Int) - START_FRAMES < 2147483648) :
    3600 * (Analyzer.frameAsTimer START_FRAMES fnum).1
        + 60 * (Analyzer.frameAsTimer START_FRAMES fnum).2.1
        + (Analyzer.frameAsTimer START_FRAMES fnum).2.2
      = if Analyzer.elapsed START_FRAMES fnum % 3600 = 0
        then 8 * 3600 - Analyzer.elapsed START_FRAMES fnum + 3600
        else 8 * 3600 - Analyzer.elapsed START_FRAMES fnum := by
  have hconv : toInt32 ((fnum : Int) - START_FRAMES) = (fnum : Int) - START_FRAMES := by
    unfold toInt32
    split_ifs <;> omega
  have hclamp : (if (fnum : Int) - START_FRAMES < 0 then 0 else (fnum : Int) - START_FRAMES)
      = max ((fnum : Int) - START_FRAMES) 0 := by
    rcases le_or_lt 0 ((fnum : Int) - START_FRAMES) with hd | hd
    · rw [max_eq_left hd, if_neg (by omega)]
    · rw [max_eq_right (by omega), if_pos hd]
  have he : 0 ≤ max ((fnum : Int) - START_FRAMES) 0 := le_max_right _ _
  unfold Analyzer.frameAsTimer Analyzer.elapsed TIMER_MINS
  simp only [hconv, hclamp]
  generalize max ((fnum : Int) - START_FRAMES) 0 = e at he
  split_ifs <;> omega

/-- C23. At `fnum = START_FRAMES = 123` no frame has elapsed, and `frameAsTimer` computes
`lmins = 8`, `lsecs = 60`, `lframes = 0`: the sum `3600*lmins + 60*lsecs + lframes` is
32400, not the `8*3600 - 0 = 28800` frames that remain. -/
theorem frameAsTimer_at_start :
    Analyzer.elapsed 123 123 = 0 ∧
    Analyzer.frameAsTimer 123 123 = (8, 60, 0) ∧
    3600 * (Analyzer.frameAsTimer 123 123).1 + 60 * (Analyzer.frameAsTimer 123 123).2.1
      + (Analyzer.frameAsTimer 123 123).2.2 = 32400 ∧
    3600 * (Analyzer.frameAsTimer 123 123).1 + 60 * (Analyzer.frameAsTimer 123 123).2.1
      + (Analyzer.frameAsTimer 123 123).2.2 ≠ 8 * 3600 - Analyzer.elapsed 123 123 := by
  decide

end slip
